import Mathlib

/-!
Verification of the ascii-motion-mcp project state engine.

This file is a shallow embedding of the `ProjectStateManager` class
(`state.ts`) and its supporting types (`types.ts`).  Mutable JS state is
modelled by explicit state passing: each method becomes a pure function
from `ProjectState` to a result paired with the updated `ProjectState`.

Modelling conventions, used throughout:
* JS numbers that the engine treats as integers (coordinates, frame
  indices, timeline positions) are `Int` or `Nat`; JS numbers that may be
  fractional (durations in ms, frame rates, keyframe values) are `ℚ`.
* The sparse canvas record keyed by `"x,y"` strings is a `Finmap` keyed by
  the integer pair itself; `createCellKey` is injective so nothing is lost.
* `crypto.randomUUID()`-based id generation is modelled by a deterministic
  counter `nextId` threaded through the state; ids only matter as
  identifiers.
* History entries close over mutable objects in the source; here they are
  data (`HEntry`) carrying the captured values, and the closure bodies are
  the interpretation functions `HEntry.undoAct` / `HEntry.redoAct`.  A
  captured object reference (a layer, a content frame) is modelled by the
  object id, and mutation through it by updating the first identically
  identified object in the current state.
-/

set_option linter.unusedVariables false

namespace AsciiMotion

/-- A single character cell: `char`, foreground `color`, background
`bgColor` (the `CellSchema` object of `types.ts`). -/
structure Cell where
  char : Char
  color : String
  bgColor : String
deriving DecidableEq

/-- The distinguished `EMPTY_CELL` constant of `types.ts`. -/
def EMPTY_CELL : Cell := { char := ' ', color := "#FFFFFF", bgColor := "transparent" }

/-- Coordinate keys.  The source encodes `(x, y)` as the string
`x + "," + y` via `createCellKey`; that encoding is injective on integer
pairs, so keys are modelled as the pairs themselves. -/
abbrev CellKey := Int × Int

/-- Sparse canvas data (`CanvasData` in `types.ts`): a JS record from
`"x,y"` keys to cells, modelled as a finite map. -/
abbrev Grid := Finmap (fun _ : CellKey => Cell)

/-- Reading `record[key]`, giving `none` for an absent key. -/
def gridGet (g : Grid) (k : CellKey) : Option Cell := g.lookup k

/-- Writing `record[key] = cell`. -/
def gridSet (g : Grid) (k : CellKey) (c : Cell) : Grid := g.insert k c

/-- `delete record[key]`. -/
def gridDel (g : Grid) (k : CellKey) : Grid := g.erase k

/-- `isInBounds` from `types.ts`. -/
def isInBounds (x y w h : Int) : Bool :=
  0 ≤ x && x < w && 0 ≤ y && y < h

/-- `Math.max(lo, Math.min(hi, v))`, the clamping idiom of the source. -/
def jsClamp (lo hi v : Int) : Int := max lo (min hi v)

/-- `Math.round` on an exact rational: round half toward positive
infinity (the floor of `q + 1/2`), as JS does. -/
def jsRound (q : ℚ) : Int := (q + 1 / 2).floor

/-- Easing curve (`EasingCurveSchema`): a preset name plus optional cubic
bezier control points (stored but never read by the engine core). -/
structure EasingCurve where
  type : String
  x1 : Option ℚ := none
  y1 : Option ℚ := none
  x2 : Option ℚ := none
  y2 : Option ℚ := none
deriving DecidableEq

/-- A keyframe (`KeyframeSchema`).  The schema also admits boolean and
string values, but the engine interpolates values as numbers, which is
the only use the modelled operations make of them. -/
structure MCPKeyframe where
  id : String
  frame : Int
  value : ℚ
  easing : EasingCurve
deriving DecidableEq

/-- A property track (`PropertyTrackSchema`). -/
structure MCPPropertyTrack where
  id : String
  propertyPath : String
  keyframes : List MCPKeyframe
  loopKeyframes : Bool
deriving DecidableEq

/-- A content frame (`ContentFrameSchema`): a timed segment of canvas
data owned by a layer. -/
structure MCPContentFrame where
  id : String
  name : String
  startFrame : Int
  durationFrames : Int
  data : Grid
  hidden : Option Bool
deriving DecidableEq

/-- `if (cf.hidden) continue`: only an actual `true` is truthy. -/
def cfHidden (cf : MCPContentFrame) : Bool := cf.hidden == some true

/-- A layer (`LayerSchema`). -/
structure MCPLayer where
  id : String
  name : String
  visible : Bool
  solo : Bool
  locked : Bool
  opacity : ℚ
  contentFrames : List MCPContentFrame
  propertyTracks : List MCPPropertyTrack
  staticProperties : List (String × ℚ)
  parentGroupId : Option String
  syncKeyframesToFrames : Option Bool
deriving DecidableEq

/-- A layer group (`LayerGroupSchema`); organizational only. -/
structure MCPLayerGroup where
  id : String
  name : String
  childLayerIds : List String
  visible : Bool
  solo : Bool
  locked : Bool
  collapsed : Bool
deriving DecidableEq

/-- A legacy flat-model frame (`Frame` in `types.ts`). -/
structure Frame where
  id : String
  name : String
  duration : ℚ
  data : Grid
deriving DecidableEq

/-- Timeline configuration (`TimelineConfigSchema`). -/
structure TimelineConfig where
  frameRate : ℚ
  durationFrames : Int
deriving DecidableEq

/-- Tool state (`ToolStateSchema`). -/
structure ToolState where
  activeTool : String
  selectedColor : String
  selectedBgColor : String
  selectedCharacter : Char
  paintBucketContiguous : Bool
  rectangleFilled : Bool
deriving DecidableEq

/-- Typography settings (`TypographySettingsSchema`). -/
structure TypographySettings where
  fontSize : ℚ
  characterSpacing : ℚ
  lineSpacing : ℚ
  selectedFontId : String
deriving DecidableEq

/-- A selection (`SelectionSchema`): rectangle or explicit cell set. -/
inductive Selection where
  | rectangle (startX startY endX endY : Int)
  | cells (cells : List CellKey)
deriving DecidableEq

/-- Update the first element of a list satisfying `p`.  This models an
in-place mutation of the object returned by `Array.prototype.find`. -/
def updFirst (p : α → Bool) (f : α → α) : List α → List α
  | [] => []
  | a :: l => if p a then f a :: l else a :: updFirst p f l

/-- Update the element at index `i`.  This models an in-place mutation of
`arr[i]`; an out-of-range index changes nothing. -/
def updAt (i : Nat) (f : α → α) : List α → List α
  | [] => []
  | a :: l =>
    match i with
    | 0 => f a :: l
    | i + 1 => a :: updAt i f l

/-- `arr.splice(i, 0, a)` for a nonnegative index: JS clamps `i` to the
array length, which is exactly take-append-drop. -/
def insertAt (i : Nat) (a : α) (l : List α) : List α := l.take i ++ a :: l.drop i

/-- `arr.splice(i, 1)` for a nonnegative index: removes the element at
`i` when it exists; an index past the end removes nothing, as in JS. -/
def removeAt (i : Nat) (l : List α) : List α := l.take i ++ l.drop (i + 1)

/-- Keep only the entries whose key satisfies `p`: the filtering loop of
`resizeCanvas` rebuilding a frame record entry by entry. -/
def gridFilter (p : CellKey → Bool) (g : Grid) : Grid :=
  Finmap.liftOn g
    (fun l => AList.toFinmap
      ⟨l.entries.filter (fun e => p e.1),
       List.NodupKeys.sublist (List.filter_sublist _) l.nodupKeys⟩)
    (fun _ _ h => AList.toFinmap_eq.2 (h.filter _))

/-- The clipping step of `resizeCanvas`: keep a cell iff `x < width` and
`y < height` (the source checks no lower bound here). -/
def clipGrid (w h : Int) (g : Grid) : Grid :=
  gridFilter (fun k => k.1 < w && k.2 < h) g

/-- The part of the engine state that history closures read and write:
canvas dimensions, the legacy frame list, the current frame index and the
layer list.  Grouping these lets a history entry act as a function on
`Doc`, mirroring how the source closures touch only these fields. -/
structure Doc where
  width : Int
  height : Int
  frames : List Frame
  currentFrameIndex : Nat
  layers : List MCPLayer
deriving DecidableEq

/-- The grid a history closure captured a reference to: either a content
frame (the positions of the found layer and content frame at capture
time) or a legacy frame (its index at capture time).  A captured JS
object reference is modelled by the position of the found object; the
two coincide whenever the list structure is unchanged between capture
and replay, in particular under the last-in first-out undo and redo
discipline, where only grids inside the frozen structure change. -/
inductive GridTarget where
  | layerCf (layerIdx cfIdx : Nat)
  | legacyFrame (frameIdx : Nat)
deriving DecidableEq

/-- Apply `f` to the data of the content frame at position `cfIdx` of
the layer at position `layerIdx`. -/
def updCfData (layerIdx cfIdx : Nat) (f : Grid → Grid)
    (layers : List MCPLayer) : List MCPLayer :=
  let onCf : MCPContentFrame → MCPContentFrame := fun cf => { cf with data := f cf.data }
  let onLayer : MCPLayer → MCPLayer := fun l =>
    { l with contentFrames := updAt cfIdx onCf l.contentFrames }
  updAt layerIdx onLayer layers

/-- Apply `f` to the grid a `GridTarget` designates. -/
def applyGridTarget (t : GridTarget) (f : Grid → Grid) (d : Doc) : Doc :=
  match t with
  | .layerCf li ci => { d with layers := updCfData li ci f d.layers }
  | .legacyFrame i =>
    { d with frames := updAt i (fun fr => { fr with data := f fr.data }) d.frames }

/-- Read the grid a `GridTarget` designates (empty for a dangling
target, which the modelled operations never produce). -/
def readGridTarget (t : GridTarget) (d : Doc) : Grid :=
  match t with
  | .layerCf li ci =>
    match d.layers.get? li with
    | none => ∅
    | some l =>
      match l.contentFrames.get? ci with
      | none => ∅
      | some cf => cf.data
  | .legacyFrame i =>
    match d.frames.get? i with
    | none => ∅
    | some fr => fr.data

/-- A history entry.  The source stores `{type, description, timestamp,
undo, redo}`; `type`, `description` and `timestamp` are behaviourally
inert metadata (and `Date.now()` is nondeterministic), so only the data
captured by the two closures is modelled, one constructor per closure
shape. -/
inductive HEntry where
  | setCell (target : GridTarget) (key : CellKey) (previousCell : Option Cell) (cell : Cell)
  | replaceData (target : GridTarget) (previousData newData : Grid)
  | resizeCanvas (previousWidth previousHeight width height : Int)
      (previousFrameData : List Grid)
  | addFrame (insertIndex : Nat) (newFrame : Frame)
  | deleteFrame (index : Nat) (deletedFrame : Frame) (previousCurrentIndex : Nat)
  | duplicateFrame (insertIndex : Nat) (newFrame : Frame)
  | setFrameDuration (index : Nat) (previousDuration duration : ℚ)
  | setFrameName (index : Nat) (previousName name : String)
deriving DecidableEq

/-- `frames.forEach((frame, i) => { frame.data = previousFrameData[i] })`
of the `resizeCanvas` undo closure.  A frame beyond the snapshot keeps
its data (the source would store `undefined` there; under the last-in
first-out undo discipline the lists always have equal length). -/
def restoreFrameData : List Grid → List Frame → List Frame
  | _, [] => []
  | [], fr :: frs => fr :: restoreFrameData [] frs
  | g :: gs, fr :: frs => { fr with data := g } :: restoreFrameData gs frs

/-- `Math.max(0, frames.length - 1)` reclamping of `currentFrameIndex`
after a frame removal (`Nat` subtraction already yields `0` on empty). -/
def reclampCurrentFrame (d : Doc) : Doc :=
  if d.currentFrameIndex ≥ d.frames.length then
    { d with currentFrameIndex := d.frames.length - 1 }
  else d

/-- The body of the `undo` closure of each history entry. -/
def HEntry.undoAct : HEntry → Doc → Doc
  | .setCell t key prev _cell, d =>
    applyGridTarget t
      (fun g =>
        match prev with
        | some c => gridSet g key c
        | none => gridDel g key) d
  | .replaceData t prev _new, d => applyGridTarget t (fun _ => prev) d
  | .resizeCanvas pw ph _w _h prevData, d =>
    { d with width := pw, height := ph, frames := restoreFrameData prevData d.frames }
  | .addFrame i _f, d => reclampCurrentFrame { d with frames := removeAt i d.frames }
  | .deleteFrame i fr prevIdx, d =>
    { d with frames := insertAt i fr d.frames, currentFrameIndex := prevIdx }
  | .duplicateFrame i _f, d => { d with frames := removeAt i d.frames }
  | .setFrameDuration i prev _dur, d =>
    { d with frames := updAt i (fun fr => { fr with duration := prev }) d.frames }
  | .setFrameName i prev _nm, d =>
    { d with frames := updAt i (fun fr => { fr with name := prev }) d.frames }

/-- The body of the `redo` closure of each history entry. -/
def HEntry.redoAct : HEntry → Doc → Doc
  | .setCell t key _prev cell, d =>
    applyGridTarget t
      (fun g =>
        if cell = EMPTY_CELL then gridDel g key else gridSet g key cell) d
  | .replaceData t _prev new, d => applyGridTarget t (fun _ => new) d
  | .resizeCanvas _pw _ph w h _prevData, d =>
    { d with width := w, height := h,
             frames := d.frames.map (fun fr => { fr with data := clipGrid w h fr.data }) }
  | .addFrame i f, d => { d with frames := insertAt i f d.frames }
  | .deleteFrame i _fr _prevIdx, d =>
    reclampCurrentFrame { d with frames := removeAt i d.frames }
  | .duplicateFrame i f, d => { d with frames := insertAt i f d.frames }
  | .setFrameDuration i _prev dur, d =>
    { d with frames := updAt i (fun fr => { fr with duration := dur }) d.frames }
  | .setFrameName i _prev nm, d =>
    { d with frames := updAt i (fun fr => { fr with name := nm }) d.frames }

/-- The full engine state (`ProjectState` of `state.ts`).  The fields the
history closures touch live in `doc`; everything else is flat.  `nextId`
is the deterministic id source standing in for `crypto.randomUUID()`. -/
structure ProjectState where
  name : String
  description : String
  filePath : Option String
  isDirty : Bool
  backgroundColor : String
  showGrid : Bool
  doc : Doc
  frameRate : ℚ
  looping : Bool
  layerGroups : List MCPLayerGroup
  activeLayerId : Option String
  timelineConfig : TimelineConfig
  toolState : ToolState
  typography : TypographySettings
  selection : Option Selection
  historyStack : List HEntry
  historyIndex : Int
  maxHistorySize : Nat
  nextId : Nat
deriving DecidableEq

/-- Draw a fresh id with the given tag, bumping the counter. -/
def freshId (tag : String) (s : ProjectState) : String × ProjectState :=
  (tag ++ toString s.nextId, { s with nextId := s.nextId + 1 })

/-- `DEFAULT_FRAME_DURATION` (ms). -/
def DEFAULT_FRAME_DURATION : ℚ := 100

/-- `createDefaultFrame`, with the id drawn from the seed counter. -/
def createDefaultFrame (seed : Nat) : Frame :=
  { id := "frame-" ++ toString seed
    name := "Frame 1"
    duration := DEFAULT_FRAME_DURATION
    data := ∅ }

/-- `createDefaultLayer`: one content frame covering `[0, 1)` and anchor
statics at the canvas centre (`Math.floor` of half the dimensions). -/
def createDefaultLayer (nm : String) (canvasWidth canvasHeight : Int)
    (layerId cfId : String) : MCPLayer :=
  { id := layerId
    name := nm
    visible := true
    solo := false
    locked := false
    opacity := 100
    contentFrames := [{ id := cfId
                        name := "Frame 1"
                        startFrame := 0
                        durationFrames := 1
                        data := ∅
                        hidden := none }]
    propertyTracks := []
    staticProperties :=
      [("transform.anchorPoint.x", ((canvasWidth / 2 : Int) : ℚ)),
       ("transform.anchorPoint.y", ((canvasHeight / 2 : Int) : ℚ))]
    parentGroupId := none
    syncKeyframesToFrames := none }

/-- `createDefaultState`, seeded so that generated ids stay distinct. -/
def createDefaultState (seed : Nat) : ProjectState :=
  { name := "Untitled Project"
    description := ""
    filePath := none
    isDirty := false
    backgroundColor := "#000000"
    showGrid := true
    doc := { width := 80
             height := 24
             frames := [createDefaultFrame seed]
             currentFrameIndex := 0
             layers := [] }
    frameRate := 12
    looping := true
    layerGroups := []
    activeLayerId := none
    timelineConfig := { frameRate := 12, durationFrames := 12 }
    toolState := { activeTool := "pencil"
                   selectedColor := "#FFFFFF"
                   selectedBgColor := "transparent"
                   selectedCharacter := '@'
                   paintBucketContiguous := true
                   rectangleFilled := false }
    typography := { fontSize := 16
                    characterSpacing := 0
                    lineSpacing := 0
                    selectedFontId := "jetbrains-mono" }
    selection := none
    historyStack := []
    historyIndex := -1
    maxHistorySize := 100
    nextId := seed + 1 }

namespace ProjectState

/-- `isLayerMode()`: the document is in layer mode iff it has a layer. -/
def isLayerMode (s : ProjectState) : Bool := !s.doc.layers.isEmpty

/-- A junk frame standing in for the `undefined` that JS indexing would
produce; unreachable while the at-least-one-frame invariant holds. -/
def junkFrame : Frame := { id := "", name := "", duration := 0, data := ∅ }

/-- `getCurrentFrame()`. -/
def getCurrentFrame (s : ProjectState) : Frame :=
  s.doc.frames.getD s.doc.currentFrameIndex junkFrame

/-- The position of the active layer: the index the
`layers.find(l => l.id === activeLayerId)` of `getActiveLayer()` stops
at.  A missing or empty (falsy) `activeLayerId` yields `none`, as does
an id not present in the layer list. -/
def getActiveLayerIdx (s : ProjectState) : Option Nat :=
  match s.activeLayerId with
  | none => none
  | some lid =>
    if lid = "" then none else s.doc.layers.findIdx? (fun l => l.id == lid)

/-- `getActiveLayer()`. -/
def getActiveLayer (s : ProjectState) : Option MCPLayer :=
  (s.getActiveLayerIdx).bind (fun i => s.doc.layers.get? i)

/-- The predicate of `getContentFrameAtTime`: non-hidden and
`[startFrame, startFrame + durationFrames)` contains `frame`. -/
def cfAtTimePred (frame : Int) (cf : MCPContentFrame) : Bool :=
  !cfHidden cf && cf.startFrame ≤ frame && frame < cf.startFrame + cf.durationFrames

/-- The position of the content frame `getContentFrameAtTime` finds. -/
def cfIdxAtTime (layer : MCPLayer) (frame : Int) : Option Nat :=
  layer.contentFrames.findIdx? (cfAtTimePred frame)

/-- `getContentFrameAtTime(layer, frame)`: the first non-hidden content
frame whose interval contains `frame`. -/
def getContentFrameAtTime (layer : MCPLayer) (frame : Int) : Option MCPContentFrame :=
  (cfIdxAtTime layer frame).bind (fun i => layer.contentFrames.get? i)

/-- `getActiveContentFrame()`. -/
def getActiveContentFrame (s : ProjectState) : Option MCPContentFrame :=
  match s.getActiveLayer with
  | none => none
  | some layer => getContentFrameAtTime layer (s.doc.currentFrameIndex : Int)

/-- `getCell(x, y)`. -/
def getCell (s : ProjectState) (x y : Int) : Cell :=
  if !isInBounds x y s.doc.width s.doc.height then EMPTY_CELL
  else
    let key : CellKey := (x, y)
    if s.isLayerMode then
      match s.getActiveContentFrame with
      | none => EMPTY_CELL
      | some cf => (gridGet cf.data key).getD EMPTY_CELL
    else (gridGet s.getCurrentFrame.data key).getD EMPTY_CELL

/-- `pushHistory(entry)`: truncate the redo branch, append, move the
cursor to the top, then evict the oldest entry on overflow. -/
def pushHistory (e : HEntry) (s : ProjectState) : ProjectState :=
  let stack :=
    if s.historyIndex < (s.historyStack.length : Int) - 1 then
      s.historyStack.take (s.historyIndex + 1).toNat
    else s.historyStack
  let stack := stack ++ [e]
  let idx : Int := (stack.length : Int) - 1
  if stack.length > s.maxHistorySize then
    { s with historyStack := stack.drop 1, historyIndex := idx - 1 }
  else
    { s with historyStack := stack, historyIndex := idx }

/-- `undo()`.  The source indexes `historyStack[historyIndex]` blindly;
a desynchronized cursor is an impossible state (it would throw), modelled
as a failing no-op. -/
def undo (s : ProjectState) : Bool × ProjectState :=
  if s.historyIndex < 0 then (false, s)
  else
    match s.historyStack.get? s.historyIndex.toNat with
    | none => (false, s)
    | some e =>
      (true, { s with doc := e.undoAct s.doc
                      historyIndex := s.historyIndex - 1
                      isDirty := true })

/-- `redo()`. -/
def redo (s : ProjectState) : Bool × ProjectState :=
  if s.historyIndex ≥ (s.historyStack.length : Int) - 1 then (false, s)
  else
    let idx := s.historyIndex + 1
    match s.historyStack.get? idx.toNat with
    | none => (false, s)
    | some e =>
      (true, { s with doc := e.redoAct s.doc, historyIndex := idx, isDirty := true })

/-- `canUndo()`. -/
def canUndo (s : ProjectState) : Bool := s.historyIndex ≥ 0

/-- `canRedo()`. -/
def canRedo (s : ProjectState) : Bool :=
  s.historyIndex < (s.historyStack.length : Int) - 1

/-- Resolve the active layer and content frame together with their
positions: the `getActiveLayer()` / `getActiveContentFrame()` access
pattern shared by the canvas operations in layer mode. -/
def activeTarget (s : ProjectState) : Option (Nat × MCPLayer × Nat × MCPContentFrame) :=
  s.getActiveLayerIdx.bind fun li =>
    (s.doc.layers.get? li).bind fun layer =>
      (cfIdxAtTime layer (s.doc.currentFrameIndex : Int)).bind fun ci =>
        (layer.contentFrames.get? ci).map fun cf => (li, layer, ci, cf)

/-- `setCell(x, y, cell, recordHistory)`. -/
def setCell (x y : Int) (cell : Cell) (recordHistory : Bool)
    (s : ProjectState) : Bool × ProjectState :=
  if !isInBounds x y s.doc.width s.doc.height then (false, s)
  else
    let key : CellKey := (x, y)
    let eff : Grid → Grid := fun g =>
      if cell = EMPTY_CELL then gridDel g key else gridSet g key cell
    if s.isLayerMode then
      match s.activeTarget with
      | none => (false, s)
      | some (li, layer, ci, cf) =>
        if layer.locked then (false, s)
        else
          let tgt := GridTarget.layerCf li ci
          let previousCell := gridGet cf.data key
          let s1 :=
            if recordHistory then s.pushHistory (.setCell tgt key previousCell cell)
            else s
          (true, { s1 with doc := applyGridTarget tgt eff s1.doc, isDirty := true })
    else
      let tgt := GridTarget.legacyFrame s.doc.currentFrameIndex
      let previousCell := gridGet s.getCurrentFrame.data key
      let s1 :=
        if recordHistory then s.pushHistory (.setCell tgt key previousCell cell)
        else s
      (true, { s1 with doc := applyGridTarget tgt eff s1.doc, isDirty := true })

/-- One element of the `setCells` batch argument. -/
structure CellWrite where
  x : Int
  y : Int
  cell : Cell
deriving DecidableEq

/-- The write loop shared by both branches of `setCells`: skip
out-of-bounds entries, store or delete depending on emptiness, count
every applied write. -/
def writeCells (w h : Int) (cells : List CellWrite) (g : Grid) : Grid × Nat :=
  cells.foldl
    (fun (acc : Grid × Nat) cw =>
      if !isInBounds cw.x cw.y w h then acc
      else
        let key : CellKey := (cw.x, cw.y)
        if cw.cell = EMPTY_CELL then (gridDel acc.1 key, acc.2 + 1)
        else (gridSet acc.1 key cw.cell, acc.2 + 1))
    (g, 0)

/-- `setCells(cells, recordHistory)`. -/
def setCells (cells : List CellWrite) (recordHistory : Bool)
    (s : ProjectState) : Nat × ProjectState :=
  if s.isLayerMode then
    match s.activeTarget with
    | none => (0, s)
    | some (li, layer, ci, cf) =>
      if layer.locked then (0, s)
      else
          let tgt := GridTarget.layerCf li ci
          let previousData := cf.data
          let res := writeCells s.doc.width s.doc.height cells previousData
          let s1 :=
            if recordHistory && res.2 > 0 then
              s.pushHistory (.replaceData tgt previousData res.1)
            else s
          let s2 := { s1 with doc := applyGridTarget tgt (fun _ => res.1) s1.doc }
          (res.2, if res.2 > 0 then { s2 with isDirty := true } else s2)
  else
    let tgt := GridTarget.legacyFrame s.doc.currentFrameIndex
    let previousData := s.getCurrentFrame.data
    let res := writeCells s.doc.width s.doc.height cells previousData
    let s1 :=
      if recordHistory && res.2 > 0 then
        s.pushHistory (.replaceData tgt previousData res.1)
      else s
    let s2 := { s1 with doc := applyGridTarget tgt (fun _ => res.1) s1.doc }
    (res.2, if res.2 > 0 then { s2 with isDirty := true } else s2)

/-- `clearCell(x, y, recordHistory)`. -/
def clearCell (x y : Int) (recordHistory : Bool) (s : ProjectState) :
    Bool × ProjectState :=
  setCell x y EMPTY_CELL recordHistory s

/-- `clearCanvas(recordHistory)`. -/
def clearCanvas (recordHistory : Bool) (s : ProjectState) : ProjectState :=
  if s.isLayerMode then
    match s.activeTarget with
    | none => s
    | some (li, layer, ci, cf) =>
      if layer.locked then s
      else
          let tgt := GridTarget.layerCf li ci
          let s1 :=
            if recordHistory then s.pushHistory (.replaceData tgt cf.data ∅) else s
          { s1 with doc := applyGridTarget tgt (fun _ => ∅) s1.doc, isDirty := true }
  else
    let tgt := GridTarget.legacyFrame s.doc.currentFrameIndex
    let previousData := s.getCurrentFrame.data
    let s1 :=
      if recordHistory then s.pushHistory (.replaceData tgt previousData ∅) else s
    { s1 with doc := applyGridTarget tgt (fun _ => ∅) s1.doc, isDirty := true }

/-- `resizeCanvas(width, height, recordHistory)`: clamp to `[4, 200]` by
`[4, 100]`, snapshot every frame grid, then clip every frame to the new
bounds. -/
def resizeCanvas (width height : Int) (recordHistory : Bool)
    (s : ProjectState) : ProjectState :=
  let pw := s.doc.width
  let ph := s.doc.height
  let w := jsClamp 4 200 width
  let h := jsClamp 4 100 height
  let prevData := s.doc.frames.map (fun f => f.data)
  let s1 :=
    if recordHistory then s.pushHistory (.resizeCanvas pw ph w h prevData) else s
  { s1 with
      doc := { s1.doc with
                 width := w
                 height := h
                 frames := s1.doc.frames.map (fun fr => { fr with data := clipGrid w h fr.data }) }
      isDirty := true }

/-- The fill options object of `fillRegion`, with the source defaults. -/
structure FillOptions where
  contiguous : Bool := true
  matchChar : Bool := false
  matchColor : Bool := false
  matchBgColor : Bool := false
deriving DecidableEq

/-- The `matches` closure of `fillRegion`: each enabled predicate must
agree with the target cell; with no predicate enabled every cell
matches. -/
def cellMatches (o : FillOptions) (target c : Cell) : Bool :=
  if o.matchChar && c.char != target.char then false
  else if o.matchColor && c.color != target.color then false
  else if o.matchBgColor && c.bgColor != target.bgColor then false
  else true

/-- The breadth-first traversal of `fillRegion` (`contiguous` branch),
made total with explicit fuel; `bfsLoop_completes` below shows the fuel
`fillRegion` passes is never exhausted.  `visited` is the JS `Set` of
seen keys, `acc` the accumulating `cellsToFill` (each key enters at most
once, so a list models the JS insertion-ordered `Set`). -/
def bfsLoop (w h : Int) (lookupCell : CellKey → Cell) (o : FillOptions)
    (target : Cell) :
    Nat → List CellKey → List CellKey → List CellKey → Option (List CellKey)
  | _, [], _, acc => some acc
  | 0, _ :: _, _, _ => none
  | fuel + 1, (x, y) :: rest, visited, acc =>
    let key : CellKey := (x, y)
    if visited.contains key then bfsLoop w h lookupCell o target fuel rest visited acc
    else if !isInBounds x y w h then bfsLoop w h lookupCell o target fuel rest visited acc
    else
      let visited := key :: visited
      if !cellMatches o target (lookupCell key) then
        bfsLoop w h lookupCell o target fuel rest visited acc
      else
        bfsLoop w h lookupCell o target fuel
          (rest ++ [(x - 1, y), (x + 1, y), (x, y - 1), (x, y + 1)])
          visited (acc ++ [key])

/-- The fuel `fillRegion` hands to `bfsLoop`; `bfsLoop_completes` proves
it suffices for any input. -/
def bfsFuel (w h : Int) : Nat := 5 * (w.toNat * h.toNat) + 1

/-- The set of cells `fillRegion` will touch: breadth-first from the
seed when `contiguous`, otherwise a whole-canvas scan. -/
def cellsToFill (s : ProjectState) (startX startY : Int) (o : FillOptions)
    (target : Cell) : List CellKey :=
  if o.contiguous then
    match bfsLoop s.doc.width s.doc.height (fun k => s.getCell k.1 k.2) o target
        (bfsFuel s.doc.width s.doc.height) [(startX, startY)] [] [] with
    | some l => l
    | none => []
  else
    (List.range s.doc.height.toNat).flatMap (fun y =>
      (List.range s.doc.width.toNat).filterMap (fun x =>
        if cellMatches o target (s.getCell (x : Int) (y : Int)) then
          some ((x : Int), (y : Int))
        else none))

/-- `fillRegion(startX, startY, fillCell, options, recordHistory)`. -/
def fillRegion (startX startY : Int) (fillCell : Cell) (o : FillOptions)
    (recordHistory : Bool) (s : ProjectState) : Nat × ProjectState :=
  let target := s.getCell startX startY
  let keys := cellsToFill s startX startY o target
  let tgt : Option GridTarget :=
    if s.isLayerMode then
      match s.activeTarget with
      | some (li, _, ci, _) => some (.layerCf li ci)
      | none => none
    else some (.legacyFrame s.doc.currentFrameIndex)
  match tgt with
  | none => (0, s)
  | some t =>
    let previousData := readGridTarget t s.doc
    let isEmpty := fillCell = EMPTY_CELL
    let newData := keys.foldl
      (fun g k => if isEmpty then gridDel g k else gridSet g k fillCell) previousData
    let s1 :=
      if recordHistory && keys.length > 0 then
        s.pushHistory (.replaceData t previousData newData)
      else s
    let s2 := { s1 with doc := applyGridTarget t (fun _ => newData) s1.doc }
    (keys.length, if keys.length > 0 then { s2 with isDirty := true } else s2)

/-- `addFrame(atIndex?, canvasData?, duration?, recordHistory)`.  The
insertion index is modelled as a natural number: the source forwards it
to `splice`, whose nonnegative behaviour `insertAt` captures (a negative
index would count from the end; no claim exercises that). -/
def addFrame (atIndex : Option Nat) (canvasData : Option Grid)
    (duration : Option ℚ) (recordHistory : Bool) (s : ProjectState) :
    Frame × ProjectState :=
  let idRes := freshId "frame-" s
  let s := idRes.2
  let newFrame : Frame :=
    { id := idRes.1
      name := "Frame " ++ toString (s.doc.frames.length + 1)
      duration := duration.getD DEFAULT_FRAME_DURATION
      data := canvasData.getD ∅ }
  let insertIndex := atIndex.getD s.doc.frames.length
  let s1 :=
    if recordHistory then s.pushHistory (.addFrame insertIndex newFrame) else s
  (newFrame,
   { s1 with doc := { s1.doc with frames := insertAt insertIndex newFrame s1.doc.frames }
             isDirty := true })

/-- `deleteFrame(index, recordHistory)`: rejected when out of range or
when it would delete the sole remaining frame. -/
def deleteFrame (index : Int) (recordHistory : Bool) (s : ProjectState) :
    Bool × ProjectState :=
  if index < 0 || index ≥ (s.doc.frames.length : Int) then (false, s)
  else if s.doc.frames.length = 1 then (false, s)
  else
    let i := index.toNat
    let deletedFrame := s.doc.frames.getD i junkFrame
    let previousIdx := s.doc.currentFrameIndex
    let s1 :=
      if recordHistory then s.pushHistory (.deleteFrame i deletedFrame previousIdx)
      else s
    (true,
     { s1 with doc := reclampCurrentFrame { s1.doc with frames := removeAt i s1.doc.frames }
               isDirty := true })

/-- `duplicateFrame(index, recordHistory)`. -/
def duplicateFrame (index : Int) (recordHistory : Bool) (s : ProjectState) :
    Option Frame × ProjectState :=
  if index < 0 || index ≥ (s.doc.frames.length : Int) then (none, s)
  else
    let i := index.toNat
    let sourceFrame := s.doc.frames.getD i junkFrame
    let idRes := freshId "frame-" s
    let s := idRes.2
    let newFrame : Frame :=
      { id := idRes.1
        name := sourceFrame.name ++ " (copy)"
        duration := sourceFrame.duration
        data := sourceFrame.data }
    let insertIndex := i + 1
    let s1 :=
      if recordHistory then s.pushHistory (.duplicateFrame insertIndex newFrame) else s
    (some newFrame,
     { s1 with doc := { s1.doc with frames := insertAt insertIndex newFrame s1.doc.frames }
               isDirty := true })

/-- `goToFrame(index)`. -/
def goToFrame (index : Int) (s : ProjectState) : Bool × ProjectState :=
  if s.isLayerMode then
    if index < 0 || index ≥ s.timelineConfig.durationFrames then (false, s)
    else (true, { s with doc := { s.doc with currentFrameIndex := index.toNat } })
  else if index < 0 || index ≥ (s.doc.frames.length : Int) then (false, s)
  else (true, { s with doc := { s.doc with currentFrameIndex := index.toNat } })

/-- `setFrameDuration(index, duration, recordHistory)`: clamps the
duration to `[10, 60000]` ms. -/
def setFrameDuration (index : Int) (duration : ℚ) (recordHistory : Bool)
    (s : ProjectState) : Bool × ProjectState :=
  if index < 0 || index ≥ (s.doc.frames.length : Int) then (false, s)
  else
    let i := index.toNat
    let dur := max 10 (min 60000 duration)
    let previousDuration := (s.doc.frames.getD i junkFrame).duration
    let s1 :=
      if recordHistory then s.pushHistory (.setFrameDuration i previousDuration dur)
      else s
    (true,
     { s1 with doc := { s1.doc with
                          frames := updAt i (fun fr => { fr with duration := dur }) s1.doc.frames }
               isDirty := true })

/-- `setFrameName(index, name, recordHistory)`. -/
def setFrameName (index : Int) (nm : String) (recordHistory : Bool)
    (s : ProjectState) : Bool × ProjectState :=
  if index < 0 || index ≥ (s.doc.frames.length : Int) then (false, s)
  else
    let i := index.toNat
    let previousName := (s.doc.frames.getD i junkFrame).name
    let s1 :=
      if recordHistory then s.pushHistory (.setFrameName i previousName nm) else s
    (true,
     { s1 with doc := { s1.doc with
                          frames := updAt i (fun fr => { fr with name := nm }) s1.doc.frames }
               isDirty := true })

/-- Insert `x` behind every element already ordered no later than it:
the insertion step of a stable sort. -/
def insSorted (le : α → α → Bool) (x : α) : List α → List α
  | [] => [x]
  | y :: l => if le y x then y :: insSorted le x l else x :: y :: l

/-- A stable sort (insertion sort, structurally recursive so concrete
states evaluate inside the kernel), modelling the stable
`Array.prototype.sort` of modern JS engines. -/
def stableSortBy (le : α → α → Bool) (l : List α) : List α :=
  l.foldl (fun acc x => insSorted le x acc) []

/-- `contentFrames.sort((a, b) => a.startFrame - b.startFrame)`: a stable
sort by start frame. -/
def sortByStart (l : List MCPContentFrame) : List MCPContentFrame :=
  stableSortBy (fun a b => a.startFrame ≤ b.startFrame) l

/-- `keyframes.sort((a, b) => a.frame - b.frame)`. -/
def sortByFrame (l : List MCPKeyframe) : List MCPKeyframe :=
  stableSortBy (fun a b => a.frame ≤ b.frame) l

/-- `addLayer(name?)`: append a default layer, make it active, seed the
timeline to 12 frames if it had none. -/
def addLayer (nm : Option String) (s : ProjectState) : MCPLayer × ProjectState :=
  let layerIdRes := freshId "layer-" s
  let s := layerIdRes.2
  let cfIdRes := freshId "cf-" s
  let s := cfIdRes.2
  let layer := createDefaultLayer
    (nm.getD ("Layer " ++ toString (s.doc.layers.length + 1)))
    s.doc.width s.doc.height layerIdRes.1 cfIdRes.1
  let tc :=
    if s.timelineConfig.durationFrames < 1 then
      { s.timelineConfig with durationFrames := 12 }
    else s.timelineConfig
  (layer,
   { s with doc := { s.doc with layers := s.doc.layers ++ [layer] }
            activeLayerId := some layer.id
            timelineConfig := tc
            isDirty := true })

/-- `setActiveLayer(layerId)`. -/
def setActiveLayer (layerId : String) (s : ProjectState) : Bool × ProjectState :=
  if (s.doc.layers.find? (fun l => l.id == layerId)).isSome then
    (true, { s with activeLayerId := some layerId })
  else (false, s)

/-- `setLayerLocked(layerId, locked)`. -/
def setLayerLocked (layerId : String) (locked : Bool) (s : ProjectState) :
    Bool × ProjectState :=
  if (s.doc.layers.find? (fun l => l.id == layerId)).isSome then
    (true,
     { s with doc := { s.doc with
                         layers := updFirst (fun l => l.id == layerId)
                           (fun l => { l with locked := locked }) s.doc.layers }
              isDirty := true })
  else (false, s)

/-- The overlap test of `addContentFrame`: the proposed
`[startFrame, endFrame)` meets `[cf.startFrame, cfEnd)`. -/
def overlapsCf (startFrame endFrame : Int) (cf : MCPContentFrame) : Bool :=
  startFrame < cf.startFrame + cf.durationFrames && endFrame > cf.startFrame

/-- `addContentFrame(layerId, startFrame, durationFrames, data?)`:
`none` for an unknown layer or an overlapping interval; otherwise insert
(with duration floored to 1), re-sort, and grow the timeline. -/
def addContentFrame (layerId : String) (startFrame durationFrames : Int)
    (data : Option Grid) (s : ProjectState) :
    Option MCPContentFrame × ProjectState :=
  match s.doc.layers.find? (fun l => l.id == layerId) with
  | none => (none, s)
  | some layer =>
    let endFrame := startFrame + durationFrames
    if layer.contentFrames.any (overlapsCf startFrame endFrame) then (none, s)
    else
      let idRes := freshId "cf-" s
      let s := idRes.2
      let cf : MCPContentFrame :=
        { id := idRes.1
          name := "Frame " ++ toString (layer.contentFrames.length + 1)
          startFrame := startFrame
          durationFrames := max 1 durationFrames
          data := data.getD ∅
          hidden := none }
      let layers := updFirst (fun l => l.id == layerId)
        (fun l => { l with contentFrames := sortByStart (l.contentFrames ++ [cf]) })
        s.doc.layers
      let tc :=
        if startFrame + durationFrames > s.timelineConfig.durationFrames then
          { s.timelineConfig with durationFrames := startFrame + durationFrames }
        else s.timelineConfig
      (some cf,
       { s with doc := { s.doc with layers := layers }
                timelineConfig := tc
                isDirty := true })

/-- `removeContentFrame(layerId, contentFrameId)`. -/
def removeContentFrame (layerId cfId : String) (s : ProjectState) :
    Bool × ProjectState :=
  match s.doc.layers.find? (fun l => l.id == layerId) with
  | none => (false, s)
  | some layer =>
    match layer.contentFrames.findIdx? (fun cf => cf.id == cfId) with
    | none => (false, s)
    | some i =>
      (true,
       { s with doc := { s.doc with
                           layers := updFirst (fun l => l.id == layerId)
                             (fun l => { l with contentFrames := removeAt i l.contentFrames })
                             s.doc.layers }
                isDirty := true })

/-- `updateContentFrameData(layerId, contentFrameId, data)`: replace the
content frame grid with a copy of the caller grid, unchecked. -/
def updateContentFrameData (layerId cfId : String) (data : Grid)
    (s : ProjectState) : Bool × ProjectState :=
  match s.doc.layers.find? (fun l => l.id == layerId) with
  | none => (false, s)
  | some layer =>
    if (layer.contentFrames.find? (fun cf => cf.id == cfId)).isSome then
      let setData : MCPContentFrame → MCPContentFrame := fun cf => { cf with data := data }
      (true,
       { s with doc := { s.doc with
                           layers := updFirst (fun l => l.id == layerId)
                             (fun l =>
                               { l with contentFrames :=
                                   updFirst (fun cf => cf.id == cfId) setData l.contentFrames })
                             s.doc.layers }
                isDirty := true })
    else (false, s)

/-- `updateContentFrameTiming(layerId, contentFrameId, startFrame,
durationFrames)`: overlap check against every sibling (the frame being
moved excluded by id), then move, floor the duration to 1, grow the
timeline, re-sort. -/
def updateContentFrameTiming (layerId cfId : String)
    (startFrame durationFrames : Int) (s : ProjectState) : Bool × ProjectState :=
  match s.doc.layers.find? (fun l => l.id == layerId) with
  | none => (false, s)
  | some layer =>
    if (layer.contentFrames.find? (fun cf => cf.id == cfId)).isNone then (false, s)
    else
      let endFrame := startFrame + durationFrames
      if layer.contentFrames.any (fun other =>
          other.id != cfId && overlapsCf startFrame endFrame other) then (false, s)
      else
        let layers := updFirst (fun l => l.id == layerId)
          (fun l =>
            { l with contentFrames :=
                sortByStart (updFirst (fun cf => cf.id == cfId)
                  (fun cf => { cf with startFrame := startFrame
                                       durationFrames := max 1 durationFrames })
                  l.contentFrames) })
          s.doc.layers
        let tc :=
          if startFrame + durationFrames > s.timelineConfig.durationFrames then
            { s.timelineConfig with durationFrames := startFrame + durationFrames }
          else s.timelineConfig
        (true,
         { s with doc := { s.doc with layers := layers }
                  timelineConfig := tc
                  isDirty := true })

/-- `addPropertyTrack(layerId, propertyPath)`: at most one track per
property path. -/
def addPropertyTrack (layerId path : String) (s : ProjectState) :
    Option MCPPropertyTrack × ProjectState :=
  match s.doc.layers.find? (fun l => l.id == layerId) with
  | none => (none, s)
  | some layer =>
    if (layer.propertyTracks.find? (fun t => t.propertyPath == path)).isSome then
      (none, s)
    else
      let idRes := freshId "pt-" s
      let s := idRes.2
      let track : MCPPropertyTrack :=
        { id := idRes.1, propertyPath := path, keyframes := [], loopKeyframes := false }
      (some track,
       { s with doc := { s.doc with
                           layers := updFirst (fun l => l.id == layerId)
                             (fun l => { l with propertyTracks := l.propertyTracks ++ [track] })
                             s.doc.layers }
                isDirty := true })

/-- `addKeyframe(layerId, propertyPath, frame, value, easing?)`: create
the track lazily, replace any keyframe at the same frame, keep keyframes
sorted, grow the timeline past `frame`. -/
def addKeyframe (layerId path : String) (frame : Int) (value : ℚ)
    (easing : Option EasingCurve) (s : ProjectState) :
    Option MCPKeyframe × ProjectState :=
  match s.doc.layers.find? (fun l => l.id == layerId) with
  | none => (none, s)
  | some layer =>
    let hasTrack := (layer.propertyTracks.find? (fun t => t.propertyPath == path)).isSome
    let s := if hasTrack then s else (addPropertyTrack layerId path s).2
    let idRes := freshId "kf-" s
    let s := idRes.2
    let kf : MCPKeyframe :=
      { id := idRes.1
        frame := frame
        value := value
        easing := easing.getD { type := "linear" } }
    let setKfs : MCPPropertyTrack → MCPPropertyTrack := fun t =>
      { t with keyframes :=
          sortByFrame ((t.keyframes.filter (fun k => k.frame ≠ frame)) ++ [kf]) }
    let layers := updFirst (fun l => l.id == layerId)
      (fun l =>
        { l with propertyTracks :=
            updFirst (fun t => t.propertyPath == path) setKfs l.propertyTracks })
      s.doc.layers
    let tc :=
      if frame ≥ s.timelineConfig.durationFrames then
        { s.timelineConfig with durationFrames := frame + 1 }
      else s.timelineConfig
    (some kf,
     { s with doc := { s.doc with layers := layers }
              timelineConfig := tc
              isDirty := true })

/-- The bracketing-pair scan of `interpolatePropertyValue`: the first
adjacent pair with `prev.frame ≤ frame < next.frame`, evaluated as the
source does (hold returns `prev.value`; otherwise linear interpolation
rounded to the nearest integer). -/
def interpPairs (frame : Int) : List MCPKeyframe → Option ℚ
  | a :: b :: rest =>
    if a.frame ≤ frame && frame < b.frame then
      some (if a.easing.type == "hold" then a.value
            else ((jsRound (a.value + (b.value - a.value) *
              (((frame - a.frame : Int) : ℚ) / ((b.frame - a.frame : Int) : ℚ)))) : ℚ))
    else interpPairs frame (b :: rest)
  | _ => none

/-- `interpolatePropertyValue(track, frame)`. -/
def interpolatePropertyValue (track : MCPPropertyTrack) (frame : Int) : ℚ :=
  match track.keyframes with
  | [] => 0
  | [k] => k.value
  | first :: restKfs =>
    let last := (first :: restKfs).getLastD first
    if frame ≤ first.frame then first.value
    else if frame ≥ last.frame then last.value
    else
      match interpPairs frame (first :: restKfs) with
      | some v => v
      | none => last.value

/-- The options object of `newProject`. -/
structure NewProjectOptions where
  width : Option Int := none
  height : Option Int := none
  name : Option String := none
deriving DecidableEq

/-- `newProject(options?)`: replace the state with a fresh default, then
apply each option only when it is truthy (so a provided `0` width or
height and an empty name are ignored, as JS `if (options?.width)`
does). -/
def newProject (opts : NewProjectOptions) (s : ProjectState) : ProjectState :=
  let base := createDefaultState s.nextId
  let base :=
    match opts.width with
    | some w =>
      if w ≠ 0 then { base with doc := { base.doc with width := jsClamp 4 200 w } }
      else base
    | none => base
  let base :=
    match opts.height with
    | some h =>
      if h ≠ 0 then { base with doc := { base.doc with height := jsClamp 4 100 h } }
      else base
    | none => base
  let base :=
    match opts.name with
    | some nm => if nm ≠ "" then { base with name := nm } else base
    | none => base
  { base with isDirty := false }

end ProjectState

/-- A frame as it appears in the v1 wire format (`SessionDataSchema`
declares `id` required and everything else optional). -/
structure WireFrame where
  id : String
  name : Option String
  duration : Option ℚ
  data : Option Grid
  thumbnail : Option String
deriving DecidableEq

/-- The `canvas` section of the v1 wire format.  `showGrid` carries its
presence: zod fills `true` when absent. -/
structure WireCanvas where
  width : Int
  height : Int
  canvasBackgroundColor : String
  showGrid : Option Bool
deriving DecidableEq

/-- The `animation` section of the v1 wire format. -/
structure WireAnimation where
  frames : List WireFrame
  currentFrameIndex : Int
  frameRate : Option ℚ
  looping : Option Bool
deriving DecidableEq

/-- The `tools` section; every field is zod-defaulted, so presence is
tracked per field. -/
structure WireTools where
  activeTool : Option String
  selectedColor : Option String
  selectedBgColor : Option String
  selectedCharacter : Option Char
  paintBucketContiguous : Option Bool
  rectangleFilled : Option Bool
deriving DecidableEq

/-- The `typography` section of the v1 wire format. -/
structure WireTypography where
  fontSize : Option ℚ
  characterSpacing : Option ℚ
  lineSpacing : Option ℚ
  selectedFontId : Option String
deriving DecidableEq

/-- The `ui` section of the v1 wire format (`UIStateSchema`); the engine
never reads it back, which matters for the round-trip claim. -/
structure WireUI where
  zoom : Option ℚ
  panOffset : Option (ℚ × ℚ)
  theme : Option String
deriving DecidableEq

/-- A v1 (flat) session document (`SessionDataSchema`). -/
structure SessionData where
  version : Option String
  name : Option String
  description : Option String
  canvas : WireCanvas
  animation : WireAnimation
  tools : Option WireTools
  typography : Option WireTypography
  ui : Option WireUI
deriving DecidableEq

/-- One character of `/^#[0-9A-Fa-f]{6}$/`. -/
def isHexDigit (c : Char) : Bool :=
  c.isDigit || ('A' ≤ c && c ≤ 'F') || ('a' ≤ c && c ≤ 'f')

/-- The hex colour regex of the schemas. -/
def isHexColor (str : String) : Bool :=
  match str.data with
  | '#' :: rest => rest.length == 6 && rest.all isHexDigit
  | _ => false

/-- A wire cell is schema-valid when its colour is hex (its `char` is a
single character by the `Char` representation; `bgColor` is free-form). -/
def validCell (c : Cell) : Bool := isHexColor c.color

/-- Evaluate `p` on every stored entry of a grid.  The underlying
quotient respects this because `all` over a list is permutation
invariant. -/
def gridAll (p : CellKey → Cell → Bool) (g : Grid) : Bool :=
  Finmap.liftOn g (fun l => l.entries.all (fun e => p e.1 e.2))
    (fun a b h => by
      show a.entries.all (fun e => p e.1 e.2) = b.entries.all (fun e => p e.1 e.2)
      cases h1 : a.entries.all (fun e => p e.1 e.2) <;>
        cases h2 : b.entries.all (fun e => p e.1 e.2) <;> try rfl
      · rw [List.all_eq_true] at h2
        rw [List.all_eq_false] at h1
        obtain ⟨x, hx, hpx⟩ := h1
        exact absurd (h2 x (h.mem_iff.mp hx)) (by simp [hpx])
      · rw [List.all_eq_true] at h1
        rw [List.all_eq_false] at h2
        obtain ⟨x, hx, hpx⟩ := h2
        exact absurd (h1 x (h.mem_iff.mpr hx)) (by simp [hpx]))

/-- A wire grid is schema-valid when keys match `/^\d+,\d+$/` (both
coordinates nonnegative) and cells validate. -/
def validGrid (g : Grid) : Bool :=
  gridAll (fun k c => decide (0 ≤ k.1) && decide (0 ≤ k.2) && validCell c) g

/-- The `activeTool` enumeration of `ToolStateSchema`. -/
def toolNames : List String :=
  ["pencil", "eraser", "paintbucket", "select", "lasso", "magicwand",
   "rectangle", "ellipse", "eyedropper", "line", "text", "asciitype",
   "asciibox", "brush", "beziershape", "gradientfill", "fliphorizontal",
   "flipvertical"]

/-- Schema validity of the optional `tools` section. -/
def validWireTools (t : WireTools) : Bool :=
  (match t.activeTool with
   | none => true
   | some a => toolNames.contains a) &&
  (match t.selectedColor with
   | none => true
   | some c => isHexColor c)

/-- Schema validity of the optional `typography` section. -/
def validWireTypography (t : WireTypography) : Bool :=
  (match t.fontSize with
   | none => true
   | some q => 8 ≤ q && q ≤ 32) &&
  (match t.characterSpacing with
   | none => true
   | some q => 0 ≤ q && q ≤ 10) &&
  (match t.lineSpacing with
   | none => true
   | some q => 0 ≤ q && q ≤ 10)

/-- Schema validity of the optional `ui` section. -/
def validWireUI (u : WireUI) : Bool :=
  (match u.zoom with
   | none => true
   | some q => 1 / 10 ≤ q && q ≤ 5) &&
  (match u.theme with
   | none => true
   | some t => t == "light" || t == "dark")

/-- `SessionDataSchema.parse(data)` succeeds: the validity checks the
flat schema performs (defaults are applied by the readers below). -/
def validFlat (d : SessionData) : Bool :=
  4 ≤ d.canvas.width && d.canvas.width ≤ 200 &&
  4 ≤ d.canvas.height && d.canvas.height ≤ 100 &&
  isHexColor d.canvas.canvasBackgroundColor &&
  0 ≤ d.animation.currentFrameIndex &&
  d.animation.frames.all (fun f =>
    match f.data with
    | none => true
    | some g => validGrid g) &&
  (match d.tools with
   | none => true
   | some t => validWireTools t) &&
  (match d.typography with
   | none => true
   | some t => validWireTypography t) &&
  (match d.ui with
   | none => true
   | some u => validWireUI u)

/-- Reading a parsed `tools` section: zod has already filled every
defaulted field, so the spread into the default tool state replaces every
field. -/
def parseWireTools (t : WireTools) : ToolState :=
  { activeTool := t.activeTool.getD "pencil"
    selectedColor := t.selectedColor.getD "#FFFFFF"
    selectedBgColor := t.selectedBgColor.getD "transparent"
    selectedCharacter := t.selectedCharacter.getD '@'
    paintBucketContiguous := t.paintBucketContiguous.getD true
    rectangleFilled := t.rectangleFilled.getD false }

/-- Reading a parsed `typography` section. -/
def parseWireTypography (t : WireTypography) : TypographySettings :=
  { fontSize := t.fontSize.getD 16
    characterSpacing := t.characterSpacing.getD 0
    lineSpacing := t.lineSpacing.getD 0
    selectedFontId := t.selectedFontId.getD "jetbrains-mono" }

/-- The frame-loading map of `loadFromSessionData`, with the positional
default name `Frame ${i + 1}`.  The source also guards `f.id ??
generateFrameId()`, but the schema requires `id`, so that branch is
dead. -/
def loadWireFrames : Nat → List WireFrame → List Frame
  | _, [] => []
  | i, f :: fs =>
    { id := f.id
      name := f.name.getD ("Frame " ++ toString (i + 1))
      duration := f.duration.getD DEFAULT_FRAME_DURATION
      data := f.data.getD ∅ } :: loadWireFrames (i + 1) fs

/-- `loadFromSessionData(data, filePath?)`: full state replacement from a
schema-validated flat document; history cleared, dirty flag cleared. -/
def ProjectState.loadFromSessionData (data : SessionData)
    (filePath : Option String) (s : ProjectState) : ProjectState :=
  let base := createDefaultState s.nextId
  let loaded := loadWireFrames 0 data.animation.frames
  let framesNext : List Frame × Nat :=
    if loaded.isEmpty then ([createDefaultFrame base.nextId], base.nextId + 1)
    else (loaded, base.nextId)
  let frames := framesNext.1
  let cfi := min data.animation.currentFrameIndex ((frames.length : Int) - 1)
  { base with
      name := data.name.getD "Untitled Project"
      description := data.description.getD ""
      filePath := filePath
      doc := { base.doc with
                 width := data.canvas.width
                 height := data.canvas.height
                 frames := frames
                 currentFrameIndex := cfi.toNat }
      backgroundColor := data.canvas.canvasBackgroundColor
      showGrid := data.canvas.showGrid.getD true
      frameRate := data.animation.frameRate.getD 12
      looping := data.animation.looping.getD true
      toolState :=
        match data.tools with
        | none => base.toolState
        | some t => parseWireTools t
      typography :=
        match data.typography with
        | none => base.typography
        | some t => parseWireTypography t
      historyStack := []
      historyIndex := -1
      isDirty := false
      nextId := framesNext.2 }

/-- `toSessionData()`: project the current state into the v1 wire
schema.  `description || undefined` drops an empty description; the
output always carries `version: '1.0.0'` and never a `ui` section or
frame thumbnails. -/
def ProjectState.toSessionData (s : ProjectState) : SessionData :=
  { version := some "1.0.0"
    name := some s.name
    description := if s.description = "" then none else some s.description
    canvas := { width := s.doc.width
                height := s.doc.height
                canvasBackgroundColor := s.backgroundColor
                showGrid := some s.showGrid }
    animation := { frames := s.doc.frames.map (fun f =>
                     { id := f.id
                       name := some f.name
                       duration := some f.duration
                       data := some f.data
                       thumbnail := none })
                   currentFrameIndex := (s.doc.currentFrameIndex : Int)
                   frameRate := some s.frameRate
                   looping := some s.looping }
    tools := some { activeTool := some s.toolState.activeTool
                    selectedColor := some s.toolState.selectedColor
                    selectedBgColor := some s.toolState.selectedBgColor
                    selectedCharacter := some s.toolState.selectedCharacter
                    paintBucketContiguous := some s.toolState.paintBucketContiguous
                    rectangleFilled := some s.toolState.rectangleFilled }
    typography := some { fontSize := some s.typography.fontSize
                         characterSpacing := some s.typography.characterSpacing
                         lineSpacing := some s.typography.lineSpacing
                         selectedFontId := some s.typography.selectedFontId }
    ui := none }

/-- The public operations driven through the façade, one constructor per
modelled engine call (each history-capable one with `recordHistory` left
at its default `true`, as the dispatch layer calls them). -/
inductive Op where
  | setCell (x y : Int) (cell : Cell)
  | setCells (cells : List ProjectState.CellWrite)
  | clearCell (x y : Int)
  | clearCanvas
  | resizeCanvas (width height : Int)
  | fillRegion (startX startY : Int) (fillCell : Cell) (options : ProjectState.FillOptions)
  | addFrame (atIndex : Option Nat) (canvasData : Option Grid) (duration : Option ℚ)
  | deleteFrame (index : Int)
  | duplicateFrame (index : Int)
  | goToFrame (index : Int)
  | setFrameDuration (index : Int) (duration : ℚ)
  | setFrameName (index : Int) (nm : String)
  | addLayer (nm : Option String)
  | setActiveLayer (layerId : String)
  | setLayerLocked (layerId : String) (locked : Bool)
  | addContentFrame (layerId : String) (startFrame durationFrames : Int) (data : Option Grid)
  | removeContentFrame (layerId cfId : String)
  | updateContentFrameData (layerId cfId : String) (data : Grid)
  | updateContentFrameTiming (layerId cfId : String) (startFrame durationFrames : Int)
  | addKeyframe (layerId path : String) (frame : Int) (value : ℚ) (easing : Option EasingCurve)
  | newProject (opts : ProjectState.NewProjectOptions)
  | loadFromSessionData (data : SessionData)
  | undo
  | redo
deriving DecidableEq

/-- Apply one operation, discarding its result value. -/
def applyOp (o : Op) (s : ProjectState) : ProjectState :=
  match o with
  | .setCell x y cell => (ProjectState.setCell x y cell true s).2
  | .setCells cells => (ProjectState.setCells cells true s).2
  | .clearCell x y => (ProjectState.clearCell x y true s).2
  | .clearCanvas => ProjectState.clearCanvas true s
  | .resizeCanvas w h => ProjectState.resizeCanvas w h true s
  | .fillRegion x y c o => (ProjectState.fillRegion x y c o true s).2
  | .addFrame i d dur => (ProjectState.addFrame i d dur true s).2
  | .deleteFrame i => (ProjectState.deleteFrame i true s).2
  | .duplicateFrame i => (ProjectState.duplicateFrame i true s).2
  | .goToFrame i => (ProjectState.goToFrame i s).2
  | .setFrameDuration i d => (ProjectState.setFrameDuration i d true s).2
  | .setFrameName i n => (ProjectState.setFrameName i n true s).2
  | .addLayer n => (ProjectState.addLayer n s).2
  | .setActiveLayer lid => (ProjectState.setActiveLayer lid s).2
  | .setLayerLocked lid b => (ProjectState.setLayerLocked lid b s).2
  | .addContentFrame lid sf df d => (ProjectState.addContentFrame lid sf df d s).2
  | .removeContentFrame lid cid => (ProjectState.removeContentFrame lid cid s).2
  | .updateContentFrameData lid cid d => (ProjectState.updateContentFrameData lid cid d s).2
  | .updateContentFrameTiming lid cid sf df => (ProjectState.updateContentFrameTiming lid cid sf df s).2
  | .addKeyframe lid p f v e => (ProjectState.addKeyframe lid p f v e s).2
  | .newProject opts => ProjectState.newProject opts s
  | .loadFromSessionData d => ProjectState.loadFromSessionData d none s
  | .undo => (ProjectState.undo s).2
  | .redo => (ProjectState.redo s).2

/-- Apply a sequence of operations, left to right. -/
def runOps : List Op → ProjectState → ProjectState
  | [], s => s
  | o :: os, s => runOps os (applyOp o s)

/-- `n` successive `undo()` calls (the `n`-th is the outermost). -/
def undoN : Nat → ProjectState → ProjectState
  | 0, s => s
  | n + 1, s => ((undoN n s).undo).2

/-- `n` successive `redo()` calls, first call innermost. -/
def redoN : Nat → ProjectState → ProjectState
  | 0, s => s
  | n + 1, s => redoN n (s.redo).2

/-- No stored cell of the grid equals the empty value. -/
def sparseGrid (g : Grid) : Bool :=
  gridAll (fun _ c => decide (c ≠ EMPTY_CELL)) g

/-- Sparsity of every grid of the document: legacy frame data and layer
content-frame data. -/
def sparseDoc (d : Doc) : Bool :=
  d.frames.all (fun f => sparseGrid f.data) &&
  d.layers.all (fun l => l.contentFrames.all (fun cf => sparseGrid cf.data))

/-- Sparsity of an optionally captured cell. -/
def sparseOptCell : Option Cell → Bool
  | none => true
  | some c => decide (c ≠ EMPTY_CELL)

/-- Sparsity of everything a history entry captured, so that replaying
its closures cannot reintroduce a stored empty cell. -/
def sparseEntry : HEntry → Bool
  | .setCell _ _ prev _ => sparseOptCell prev
  | .replaceData _ prev new => sparseGrid prev && sparseGrid new
  | .resizeCanvas _ _ _ _ prevData => prevData.all sparseGrid
  | .addFrame _ f => sparseGrid f.data
  | .deleteFrame _ f _ => sparseGrid f.data
  | .duplicateFrame _ f => sparseGrid f.data
  | .setFrameDuration _ _ _ => true
  | .setFrameName _ _ _ => true

/-- The sparsity invariant over the whole state: document grids plus
every grid captured in the history stack. -/
def sparseState (s : ProjectState) : Bool :=
  sparseDoc s.doc && s.historyStack.all sparseEntry

/-- Caller-supplied grids of an operation are themselves sparse (the
operations below copy caller grids verbatim). -/
def opInputsSparse : Op → Bool
  | .addFrame _ (some g) _ => sparseGrid g
  | .addContentFrame _ _ _ (some g) => sparseGrid g
  | .updateContentFrameData _ _ g => sparseGrid g
  | .loadFromSessionData d =>
    d.animation.frames.all (fun f =>
      match f.data with
      | some g => sparseGrid g
      | none => true)
  | _ => true

/-- The stored cell at a coordinate of the grid the canvas operations
address (active content frame in layer mode, current frame otherwise);
`none` when the key is absent. -/
def ProjectState.storedCell (s : ProjectState) (x y : Int) : Option Cell :=
  if s.isLayerMode then
    match s.getActiveContentFrame with
    | none => none
    | some cf => gridGet cf.data (x, y)
  else gridGet s.getCurrentFrame.data (x, y)

/-- The history cursor sits on top of the stack (no undos pending). -/
def cursorTop (s : ProjectState) : Prop :=
  s.historyIndex = (s.historyStack.length : Int) - 1

/-- The at-least-one-frame and current-index-in-range invariant of the
document (the engine maintains it; `addFrame` undo reclamps only when it
is broken). -/
def docWF (s : ProjectState) : Prop :=
  s.doc.currentFrameIndex < s.doc.frames.length

/-- The operation, applied at this state, pushes exactly one history
entry: the formal reading of a history-recorded operation. -/
def recordsOne (o : Op) (s : ProjectState) : Bool :=
  (applyOp o s).historyStack.length == s.historyStack.length + 1

/-- `addFrame` insertion indices stay within the current frame count (an
index past the end makes the splice-based undo closure unable to remove
the inserted frame). -/
def addFrameIdxOK : Op → ProjectState → Bool
  | .addFrame i _ _, s => decide (i.getD s.doc.frames.length ≤ s.doc.frames.length)
  | _, _ => true

/-- Every operation of the run records exactly one entry and keeps
`addFrame` indices in range, checked at its point of application. -/
def okRun : List Op → ProjectState → Bool
  | [], _ => true
  | o :: os, s => recordsOne o s && addFrameIdxOK o s && okRun os (applyOp o s)

/-- The operation pushed exactly one entry `e`: the stack grew by `e`,
the cursor moved onto it, the capacity is untouched, the entry's undo
closure inverts the operation's document effect, its redo closure
replays it, and the current-frame invariant is preserved. -/
def pushedOne (e : HEntry) (s t : ProjectState) : Prop :=
  t.historyStack = s.historyStack ++ [e] ∧
  t.historyIndex = (s.historyStack.length : Int) ∧
  t.maxHistorySize = s.maxHistorySize ∧
  e.undoAct t.doc = s.doc ∧
  e.redoAct s.doc = t.doc ∧
  t.doc.currentFrameIndex < t.doc.frames.length ∧
  t.isDirty = true

/-- The `[startFrame, startFrame + durationFrames)` intervals of two
content frames do not intersect (the negation of the overlap test of
`addContentFrame`). -/
def cfDisjoint (a b : MCPContentFrame) : Bool :=
  !(a.startFrame < b.startFrame + b.durationFrames &&
    a.startFrame + a.durationFrames > b.startFrame)

/-- All content frames of a list are pairwise non-intersecting. -/
def nonOverlappingCf : List MCPContentFrame → Bool
  | [] => true
  | a :: l => l.all (fun b => cfDisjoint a b) && nonOverlappingCf l

/-- The non-overlap invariant over every layer of the state. -/
def layersNonOverlapping (s : ProjectState) : Bool :=
  s.doc.layers.all (fun l => nonOverlappingCf l.contentFrames)

/-- A flat document in canonical form: the fields the engine models are
explicitly present (so zod defaulting is the identity), the version is
the one the serializer stamps, the description is not the empty string
(serialization drops it), there are frames, the current frame index is
in range, no thumbnails, and no `ui` section. -/
def canonicalFlat (d : SessionData) : Bool :=
  d.version == some "1.0.0" &&
  d.name.isSome &&
  d.description != some "" &&
  d.canvas.showGrid.isSome &&
  !d.animation.frames.isEmpty &&
  d.animation.frames.all (fun f =>
    f.name.isSome && f.duration.isSome && f.data.isSome && f.thumbnail.isNone) &&
  d.animation.currentFrameIndex < (d.animation.frames.length : Int) &&
  d.animation.frameRate.isSome &&
  d.animation.looping.isSome &&
  (match d.tools with
   | some t =>
     t.activeTool.isSome && t.selectedColor.isSome && t.selectedBgColor.isSome &&
     t.selectedCharacter.isSome && t.paintBucketContiguous.isSome && t.rectangleFilled.isSome
   | none => false) &&
  (match d.typography with
   | some t =>
     t.fontSize.isSome && t.characterSpacing.isSome && t.lineSpacing.isSome &&
     t.selectedFontId.isSome
   | none => false) &&
  d.ui.isNone

/-- The finite set of in-bounds coordinates of a canvas, the domain the
flood-fill visited set grows inside. -/
def boundsFinset (w h : Int) : Finset CellKey :=
  Finset.Icc (0 : Int) (w - 1) ×ˢ Finset.Icc (0 : Int) (h - 1)

/-- Content frame ids are unique within each layer (the engine generates
them uniquely; `updateContentFrameTiming` excludes the moved frame from
its overlap check by id). -/
def layerCfIdsNodup (s : ProjectState) : Bool :=
  s.doc.layers.all (fun l => decide ((l.contentFrames.map (fun cf => cf.id)).Nodup))

/-- The default state seeded at zero: the live document right after
engine construction. -/
def baseState : ProjectState := createDefaultState 0

/-- A 10 by 10 project, as `newProject({width: 10, height: 10})`
produces it. -/
def state10 : ProjectState :=
  ProjectState.newProject { width := some 10, height := some 10 } baseState

/-- A non-empty wall cell. -/
def wallCell : Cell := { char := '#', color := "#FF0000", bgColor := "transparent" }

/-- A non-empty fill cell. -/
def fillStar : Cell := { char := '*', color := "#00FF00", bgColor := "transparent" }

/-- The one-cell-thick vertical wall at `x = 5` on a 10 by 10 canvas. -/
def wallWrites : List ProjectState.CellWrite :=
  (List.range 10).map (fun y => { x := 5, y := (y : Int), cell := wallCell })

/-- The 10 by 10 project with the wall drawn. -/
def stateWall10 : ProjectState := (ProjectState.setCells wallWrites false state10).2

/-- The default project after `addLayer()`: one layer (id `layer-1`)
with one content frame covering `[0, 1)`, active. -/
def layeredState : ProjectState := (ProjectState.addLayer none baseState).2

/-- The layered project with its only layer locked. -/
def lockedState : ProjectState :=
  (ProjectState.setLayerLocked "layer-1" true layeredState).2

/-- A property track holding exactly the keyframes `(0, 0)` and
`(10, 100)`, both with linear easing. -/
def linearTrack : MCPPropertyTrack :=
  { id := "pt-1"
    propertyPath := "transform.position.x"
    keyframes :=
      [{ id := "kf-1", frame := 0, value := 0, easing := { type := "linear" } },
       { id := "kf-2", frame := 10, value := 100, easing := { type := "linear" } }]
    loopKeyframes := false }

/-- A reachable state whose history stack is full: one hundred recorded
cell writes on a fresh project (the stack capacity is one hundred). -/
def fullHistoryOps : List Op :=
  (List.range 100).map (fun i => Op.setCell (i % 10 : Nat) (i / 10 : Nat) wallCell)

/-- The state after those one hundred recorded writes. -/
def fullHistoryState : ProjectState := runOps fullHistoryOps baseState

/-- A canonical flat document exercising the round trip. -/
def canonicalDoc : SessionData :=
  { version := some "1.0.0"
    name := some "Demo"
    description := none
    canvas := { width := 40, height := 20, canvasBackgroundColor := "#101010",
                showGrid := some true }
    animation := { frames := [{ id := "f1"
                                name := some "Frame 1"
                                duration := some 100
                                data := some (gridSet ∅ (1, 1) wallCell)
                                thumbnail := none }]
                   currentFrameIndex := 0
                   frameRate := some 12
                   looping := some true }
    tools := some { activeTool := some "pencil"
                    selectedColor := some "#FFFFFF"
                    selectedBgColor := some "transparent"
                    selectedCharacter := some '@'
                    paintBucketContiguous := some true
                    rectangleFilled := some false }
    typography := some { fontSize := some 16
                         characterSpacing := some 0
                         lineSpacing := some 0
                         selectedFontId := some "jetbrains-mono" }
    ui := none }

/-- The same document with a different (schema-valid) version string. -/
def versionedDoc : SessionData := { canonicalDoc with version := some "1.0.1" }

/-- All one hundred cells of a 10 by 10 canvas filled with `fillStar`. -/
def fullStarGrid : Grid :=
  (List.range 10).foldl
    (fun g y =>
      (List.range 10).foldl
        (fun g2 x => gridSet g2 ((x : Int), (y : Int)) fillStar) g)
    ∅

/-- The wall canvas with exactly the seed-side region (`x < 5`) filled:
wall intact, far side untouched. -/
def wallHalfStarGrid : Grid :=
  (List.range 10).foldl
    (fun g y =>
      (List.range 5).foldl
        (fun g2 x => gridSet g2 ((x : Int), (y : Int)) fillStar) g)
    stateWall10.getCurrentFrame.data

/-! ### Helper lemmas: list surgery -/

theorem updAt_comp (f g : α → α) :
    ∀ (l : List α) (i : Nat),
      updAt i f (updAt i g l) = updAt i (fun a => f (g a)) l
  | [], _ => by simp [updAt]
  | a :: l, 0 => by simp [updAt]
  | a :: l, i + 1 => by
    simp only [updAt]
    exact congrArg _ (updAt_comp f g l i)

theorem updAt_eq_self (f : α → α) :
    ∀ (l : List α) (i : Nat), (∀ a, l.get? i = some a → f a = a) → updAt i f l = l
  | [], _, _ => by simp [updAt]
  | a :: l, 0, h => by
    have := h a rfl
    simp [updAt, this]
  | a :: l, i + 1, h => by
    simp only [updAt]
    exact congrArg _ (updAt_eq_self f l i h)

theorem updAt_get? (f : α → α) :
    ∀ (l : List α) (i j : Nat),
      (updAt i f l).get? j = if i = j then (l.get? j).map f else l.get? j
  | [], i, j => by cases i <;> cases j <;> simp [updAt]
  | a :: l, 0, 0 => by simp [updAt]
  | a :: l, 0, j + 1 => by simp [updAt]
  | a :: l, i + 1, 0 => by simp [updAt]
  | a :: l, i + 1, j + 1 => by
    simpa [updAt] using updAt_get? f l i j

theorem updAt_length (f : α → α) :
    ∀ (l : List α) (i : Nat), (updAt i f l).length = l.length
  | [], _ => by simp [updAt]
  | a :: l, 0 => by simp [updAt]
  | a :: l, i + 1 => by simp [updAt, updAt_length f l i]

theorem updAt_mem (f : α → α) :
    ∀ (l : List α) (i : Nat), ∀ x ∈ updAt i f l, x ∈ l ∨ ∃ a ∈ l, x = f a
  | [], _, x, hx => by simp [updAt] at hx
  | a :: l, 0, x, hx => by
    rcases hx with _ | hx
    · exact Or.inr ⟨a, List.mem_cons_self a l, rfl⟩
    · exact Or.inl (List.mem_cons_of_mem a (by assumption))
  | a :: l, i + 1, x, hx => by
    rcases hx with _ | hx
    · exact Or.inl (List.mem_cons_self a l)
    · rcases updAt_mem f l i x (by assumption) with h | ⟨b, hb, hbx⟩
      · exact Or.inl (List.mem_cons_of_mem a h)
      · exact Or.inr ⟨b, List.mem_cons_of_mem a hb, hbx⟩

theorem updFirst_mem (p : α → Bool) (f : α → α) :
    ∀ (l : List α), ∀ x ∈ updFirst p f l,
      x ∈ l ∨ ∃ a, l.find? p = some a ∧ x = f a
  | [], x, hx => by cases hx
  | a :: l, x, hx => by
    by_cases hp : p a
    · simp only [updFirst, if_pos hp] at hx
      rcases hx with _ | hx
      · exact Or.inr ⟨a, by simp [List.find?, hp], rfl⟩
      · exact Or.inl (List.mem_cons_of_mem a (by assumption))
    · simp only [updFirst, if_neg hp] at hx
      rcases hx with _ | hx
      · exact Or.inl (List.mem_cons_self a l)
      · rcases updFirst_mem p f l x (by assumption) with h | ⟨b, hb, hbx⟩
        · exact Or.inl (List.mem_cons_of_mem a h)
        · refine Or.inr ⟨b, ?_, hbx⟩
          simpa [List.find?_cons, hp] using hb

theorem removeAt_insertAt (a : α) :
    ∀ (l : List α) (i : Nat), i ≤ l.length → removeAt i (insertAt i a l) = l
  | l, 0, _ => by simp [removeAt, insertAt]
  | [], i + 1, h => by exact absurd h (Nat.not_succ_le_zero i)
  | b :: l, i + 1, h => by
    simp only [insertAt, removeAt, List.take_succ_cons, List.drop_succ_cons,
      List.cons_append]
    exact congrArg _ (removeAt_insertAt a l i (by simpa using h))

theorem insertAt_removeAt (a : α) :
    ∀ (l : List α) (i : Nat), l.get? i = some a → insertAt i a (removeAt i l) = l
  | [], i, h => by simp at h
  | b :: l, 0, h => by
    simp only [List.get?] at h
    cases h
    simp [removeAt, insertAt]
  | b :: l, i + 1, h => by
    simp only [insertAt, removeAt, List.take_succ_cons, List.drop_succ_cons,
      List.cons_append]
    exact congrArg _ (insertAt_removeAt a l i (by simpa using h))

theorem insertAt_length (a : α) :
    ∀ (l : List α) (i : Nat), (insertAt i a l).length = l.length + 1 := by
  intro l i
  simp only [insertAt, List.length_append, List.length_cons, List.length_take,
    List.length_drop]
  omega

theorem restoreFrameData_map (f : Grid → Grid) :
    ∀ l : List Frame,
      restoreFrameData (l.map (fun fr => fr.data))
        (l.map (fun fr => { fr with data := f fr.data })) = l
  | [] => by simp [restoreFrameData]
  | fr :: l => by
    simp only [List.map_cons, restoreFrameData]
    exact congrArg _ (restoreFrameData_map f l)

/-! ### Helper lemmas: grids -/

theorem gridGet_gridSet (g : Grid) (k k' : CellKey) (c : Cell) :
    gridGet (gridSet g k c) k' = if k' = k then some c else gridGet g k' := by
  by_cases h : k' = k
  · subst h
    simp [gridGet, gridSet, Finmap.lookup_insert]
  · simp [gridGet, gridSet, Finmap.lookup_insert_of_ne _ h, h]

theorem gridGet_gridDel (g : Grid) (k k' : CellKey) :
    gridGet (gridDel g k) k' = if k' = k then none else gridGet g k' := by
  by_cases h : k' = k
  · subst h
    simp [gridGet, gridDel, Finmap.lookup_erase]
  · simp [gridGet, gridDel, Finmap.lookup_erase_ne h, h]

theorem gridSet_gridSet_restore (g : Grid) (k : CellKey) (c c' : Cell)
    (h : gridGet g k = some c) : gridSet (gridSet g k c') k c = g := by
  apply Finmap.ext_lookup
  intro x
  by_cases hx : x = k
  · subst hx
    simpa [gridSet, Finmap.lookup_insert] using h.symm
  · simp [gridSet, Finmap.lookup_insert_of_ne _ hx]

theorem gridSet_gridDel_restore (g : Grid) (k : CellKey) (c : Cell)
    (h : gridGet g k = some c) : gridSet (gridDel g k) k c = g := by
  apply Finmap.ext_lookup
  intro x
  by_cases hx : x = k
  · subst hx
    simpa [gridSet, Finmap.lookup_insert] using h.symm
  · simp [gridSet, gridDel, Finmap.lookup_insert_of_ne _ hx,
      Finmap.lookup_erase_ne hx]

theorem gridDel_gridSet_cancel (g : Grid) (k : CellKey) (c' : Cell)
    (h : gridGet g k = none) : gridDel (gridSet g k c') k = g := by
  apply Finmap.ext_lookup
  intro x
  by_cases hx : x = k
  · subst hx
    simpa [gridDel, Finmap.lookup_erase] using h.symm
  · simp [gridSet, gridDel, Finmap.lookup_erase_ne hx,
      Finmap.lookup_insert_of_ne _ hx]

theorem gridDel_gridDel_cancel (g : Grid) (k : CellKey)
    (h : gridGet g k = none) : gridDel (gridDel g k) k = g := by
  apply Finmap.ext_lookup
  intro x
  by_cases hx : x = k
  · subst hx
    simpa [gridDel, Finmap.lookup_erase] using h.symm
  · simp [gridDel, Finmap.lookup_erase_ne hx]

theorem dlookup_filter_key (p : CellKey → Bool) (k : CellKey) :
    ∀ l : List (Sigma fun _ : CellKey => Cell),
      List.dlookup k (l.filter (fun e => p e.1)) =
        if p k then List.dlookup k l else none
  | [] => by simp
  | ⟨a, b⟩ :: t => by
    by_cases hp : p a
    · by_cases hk : k = a
      · subst hk
        simp [List.filter_cons, hp, List.dlookup_cons_eq]
      · simp only [List.filter_cons, hp, if_pos]
        rw [List.dlookup_cons_ne _ _ (by simpa using hk),
          List.dlookup_cons_ne _ _ (by simpa using hk)]
        exact dlookup_filter_key p k t
    · by_cases hk : k = a
      · subst hk
        simp only [List.filter_cons]
        rw [if_neg (by simp [hp])]
        rw [dlookup_filter_key p k t]
        simp [hp]
      · simp only [List.filter_cons, hp]
        rw [List.dlookup_cons_ne _ _ (by simpa using hk)]
        exact dlookup_filter_key p k t

theorem gridGet_gridFilter (p : CellKey → Bool) (g : Grid) (k : CellKey) :
    gridGet (gridFilter p g) k = if p k then gridGet g k else none := by
  induction g using Finmap.induction_on with
  | H a =>
    show Finmap.lookup k _ = _
    simp only [gridFilter, Finmap.liftOn_toFinmap, Finmap.lookup_toFinmap]
    show List.dlookup k _ = _
    rw [dlookup_filter_key]
    rfl

theorem gridAll_iff (p : CellKey → Cell → Bool) (g : Grid) :
    gridAll p g = true ↔ ∀ k c, gridGet g k = some c → p k c = true := by
  induction g using Finmap.induction_on with
  | H a =>
    simp only [gridAll, Finmap.liftOn_toFinmap]
    rw [List.all_eq_true]
    constructor
    · intro h k c hkc
      have : Sigma.mk k c ∈ a.entries :=
        List.of_mem_dlookup (by simpa [gridGet, Finmap.lookup_toFinmap, AList.lookup] using hkc)
      exact h ⟨k, c⟩ this
    · intro h e he
      have : gridGet (AList.toFinmap a) e.1 = some e.2 := by
        simpa [gridGet, Finmap.lookup_toFinmap, AList.lookup] using
          List.mem_dlookup a.nodupKeys (by simpa using he)
      exact h e.1 e.2 this

/-! ### C5: keyframe interpolation -/

/-- C5: for a property track holding exactly the keyframes `(0, 0)` and
`(10, 100)` with linear easing, interpolating at frame 5 yields 50, at
frame 0 yields 0, at frame 10 yields 100, and at frame 15 yields 100
(clamped to the last keyframe value). -/
theorem c5_keyframe_interpolation :
    ProjectState.interpolatePropertyValue linearTrack 5 = 50 ∧
    ProjectState.interpolatePropertyValue linearTrack 0 = 0 ∧
    ProjectState.interpolatePropertyValue linearTrack 10 = 100 ∧
    ProjectState.interpolatePropertyValue linearTrack 15 = 100 := by
  refine ⟨?_, ?_, ?_, ?_⟩ <;>
    simp [ProjectState.interpolatePropertyValue, linearTrack,
      ProjectState.interpPairs, jsRound, List.getLastD] <;>
    norm_num [Rat.floor_def']

/-! ### C9: newProject -/

/-- C9 fails as stated: `newProject({width: 0})` ignores the falsy zero
width (the live document keeps the default width 80) instead of clamping
the provided 0 into `[4, 200]`. -/
theorem c9_counterexample :
    (ProjectState.newProject { width := some 0 } baseState).doc.width ≠
      jsClamp 4 200 0 ∧
    (ProjectState.newProject { width := some 0 } baseState).doc.width = 80 := by
  decide

/-- C9 (amended): after `newProject` the live document is a fresh
flat-mode default (one frame, no layers); its width is the provided
width clamped to `[4, 200]` when the width is provided and nonzero and
80 otherwise (JS truthiness also discards a provided 0), symmetrically
the height with `[4, 100]` and 24; the history stack is empty,
`canUndo()` and `canRedo()` both return false, and the dirty flag is
false. -/
theorem c9_new_project (opts : ProjectState.NewProjectOptions) (s : ProjectState) :
    (ProjectState.newProject opts s).doc.width =
      (match opts.width with
       | some w => if w ≠ 0 then jsClamp 4 200 w else 80
       | none => 80) ∧
    (ProjectState.newProject opts s).doc.height =
      (match opts.height with
       | some h => if h ≠ 0 then jsClamp 4 100 h else 24
       | none => 24) ∧
    (ProjectState.newProject opts s).historyStack = [] ∧
    (ProjectState.newProject opts s).canUndo = false ∧
    (ProjectState.newProject opts s).canRedo = false ∧
    (ProjectState.newProject opts s).isDirty = false ∧
    (ProjectState.newProject opts s).doc.layers = [] ∧
    (ProjectState.newProject opts s).doc.frames.length = 1 := by
  obtain ⟨w, h, n⟩ := opts
  cases w <;> cases h <;> cases n <;>
    simp [ProjectState.newProject, createDefaultState, ProjectState.canUndo,
      ProjectState.canRedo] <;>
    split_ifs <;>
    simp_all [createDefaultState]

/-! ### C10: locked layers block cell edits -/

/-- C10: in layer mode, when the active layer is locked, `setCell`
returns false, `setCells` returns 0 and `clearCanvas` returns without
effect, and in all three cases the whole state (every content frame
grid, the history stack and the history cursor included) is left exactly
unchanged. -/
theorem c10_locked_layer (s : ProjectState) (l : MCPLayer)
    (hA : s.getActiveLayer = some l) (hL : l.locked = true)
    (x y : Int) (c : Cell) (cells : List ProjectState.CellWrite) :
    ProjectState.setCell x y c true s = (false, s) ∧
    ProjectState.setCells cells true s = (0, s) ∧
    ProjectState.clearCanvas true s = s := by
  obtain ⟨li, hli, hget⟩ :
      ∃ li, s.getActiveLayerIdx = some li ∧ s.doc.layers.get? li = some l := by
    unfold ProjectState.getActiveLayer at hA
    cases hi : s.getActiveLayerIdx with
    | none => rw [hi] at hA; simp at hA
    | some li => rw [hi] at hA; exact ⟨li, rfl, by simpa using hA⟩
  have hMode : s.isLayerMode = true := by
    unfold ProjectState.isLayerMode
    cases hl : s.doc.layers with
    | nil => rw [hl] at hget; simp at hget
    | cons a t => simp
  cases hT : s.activeTarget with
  | none =>
    refine ⟨?_, ?_, ?_⟩
    · simp [ProjectState.setCell, hMode, hT]
    · simp [ProjectState.setCells, hMode, hT]
    · simp [ProjectState.clearCanvas, hMode, hT]
  | some q =>
    obtain ⟨li', layer, ci, cf⟩ := q
    have hlayer : layer = l := by
      unfold ProjectState.activeTarget at hT
      rw [hli] at hT
      simp only [Option.some_bind, hget, Option.bind_eq_bind] at hT
      rcases Option.bind_eq_some.mp hT with ⟨ci1, hci1, hmap⟩
      rcases Option.map_eq_some'.mp hmap with ⟨cf1, hcf1, heq⟩
      cases heq
      rfl
    subst hlayer
    refine ⟨?_, ?_, ?_⟩
    · simp [ProjectState.setCell, hMode, hT, hL]
    · simp [ProjectState.setCells, hMode, hT, hL]
    · simp [ProjectState.clearCanvas, hMode, hT, hL]

/-! ### C7: history truncation -/

/-- `pushHistory` with the cursor on top of a stack strictly below
capacity: plain append, cursor moved to the new entry. -/
theorem pushHistory_top (e : HEntry) (s : ProjectState)
    (hTop : cursorTop s) (hCap : s.historyStack.length < s.maxHistorySize) :
    s.pushHistory e =
      { s with historyStack := s.historyStack ++ [e]
               historyIndex := (s.historyStack.length : Int) } := by
  have h1 : ¬(s.historyIndex < (s.historyStack.length : Int) - 1) := by
    rw [hTop]
    omega
  have h2 : ¬((s.historyStack ++ [e]).length > s.maxHistorySize) := by
    simp only [List.length_append, List.length_singleton]
    omega
  have h3 : (((s.historyStack ++ [e]).length : Int) - 1) = (s.historyStack.length : Int) := by
    simp only [List.length_append, List.length_singleton]
    push_cast
    omega
  unfold ProjectState.pushHistory
  rw [if_neg h1, if_neg h2, h3]

/-- C7 (amended): if the history stack holds `K` entries and `M` undos
are pending (`0 ≤ M ≤ K`, cursor at `K - 1 - M`), and the push does not
overflow the capacity (`K - M + 1 ≤ maxHistorySize`), then pushing a new
entry discards exactly the `M` redo-pending entries: the stack becomes
the first `K - M` old entries followed by the new entry (`K - M + 1`
entries), the cursor points at the new entry, and an immediate `redo()`
returns false and changes nothing.  Without the capacity hypothesis the
eviction of the oldest entry falsifies the count, as the counterexample
shows. -/
theorem c7_history_truncation (s : ProjectState) (e : HEntry) (K M : Nat)
    (hK : s.historyStack.length = K) (hM : M ≤ K)
    (hIdx : s.historyIndex = (K : Int) - 1 - M)
    (hCap : K - M + 1 ≤ s.maxHistorySize) :
    (s.pushHistory e).historyStack = s.historyStack.take (K - M) ++ [e] ∧
    (s.pushHistory e).historyStack.length = K - M + 1 ∧
    (s.pushHistory e).historyIndex = ((K - M : Nat) : Int) ∧
    (s.pushHistory e).canRedo = false ∧
    (s.pushHistory e).redo = (false, s.pushHistory e) := by
  have htrunc :
      (if s.historyIndex < (s.historyStack.length : Int) - 1 then
          s.historyStack.take (s.historyIndex + 1).toNat
        else s.historyStack) = s.historyStack.take (K - M) := by
    by_cases hM0 : M = 0
    · subst hM0
      rw [if_neg (by rw [hK, hIdx]; omega)]
      rw [Nat.sub_zero, ← hK, List.take_length]
    · rw [if_pos (by rw [hK, hIdx]; omega)]
      congr 1
      rw [hIdx]
      omega
  have hstack : (s.pushHistory e).historyStack = s.historyStack.take (K - M) ++ [e] ∧
      (s.pushHistory e).historyIndex = ((K - M : Nat) : Int) := by
    unfold ProjectState.pushHistory
    simp only [htrunc]
    have hlen : (s.historyStack.take (K - M) ++ [e]).length = K - M + 1 := by
      simp only [List.length_append, List.length_take, List.length_singleton, hK]
      omega
    rw [if_neg (by rw [hlen]; omega)]
    refine ⟨rfl, ?_⟩
    rw [hlen]
    push_cast
    omega
  obtain ⟨h1, h2⟩ := hstack
  have hlen : (s.pushHistory e).historyStack.length = K - M + 1 := by
    rw [h1]
    simp only [List.length_append, List.length_take, List.length_singleton, hK]
    omega
  have hredoFalse : (s.pushHistory e).canRedo = false := by
    unfold ProjectState.canRedo
    rw [h2, hlen]
    simp only [decide_eq_false_iff_not]
    push_cast
    omega
  refine ⟨h1, hlen, h2, hredoFalse, ?_⟩
  unfold ProjectState.redo
  rw [if_pos (by rw [h2, hlen]; push_cast; omega)]

set_option maxRecDepth 100000 in
/-- C7 fails as stated at a full stack: after one hundred recorded cell
writes the stack holds `K = 100` entries with `M = 0` undos pending, yet
pushing a new entry leaves 100 entries, not `K - M + 1 = 101`: capacity
eviction also discards the oldest entry. -/
theorem c7_counterexample :
    fullHistoryState.historyStack.length = 100 ∧
    fullHistoryState.historyIndex = 99 ∧
    (ProjectState.pushHistory (HEntry.setFrameName 0 "a" "b")
        fullHistoryState).historyStack.length = 100 ∧
    (ProjectState.pushHistory (HEntry.setFrameName 0 "a" "b")
        fullHistoryState).historyStack.length ≠ 100 - 0 + 1 := by
  refine ⟨by decide, by decide, by decide, by decide⟩

/-- C7 witness: a stack of two entries with one undo pending; the push
discards the one redo-pending entry and leaves two entries with the
cursor on the new one. -/
theorem c7_history_truncation_witness :
    ((undoN 1 (runOps [Op.setCell 0 0 wallCell, Op.setCell 1 0 wallCell]
        baseState)).pushHistory (HEntry.setFrameName 0 "a" "b")).historyStack.length
      = 2 - 1 + 1 := by
  have h := c7_history_truncation
    (undoN 1 (runOps [Op.setCell 0 0 wallCell, Op.setCell 1 0 wallCell] baseState))
    (HEntry.setFrameName 0 "a" "b") 2 1 (by decide) (by decide) (by decide) (by decide)
  exact h.2.1

/-! ### C1: content-frame interval non-overlap -/

theorem cfDisjoint_comm (a b : MCPContentFrame) : cfDisjoint a b = cfDisjoint b a := by
  simp only [cfDisjoint, gt_iff_lt]
  rw [Bool.and_comm]

theorem cfDisjoint_symm :
    Symmetric (fun a b : MCPContentFrame => cfDisjoint a b = true) := by
  intro x y hxy
  rw [cfDisjoint_comm] at hxy
  exact hxy

theorem nonOverlappingCf_iff_pairwise :
    ∀ l : List MCPContentFrame,
      nonOverlappingCf l = true ↔ l.Pairwise (fun a b => cfDisjoint a b = true)
  | [] => by simp [nonOverlappingCf]
  | a :: l => by
    simp only [nonOverlappingCf, Bool.and_eq_true, List.all_eq_true,
      List.pairwise_cons]
    rw [nonOverlappingCf_iff_pairwise l]

theorem nonOverlappingCf_perm {l l' : List MCPContentFrame} (h : l.Perm l') :
    nonOverlappingCf l = true ↔ nonOverlappingCf l' = true := by
  rw [nonOverlappingCf_iff_pairwise, nonOverlappingCf_iff_pairwise]
  exact h.pairwise_iff (fun hxy => cfDisjoint_symm hxy)

theorem insSorted_perm (le : α → α → Bool) (x : α) :
    ∀ l : List α, (ProjectState.insSorted le x l).Perm (x :: l)
  | [] => List.Perm.refl _
  | y :: l => by
    by_cases h : le y x
    · rw [ProjectState.insSorted, if_pos h]
      exact ((insSorted_perm le x l).cons y).trans (List.Perm.swap x y l)
    · rw [ProjectState.insSorted, if_neg h]

theorem stableSortBy_perm (le : α → α → Bool) (l : List α) :
    (ProjectState.stableSortBy le l).Perm l := by
  suffices h : ∀ (l acc : List α),
      (l.foldl (fun acc x => ProjectState.insSorted le x acc) acc).Perm (acc ++ l) by
    simpa [ProjectState.stableSortBy] using h l []
  intro l
  induction l with
  | nil => intro acc; simp
  | cons x t ih =>
    intro acc
    refine (ih (ProjectState.insSorted le x acc)).trans ?_
    refine ((insSorted_perm le x acc).append_right t).trans ?_
    exact List.perm_middle.symm

theorem nonOverlappingCf_sortByStart (l : List MCPContentFrame) :
    nonOverlappingCf (ProjectState.sortByStart l) = true ↔
      nonOverlappingCf l = true :=
  nonOverlappingCf_perm (stableSortBy_perm _ l)

theorem nonOverlappingCf_append_singleton {l : List MCPContentFrame}
    {c : MCPContentFrame} (hl : nonOverlappingCf l = true)
    (hc : ∀ b ∈ l, cfDisjoint b c = true) :
    nonOverlappingCf (l ++ [c]) = true := by
  rw [nonOverlappingCf_iff_pairwise] at hl ⊢
  rw [List.pairwise_append]
  refine ⟨hl, by simp, ?_⟩
  intro x hx b hb
  have hbc : b = c := by simpa using hb
  subst hbc
  exact hc x hx

/-- Moving the first content frame with a given id to an interval that
overlaps no sibling of a different id keeps the layer pairwise disjoint,
provided ids are unique within the layer. -/
theorem nonOverlap_updFirst_move (cfId : String) (start2 dur2 : Int)
    (hDur2 : 1 ≤ dur2) :
    ∀ l : List MCPContentFrame,
      (l.map (fun cf => cf.id)).Nodup →
      nonOverlappingCf l = true →
      l.any (fun other => other.id != cfId &&
        ProjectState.overlapsCf start2 (start2 + dur2) other) = false →
      nonOverlappingCf
        (updFirst (fun cf => cf.id == cfId)
          (fun cf => { cf with startFrame := start2, durationFrames := max 1 dur2 })
          l) = true := by
  intro l
  induction l with
  | nil => intro _ _ _; rfl
  | cons a t ih =>
    intro hNodup hInv hAny
    have hmax : max 1 dur2 = dur2 := max_eq_right hDur2
    simp only [List.map_cons, List.nodup_cons] at hNodup
    simp only [nonOverlappingCf, Bool.and_eq_true, List.all_eq_true] at hInv
    simp only [List.any_cons, Bool.or_eq_false_iff, List.any_eq_false] at hAny
    by_cases hp : (a.id == cfId) = true
    · have haid : a.id = cfId := by simpa using hp
      rw [updFirst, if_pos hp]
      simp only [nonOverlappingCf, Bool.and_eq_true, List.all_eq_true]
      refine ⟨?_, hInv.2⟩
      intro b hb
      have hbid : b.id ≠ cfId := by
        intro hcontra
        apply hNodup.1
        rw [haid, ← hcontra]
        exact List.mem_map_of_mem (fun cf => cf.id) hb
      have hno : ProjectState.overlapsCf start2 (start2 + dur2) b = false := by
        have hb2 : (b.id != cfId &&
            ProjectState.overlapsCf start2 (start2 + dur2) b) = false :=
          Bool.eq_false_iff.mpr (hAny.2 b hb)
        rcases Bool.and_eq_false_iff.mp hb2 with hbad | hgood
        · exact absurd (by simpa using hbad) hbid
        · exact hgood
      simp only [cfDisjoint, gt_iff_lt, hmax]
      simp only [ProjectState.overlapsCf, gt_iff_lt] at hno
      rw [Bool.not_eq_true', Bool.and_eq_false_iff]
      exact Bool.and_eq_false_iff.mp hno
    · rw [updFirst, if_neg hp]
      simp only [nonOverlappingCf, Bool.and_eq_true, List.all_eq_true]
      constructor
      · intro x hx
        rcases updFirst_mem _ _ t x hx with hmem | ⟨b0, hfind, hxb⟩
        · exact hInv.1 x hmem
        · subst hxb
          have hno : ProjectState.overlapsCf start2 (start2 + dur2) a = false := by
            have ha2 : (a.id != cfId &&
                ProjectState.overlapsCf start2 (start2 + dur2) a) = false :=
              hAny.1
            rcases Bool.and_eq_false_iff.mp ha2 with hbad | hgood
            · exact absurd (by simpa using hbad) (by simpa using hp)
            · exact hgood
          rw [cfDisjoint_comm]
          simp only [cfDisjoint, gt_iff_lt, hmax]
          simp only [ProjectState.overlapsCf, gt_iff_lt] at hno
          rw [Bool.not_eq_true', Bool.and_eq_false_iff]
          exact Bool.and_eq_false_iff.mp hno
      · exact ih hNodup.2 hInv.2 (List.any_eq_false.mpr hAny.2)

/-- A cell of the proposed interval test: failing the overlap test of
the source against an interval with positive duration makes the inserted
frame (duration floored to 1) disjoint from the tested sibling. -/
theorem disjoint_of_not_overlaps (start dur : Int) (hDur : 1 ≤ dur)
    (b c : MCPContentFrame) (hs : c.startFrame = start)
    (hd : c.durationFrames = max 1 dur)
    (hno : ProjectState.overlapsCf start (start + dur) b = false) :
    cfDisjoint c b = true := by
  have hmax : max 1 dur = dur := max_eq_right hDur
  simp only [cfDisjoint, hs, hd, hmax, gt_iff_lt]
  simp only [ProjectState.overlapsCf, gt_iff_lt] at hno
  rw [Bool.not_eq_true', Bool.and_eq_false_iff]
  exact Bool.and_eq_false_iff.mp hno

/-- C1 (amended): for calls with `durationFrames ≥ 1` (the range the
content-frame schema declares; a nonpositive duration slips past the
overlap check and is then floored to 1, as the counterexample shows),
`addContentFrame` and `updateContentFrameTiming` preserve pairwise
non-overlap of every layer, and any rejected call (`null` or `false`
result, in particular any call whose proposed interval would overlap a
sibling) leaves the state exactly unchanged.  Content-frame ids are
assumed unique per layer, as the engine generates them. -/
theorem c1_content_frame_non_overlap (s : ProjectState)
    (layerId cfId : String) (start dur start2 dur2 : Int) (data : Option Grid)
    (hInv : layersNonOverlapping s = true)
    (hIds : layerCfIdsNodup s = true)
    (hDur : 1 ≤ dur) (hDur2 : 1 ≤ dur2) :
    (layersNonOverlapping (ProjectState.addContentFrame layerId start dur data s).2 = true ∧
      ((ProjectState.addContentFrame layerId start dur data s).1 = none →
        (ProjectState.addContentFrame layerId start dur data s).2 = s)) ∧
    (layersNonOverlapping
        (ProjectState.updateContentFrameTiming layerId cfId start2 dur2 s).2 = true ∧
      ((ProjectState.updateContentFrameTiming layerId cfId start2 dur2 s).1 = false →
        (ProjectState.updateContentFrameTiming layerId cfId start2 dur2 s).2 = s)) := by
  simp only [layersNonOverlapping, List.all_eq_true] at hInv
  constructor
  · cases hfind : s.doc.layers.find? (fun l => l.id == layerId) with
    | none =>
      simp only [ProjectState.addContentFrame, hfind]
      exact ⟨by simp only [layersNonOverlapping, List.all_eq_true]; exact hInv,
        fun _ => by trivial⟩
    | some layer =>
      have hmem : layer ∈ s.doc.layers := List.mem_of_find?_eq_some hfind
      by_cases hAny : layer.contentFrames.any
          (ProjectState.overlapsCf start (start + dur)) = true
      · simp only [ProjectState.addContentFrame, hfind, hAny, if_true]
        exact ⟨by simp only [layersNonOverlapping, List.all_eq_true]; exact hInv,
          fun _ => by trivial⟩
      · rw [Bool.not_eq_true] at hAny
        simp only [ProjectState.addContentFrame, hfind, hAny, Bool.false_eq_true,
          if_false]
        refine ⟨?_, by intro h; simp at h⟩
        simp only [layersNonOverlapping, List.all_eq_true]
        intro l hl
        rcases updFirst_mem _ _ s.doc.layers l hl with hold | ⟨a, hfa, hla⟩
        · exact hInv l hold
        · have ha : a = layer := by
            rw [hfind] at hfa
            injection hfa with h
            exact h.symm
          subst ha
          subst hla
          simp only
          rw [Bool.eq_iff_iff.mpr (nonOverlappingCf_sortByStart _)]
          apply nonOverlappingCf_append_singleton (hInv a hmem)
          intro b hb
          have hno : ProjectState.overlapsCf start (start + dur) b = false := by
            have := List.any_eq_false.mp hAny b hb
            exact Bool.eq_false_iff.mpr this
          rw [cfDisjoint_comm]
          exact disjoint_of_not_overlaps start dur hDur b _ rfl rfl hno
  · cases hfind : s.doc.layers.find? (fun l => l.id == layerId) with
    | none =>
      simp only [ProjectState.updateContentFrameTiming, hfind]
      exact ⟨by simp only [layersNonOverlapping, List.all_eq_true]; exact hInv,
        fun _ => by trivial⟩
    | some layer =>
      have hmem : layer ∈ s.doc.layers := List.mem_of_find?_eq_some hfind
      by_cases hcf : (layer.contentFrames.find? (fun cf => cf.id == cfId)).isNone = true
      · simp only [ProjectState.updateContentFrameTiming, hfind, hcf, if_true]
        exact ⟨by simp only [layersNonOverlapping, List.all_eq_true]; exact hInv,
          fun _ => by trivial⟩
      · by_cases hAny : layer.contentFrames.any (fun other =>
            other.id != cfId &&
              ProjectState.overlapsCf start2 (start2 + dur2) other) = true
        · simp only [ProjectState.updateContentFrameTiming, hfind, hcf,
            Bool.false_eq_true, if_false, hAny, if_true]
          exact ⟨by simp only [layersNonOverlapping, List.all_eq_true]; exact hInv,
            fun _ => by trivial⟩
        · rw [Bool.not_eq_true] at hcf hAny
          simp only [ProjectState.updateContentFrameTiming, hfind, hcf, hAny,
            Bool.false_eq_true, if_false]
          refine ⟨?_, by intro h; simp at h⟩
          simp only [layersNonOverlapping, List.all_eq_true]
          intro l hl
          rcases updFirst_mem _ _ s.doc.layers l hl with hold | ⟨a, hfa, hla⟩
          · exact hInv l hold
          · have ha : a = layer := by
              rw [hfind] at hfa
              injection hfa with h
              exact h.symm
            subst ha
            subst hla
            simp only
            rw [Bool.eq_iff_iff.mpr (nonOverlappingCf_sortByStart _)]
            have hNodup : (a.contentFrames.map (fun cf => cf.id)).Nodup := by
              simp only [layerCfIdsNodup, List.all_eq_true] at hIds
              have := hIds a hmem
              simpa using this
            exact nonOverlap_updFirst_move cfId start2 dur2 hDur2
              a.contentFrames hNodup (hInv a hmem) hAny

/-- C1 fails as stated for a zero duration: on a layer whose only
content frame covers `[0, 1)`, `addContentFrame(layerId, 0, 0)` passes
the overlap check with its empty proposed interval, is floored to
duration 1 on insertion, and succeeds, leaving two content frames whose
`[0, 1)` intervals intersect. -/
theorem c1_counterexample :
    (ProjectState.addContentFrame "layer-1" 0 0 none layeredState).1.isSome = true ∧
    layersNonOverlapping
      (ProjectState.addContentFrame "layer-1" 0 0 none layeredState).2 = false := by
  exact ⟨by decide, by decide⟩

/-- C1 witness: on the fresh one-layer project, adding `[5, 8)` keeps
the layer non-overlapping, and moving the default `[0, 1)` frame to
`[10, 12)` does too. -/
theorem c1_content_frame_non_overlap_witness :
    layersNonOverlapping
      (ProjectState.addContentFrame "layer-1" 5 3 none layeredState).2 = true ∧
    layersNonOverlapping
      (ProjectState.updateContentFrameTiming "layer-1" "cf-2" 10 2 layeredState).2 = true := by
  have h := c1_content_frame_non_overlap layeredState "layer-1" "cf-2" 5 3 10 2 none
    (by decide) (by decide) (by decide) (by decide)
  exact ⟨h.1.1, h.2.1⟩

/-! ### C8: flood-fill termination -/

theorem mem_boundsFinset (w h x y : Int) :
    (x, y) ∈ boundsFinset w h ↔ isInBounds x y w h = true := by
  simp only [boundsFinset, Finset.mem_product, Finset.mem_Icc, isInBounds,
    Bool.and_eq_true, decide_eq_true_eq]
  omega

theorem card_boundsFinset (w h : Int) :
    (boundsFinset w h).card = w.toNat * h.toNat := by
  simp only [boundsFinset, Finset.card_product, Int.card_Icc]
  congr 1 <;> omega

/-- The breadth-first loop always completes when given at least
`5 * |unvisited in-bounds cells| + |queue|` fuel: every iteration either
shortens the queue or marks a new in-bounds cell visited. -/
theorem bfsLoop_isSome (w h : Int) (lookupCell : CellKey → Cell)
    (o : ProjectState.FillOptions) (target : Cell) :
    ∀ (fuel : Nat) (queue visited acc : List CellKey),
      5 * ((boundsFinset w h) \ visited.toFinset).card + queue.length ≤ fuel →
      (ProjectState.bfsLoop w h lookupCell o target fuel queue visited acc).isSome
        = true := by
  intro fuel
  induction fuel with
  | zero =>
    intro queue visited acc hle
    have hq : queue = [] := by
      cases queue with
      | nil => rfl
      | cons p rest => simp at hle
    subst hq
    simp [ProjectState.bfsLoop]
  | succ n ih =>
    intro queue visited acc hle
    cases queue with
    | nil => simp [ProjectState.bfsLoop]
    | cons p rest =>
      obtain ⟨x, y⟩ := p
      simp only [List.length_cons] at hle
      by_cases hv : visited.contains (x, y)
      · rw [ProjectState.bfsLoop, if_pos hv]
        exact ih rest visited acc (by omega)
      · rw [ProjectState.bfsLoop, if_neg hv]
        by_cases hb : isInBounds x y w h
        · rw [if_neg (by simp [hb])]
          have hkey : (x, y) ∈ boundsFinset w h \ visited.toFinset := by
            rw [Finset.mem_sdiff, mem_boundsFinset]
            refine ⟨hb, ?_⟩
            rw [List.mem_toFinset]
            intro hmem
            exact hv (List.elem_iff.mpr hmem)
          have hcard : (boundsFinset w h \ ((x, y) :: visited).toFinset).card =
              (boundsFinset w h \ visited.toFinset).card - 1 := by
            rw [List.toFinset_cons, Finset.sdiff_insert,
              Finset.card_erase_of_mem hkey]
          have hpos : 1 ≤ (boundsFinset w h \ visited.toFinset).card :=
            Finset.card_pos.mpr ⟨_, hkey⟩
          by_cases hm : ProjectState.cellMatches o target (lookupCell (x, y)) = true
          · rw [if_neg (by simp [hm])]
            refine ih _ _ _ ?_
            rw [hcard]
            simp only [List.length_append, List.length_cons, List.length_nil]
            omega
          · rw [if_pos (by cases hmm : ProjectState.cellMatches o target (lookupCell (x, y)) <;> simp_all)]
            refine ih _ _ _ ?_
            rw [hcard]
            omega
        · rw [if_pos (by simp [hb])]
          exact ih rest visited acc (by omega)

/-- C8: for every canvas within bounds (width at most 200, height at
most 100), every seed coordinate, every grid contents and every
predicate combination, the breadth-first traversal of `fillRegion`
terminates within the fuel `fillRegion` supplies: the queue empties
after finitely many iterations, because the visited set over the finite
in-bounds coordinates prevents re-enqueueing. -/
theorem c8_bfs_terminates (s : ProjectState)
    (hw : s.doc.width ≤ 200) (hh : s.doc.height ≤ 100)
    (startX startY : Int) (o : ProjectState.FillOptions) (target : Cell) :
    ∃ r, ProjectState.bfsLoop s.doc.width s.doc.height
        (fun k => s.getCell k.1 k.2) o target
        (ProjectState.bfsFuel s.doc.width s.doc.height)
        [(startX, startY)] [] [] = some r := by
  rw [← Option.isSome_iff_exists]
  apply bfsLoop_isSome
  rw [ProjectState.bfsFuel]
  simp only [List.toFinset_nil, Finset.sdiff_empty, List.length_cons,
    List.length_nil, card_boundsFinset]
  omega

/-- C8 witness: the traversal completes on the concrete 10 by 10
project from its corner seed. -/
theorem c8_bfs_terminates_witness :
    ∃ r, ProjectState.bfsLoop state10.doc.width state10.doc.height
        (fun k => state10.getCell k.1 k.2) {} wallCell
        (ProjectState.bfsFuel state10.doc.width state10.doc.height)
        [(0, 0)] [] [] = some r :=
  c8_bfs_terminates state10 (by decide) (by decide) 0 0 {} wallCell

/-! ### C6: fill containment -/

set_option maxRecDepth 200000 in
/-- C6 fails as stated: with no match predicates enabled, the `matches`
closure accepts every cell, so on the walled canvas the very same call
crosses and overwrites the wall, filling all 100 cells (the far side
included) rather than only the region containing the seed. -/
theorem c6_counterexample :
    (ProjectState.fillRegion 0 0 fillStar {} true stateWall10).1 = 100 ∧
    gridGet (ProjectState.fillRegion 0 0 fillStar {} true
        stateWall10).2.getCurrentFrame.data (5, 0) = some fillStar ∧
    gridGet (ProjectState.fillRegion 0 0 fillStar {} true
        stateWall10).2.getCurrentFrame.data (6, 0) = some fillStar := by
  exact ⟨by decide, by decide, by decide⟩

set_option maxRecDepth 200000 in
/-- C6 (amended): flood fill from seed `(0, 0)` on an empty 10 by 10
canvas with `contiguous = true` and no match predicates fills exactly
100 cells; on the canvas with a one-cell-thick vertical wall the same
call with a predicate that distinguishes the wall (`matchChar = true`)
fills exactly the 50 cells of the region containing the seed, leaving
the wall and the far side untouched. -/
theorem c6_fill_containment :
    (ProjectState.fillRegion 0 0 fillStar {} true state10).1 = 100 ∧
    (ProjectState.fillRegion 0 0 fillStar {} true
        state10).2.getCurrentFrame.data = fullStarGrid ∧
    (ProjectState.fillRegion 0 0 fillStar { matchChar := true } true
        stateWall10).1 = 50 ∧
    (ProjectState.fillRegion 0 0 fillStar { matchChar := true } true
        stateWall10).2.getCurrentFrame.data = wallHalfStarGrid := by
  exact ⟨by decide, by decide, by decide, by decide⟩

/-! ### C4: flat-format round trip -/

theorem loadWireFrames_length :
    ∀ (i : Nat) (fs : List WireFrame), (loadWireFrames i fs).length = fs.length
  | _, [] => rfl
  | i, f :: fs => by
    simp [loadWireFrames, loadWireFrames_length (i + 1) fs]

theorem loadWireFrames_roundtrip :
    ∀ (i : Nat) (fs : List WireFrame),
      (∀ f ∈ fs, f.name.isSome = true ∧ f.duration.isSome = true ∧
        f.data.isSome = true ∧ f.thumbnail = none) →
      (loadWireFrames i fs).map (fun f =>
        ({ id := f.id, name := some f.name, duration := some f.duration,
           data := some f.data, thumbnail := none } : WireFrame)) = fs
  | _, [], _ => rfl
  | i, f :: fs, h => by
    obtain ⟨fid, fname, fdur, fdata, fthumb⟩ := f
    obtain ⟨h1, h2, h3, h4⟩ := h _ (List.mem_cons_self _ _)
    obtain ⟨nm, hnm⟩ := Option.isSome_iff_exists.mp h1
    obtain ⟨du, hdu⟩ := Option.isSome_iff_exists.mp h2
    obtain ⟨da, hda⟩ := Option.isSome_iff_exists.mp h3
    simp only at hnm hdu hda h4
    subst hnm hdu hda h4
    simp only [loadWireFrames, List.map_cons, List.cons.injEq]
    refine ⟨by simp, ?_⟩
    exact loadWireFrames_roundtrip (i + 1) fs
      (fun g hg => h g (List.mem_cons_of_mem _ hg))

/-- C4 (amended): loading a flat document with `loadFromSessionData` and
serializing with `toSessionData` is the identity on every schema field
for flat documents in canonical form: version `1.0.0` (the stamp the
serializer writes), the engine-modelled optional fields present (name,
showGrid, frame names, durations and data, frameRate, looping, every
tools and typography subfield), the description absent or non-empty, at
least one frame, the current frame index in range, no thumbnails and no
`ui` section.  Outside canonical form the engine drops or rewrites
fields, as the counterexample shows for the version field. -/
theorem c4_flat_round_trip (d : SessionData) (fp : Option String)
    (s : ProjectState) (hValid : validFlat d = true)
    (hCanon : canonicalFlat d = true) :
    ProjectState.toSessionData (ProjectState.loadFromSessionData d fp s) = d := by
  obtain ⟨ver, nm, desc, canv, anim, tls, typ, ui⟩ := d
  obtain ⟨cw, ch, cbg, csg⟩ := canv
  obtain ⟨frames, cfi, frate, loop⟩ := anim
  cases tls with
  | none => simp [canonicalFlat] at hCanon
  | some t =>
  cases typ with
  | none => simp [canonicalFlat] at hCanon
  | some ty =>
  obtain ⟨tAct, tCol, tBg, tChar, tCont, tFill⟩ := t
  obtain ⟨yFs, yCs, yLs, yFont⟩ := ty
  simp only [canonicalFlat, Bool.and_eq_true, beq_iff_eq, bne_iff_ne,
    List.all_eq_true, decide_eq_true_eq, Option.isSome_iff_exists,
    Option.isNone_iff_eq_none] at hCanon
  obtain ⟨⟨⟨⟨⟨⟨⟨⟨⟨⟨⟨hver, hnm⟩, hdesc⟩, hsg⟩, hfne⟩, hfall⟩, hcfi⟩, hfr⟩, hlp⟩,
    htls⟩, htyp⟩, hui⟩ := hCanon
  simp only [validFlat, Bool.and_eq_true, decide_eq_true_eq] at hValid
  subst hver hui
  obtain ⟨nm0, hnm0⟩ := hnm
  obtain ⟨sg0, hsg0⟩ := hsg
  obtain ⟨fr0, hfr0⟩ := hfr
  obtain ⟨lp0, hlp0⟩ := hlp
  obtain ⟨⟨⟨⟨⟨⟨ta, hta⟩, ⟨tc, htc⟩⟩, ⟨tb, htb⟩⟩, ⟨tch, htch⟩⟩, ⟨tco, htco⟩⟩,
    ⟨tfil, htfil⟩⟩ := htls
  obtain ⟨⟨⟨⟨yf, hyf⟩, ⟨yc, hyc⟩⟩, ⟨yl, hyl⟩⟩, ⟨yfo, hyfo⟩⟩ := htyp
  subst hnm0 hsg0 hfr0 hlp0 hta htc htb htch htco htfil hyf hyc hyl hyfo
  have hframes : (∀ f ∈ frames, f.name.isSome = true ∧ f.duration.isSome = true ∧
      f.data.isSome = true ∧ f.thumbnail = none) := by
    intro f hf
    have h5 := hfall f hf
    simp only [Bool.and_eq_true, Option.isSome_iff_exists,
      Option.isNone_iff_eq_none] at h5
    obtain ⟨⟨⟨ha, hb⟩, hc⟩, hd⟩ := h5
    exact ⟨Option.isSome_iff_exists.mpr ha, Option.isSome_iff_exists.mpr hb,
      Option.isSome_iff_exists.mpr hc, hd⟩
  have hL : (loadWireFrames 0 frames).length = frames.length :=
    loadWireFrames_length 0 frames
  have hfne2 : frames ≠ [] := by
    intro hc
    rw [hc] at hfne
    simp at hfne
  have hloadedNE : (loadWireFrames 0 frames).isEmpty = false := by
    cases frames with
    | nil => exact absurd rfl hfne2
    | cons a t => simp [loadWireFrames]
  have hcfi0 : 0 ≤ cfi := hValid.1.1.1.1.2
  have hmin : (((min cfi (((loadWireFrames 0 frames).length : Int) - 1)).toNat : Nat) : Int)
      = cfi := by
    rw [hL]
    omega
  unfold ProjectState.loadFromSessionData ProjectState.toSessionData
  simp only [hloadedNE, Bool.false_eq_true, if_false, createDefaultState,
    Option.getD_some]
  simp only [SessionData.mk.injEq, WireCanvas.mk.injEq, WireAnimation.mk.injEq,
    WireTools.mk.injEq, WireTypography.mk.injEq, Option.some.injEq]
  repeat' apply And.intro
  all_goals try trivial
  · cases desc with
    | none => simp
    | some dd =>
      have hdd : dd ≠ "" := by
        intro hc
        exact hdesc (by rw [hc])
      simp [hdd]
  · exact loadWireFrames_roundtrip 0 frames hframes

set_option maxRecDepth 10000 in
/-- C4 fails as stated: a flat document that validates against the flat
schema with version `1.0.1` round-trips to version `1.0.0` — the
serializer stamps its own version — so the output differs from the
input on a schema-declared field. -/
theorem c4_counterexample :
    validFlat versionedDoc = true ∧
    ProjectState.toSessionData
      (ProjectState.loadFromSessionData versionedDoc none baseState) ≠
        versionedDoc := by
  exact ⟨by decide, by decide⟩

set_option maxRecDepth 10000 in
/-- C4 witness: a concrete canonical flat document round-trips
exactly. -/
theorem c4_flat_round_trip_witness :
    ProjectState.toSessionData
      (ProjectState.loadFromSessionData canonicalDoc none baseState) =
        canonicalDoc :=
  c4_flat_round_trip canonicalDoc none baseState (by decide) (by decide)

/-- C10 witness: the locked single-layer project rejects a write, a
batch write and a clear, leaving the state untouched. -/
theorem c10_locked_layer_witness :
    ProjectState.setCell 1 1 wallCell true lockedState = (false, lockedState) ∧
    ProjectState.setCells wallWrites true lockedState = (0, lockedState) ∧
    ProjectState.clearCanvas true lockedState = lockedState := by
  have hA : lockedState.getActiveLayer =
      some { (createDefaultLayer "Layer 1" 80 24 "layer-1" "cf-2") with locked := true } := by
    decide
  exact c10_locked_layer lockedState _ hA (by decide) 1 1 wallCell wallWrites

/-! ### C2: undo/redo invert recorded operations -/

theorem updCfData_comp (li ci : Nat) (f g : Grid → Grid) (L : List MCPLayer) :
    updCfData li ci f (updCfData li ci g L) =
      updCfData li ci (fun x => f (g x)) L := by
  simp only [updCfData]
  rw [updAt_comp]
  congr 1
  funext l
  simp only
  rw [updAt_comp]

theorem applyGridTarget_comp (t : GridTarget) (f g : Grid → Grid) (d : Doc) :
    applyGridTarget t f (applyGridTarget t g d) =
      applyGridTarget t (fun x => f (g x)) d := by
  cases t with
  | layerCf li ci => simp only [applyGridTarget, updCfData_comp]
  | legacyFrame i =>
    simp only [applyGridTarget]
    rw [updAt_comp]

theorem updCfData_eq_self (li ci : Nat) (f : Grid → Grid) (L : List MCPLayer)
    (h : ∀ l, L.get? li = some l → ∀ cf, l.contentFrames.get? ci = some cf →
      f cf.data = cf.data) :
    updCfData li ci f L = L := by
  simp only [updCfData]
  apply updAt_eq_self
  intro l hl
  have hinner : updAt ci (fun cf => { cf with data := f cf.data })
      l.contentFrames = l.contentFrames := by
    apply updAt_eq_self
    intro cf hcf
    have := h l hl cf hcf
    simp [this]
  simp [hinner]

theorem applyGridTarget_eq_self (t : GridTarget) (f : Grid → Grid) (d : Doc)
    (h : f (readGridTarget t d) = readGridTarget t d) :
    applyGridTarget t f d = d := by
  cases t with
  | layerCf li ci =>
    have hupd : updCfData li ci f d.layers = d.layers := by
      apply updCfData_eq_self
      intro l hl cf hcf
      simp only [List.get?_eq_getElem?] at hl hcf
      simpa [readGridTarget, hl, hcf] using h
    simp [applyGridTarget, hupd]
  | legacyFrame i =>
    have hupd : updAt i (fun fr => { fr with data := f fr.data }) d.frames
        = d.frames := by
      apply updAt_eq_self
      intro fr hfr
      have h2 := h
      simp only [readGridTarget, hfr] at h2
      simp [h2]
    simp [applyGridTarget, hupd]

theorem grid_write_restore (g : Grid) (k : CellKey) (cell : Cell) :
    (match gridGet g k with
     | some c => gridSet (if cell = EMPTY_CELL then gridDel g k else gridSet g k cell) k c
     | none => gridDel (if cell = EMPTY_CELL then gridDel g k else gridSet g k cell) k)
      = g := by
  rcases hget : gridGet g k with _ | c
  · simp only [hget]
    by_cases hc : cell = EMPTY_CELL
    · rw [if_pos hc]
      exact gridDel_gridDel_cancel g k hget
    · rw [if_neg hc]
      exact gridDel_gridSet_cancel g k cell hget
  · simp only [hget]
    by_cases hc : cell = EMPTY_CELL
    · rw [if_pos hc]
      exact gridSet_gridDel_restore g k c hget
    · rw [if_neg hc]
      exact gridSet_gridSet_restore g k c cell hget

theorem activeTarget_spec (s : ProjectState) (li : Nat) (layer : MCPLayer)
    (ci : Nat) (cf : MCPContentFrame)
    (h : s.activeTarget = some (li, layer, ci, cf)) :
    s.doc.layers.get? li = some layer ∧ layer.contentFrames.get? ci = some cf := by
  unfold ProjectState.activeTarget at h
  rcases Option.bind_eq_some.mp h with ⟨li2, hli, h2⟩
  rcases Option.bind_eq_some.mp h2 with ⟨layer2, hlayer, h3⟩
  rcases Option.bind_eq_some.mp h3 with ⟨ci2, hci, h4⟩
  rcases Option.map_eq_some'.mp h4 with ⟨cf2, hcf, heq⟩
  simp only [Prod.mk.injEq] at heq
  obtain ⟨rfl, rfl, rfl, rfl⟩ := heq
  exact ⟨hlayer, hcf⟩

theorem readGridTarget_current (s : ProjectState) (hWF : docWF s) :
    readGridTarget (.legacyFrame s.doc.currentFrameIndex) s.doc =
      (ProjectState.getCurrentFrame s).data := by
  unfold docWF at hWF
  rcases hget : s.doc.frames.get? s.doc.currentFrameIndex with _ | fr
  · exact absurd (List.get?_eq_none.mp hget) (by omega)
  · simp only [readGridTarget, hget, ProjectState.getCurrentFrame,
      List.getD_eq_getD_get?, hget, Option.getD_some]

theorem reclamp_id (d : Doc) (h : d.currentFrameIndex < d.frames.length) :
    reclampCurrentFrame d = d := by
  unfold reclampCurrentFrame
  rw [if_neg (by omega)]

theorem reclamp_wf (d : Doc) (h : 0 < d.frames.length) :
    (reclampCurrentFrame d).currentFrameIndex <
      (reclampCurrentFrame d).frames.length := by
  unfold reclampCurrentFrame
  by_cases hc : d.currentFrameIndex ≥ d.frames.length
  · rw [if_pos hc]
    show d.frames.length - 1 < d.frames.length
    omega
  · rw [if_neg hc]
    omega

theorem reclamp_override (d : Doc) (f : List Frame) (c : Nat) :
    ({ reclampCurrentFrame d with frames := f, currentFrameIndex := c } : Doc) =
      { d with frames := f, currentFrameIndex := c } := by
  unfold reclampCurrentFrame
  split <;> rfl

theorem removeAt_length (l : List α) (i : Nat) (h : i < l.length) :
    (removeAt i l).length = l.length - 1 := by
  simp only [removeAt, List.length_append, List.length_take, List.length_drop]
  omega

theorem applyGridTarget_docWF (t : GridTarget) (f : Grid → Grid) (d : Doc)
    (h : d.currentFrameIndex < d.frames.length) :
    (applyGridTarget t f d).currentFrameIndex <
      (applyGridTarget t f d).frames.length := by
  cases t <;> simpa [applyGridTarget, updAt_length] using h

theorem undo_step (t : ProjectState) (k : Nat) (e : HEntry)
    (hIdx : t.historyIndex = (k : Int)) (hGet : t.historyStack.get? k = some e) :
    t.undo = (true, { t with doc := e.undoAct t.doc
                             historyIndex := (k : Int) - 1
                             isDirty := true }) := by
  unfold ProjectState.undo
  rw [if_neg (by rw [hIdx]; omega)]
  have htn : t.historyIndex.toNat = k := by omega
  rw [htn]
  simp only [hGet, hIdx]

theorem redo_step (t : ProjectState) (k : Nat) (e : HEntry)
    (hIdx : t.historyIndex = (k : Int) - 1) (hk : k < t.historyStack.length)
    (hGet : t.historyStack.get? k = some e) :
    t.redo = (true, { t with doc := e.redoAct t.doc
                             historyIndex := (k : Int)
                             isDirty := true }) := by
  unfold ProjectState.redo
  rw [if_neg (by rw [hIdx]; omega)]
  have h2 : t.historyIndex + 1 = (k : Int) := by omega
  simp only [h2, Int.toNat_natCast, hGet]

theorem goToFrame_stack (i : Int) (s : ProjectState) :
    ((ProjectState.goToFrame i s).2).historyStack = s.historyStack := by
  unfold ProjectState.goToFrame
  repeat' split
  all_goals rfl

theorem addLayer_stack (nm : Option String) (s : ProjectState) :
    ((ProjectState.addLayer nm s).2).historyStack = s.historyStack := by
  unfold ProjectState.addLayer
  repeat' split
  all_goals rfl

theorem setActiveLayer_stack (lid : String) (s : ProjectState) :
    ((ProjectState.setActiveLayer lid s).2).historyStack = s.historyStack := by
  unfold ProjectState.setActiveLayer
  repeat' split
  all_goals rfl

theorem setLayerLocked_stack (lid : String) (b : Bool) (s : ProjectState) :
    ((ProjectState.setLayerLocked lid b s).2).historyStack = s.historyStack := by
  unfold ProjectState.setLayerLocked
  repeat' split
  all_goals rfl

theorem addContentFrame_stack (lid : String) (sf df : Int) (g : Option Grid)
    (s : ProjectState) :
    ((ProjectState.addContentFrame lid sf df g s).2).historyStack
      = s.historyStack := by
  unfold ProjectState.addContentFrame
  split
  · rfl
  · dsimp only
    split
    · rfl
    · rfl

theorem removeContentFrame_stack (lid cid : String) (s : ProjectState) :
    ((ProjectState.removeContentFrame lid cid s).2).historyStack
      = s.historyStack := by
  unfold ProjectState.removeContentFrame
  repeat' split
  all_goals rfl

theorem updateContentFrameData_stack (lid cid : String) (g : Grid)
    (s : ProjectState) :
    ((ProjectState.updateContentFrameData lid cid g s).2).historyStack
      = s.historyStack := by
  unfold ProjectState.updateContentFrameData
  repeat' split
  all_goals rfl

theorem updateContentFrameTiming_stack (lid cid : String) (sf df : Int)
    (s : ProjectState) :
    ((ProjectState.updateContentFrameTiming lid cid sf df s).2).historyStack
      = s.historyStack := by
  unfold ProjectState.updateContentFrameTiming
  split
  · rfl
  · dsimp only
    split
    · rfl
    · split
      · rfl
      · rfl

theorem addPropertyTrack_stack (lid p : String) (s : ProjectState) :
    ((ProjectState.addPropertyTrack lid p s).2).historyStack = s.historyStack := by
  unfold ProjectState.addPropertyTrack
  repeat' split
  all_goals rfl

theorem addKeyframe_stack (lid p : String) (f : Int) (v : ℚ)
    (e : Option EasingCurve) (s : ProjectState) :
    ((ProjectState.addKeyframe lid p f v e s).2).historyStack
      = s.historyStack := by
  unfold ProjectState.addKeyframe
  split
  · rfl
  · show (if _ then s else (ProjectState.addPropertyTrack lid p s).2).historyStack
      = s.historyStack
    split
    · rfl
    · exact addPropertyTrack_stack lid p s

theorem newProject_stack (opts : ProjectState.NewProjectOptions)
    (s : ProjectState) :
    (ProjectState.newProject opts s).historyStack = [] := by
  unfold ProjectState.newProject
  repeat' split
  all_goals rfl

theorem loadFromSessionData_stack (d : SessionData) (fp : Option String)
    (s : ProjectState) :
    (ProjectState.loadFromSessionData d fp s).historyStack = [] := rfl

theorem undo_stack (s : ProjectState) :
    ((ProjectState.undo s).2).historyStack = s.historyStack := by
  unfold ProjectState.undo
  repeat' split
  all_goals rfl

theorem redo_stack (s : ProjectState) :
    ((ProjectState.redo s).2).historyStack = s.historyStack := by
  unfold ProjectState.redo
  split
  · rfl
  · dsimp only
    split
    · rfl
    · rfl

theorem setCell_push_spec (x y : Int) (cell : Cell) (s : ProjectState)
    (hTop : cursorTop s) (hWF : docWF s)
    (hCap : s.historyStack.length < s.maxHistorySize)
    (hRec : ((ProjectState.setCell x y cell true s).2).historyStack.length =
      s.historyStack.length + 1) :
    ∃ e : HEntry, pushedOne e s (ProjectState.setCell x y cell true s).2 := by
  unfold ProjectState.setCell at hRec ⊢
  dsimp only at hRec ⊢
  by_cases hb : (!isInBounds x y s.doc.width s.doc.height) = true
  · rw [if_pos hb] at hRec
    simp at hRec
  · rw [if_neg hb] at hRec ⊢
    by_cases hm : s.isLayerMode = true
    · rw [if_pos hm] at hRec ⊢
      rcases hat : s.activeTarget with _ | ⟨li, layer, ci, cf⟩
      · simp only [hat] at hRec
        simp at hRec
      · simp only [hat] at hRec ⊢
        by_cases hlk : layer.locked = true
        · rw [if_pos hlk] at hRec
          simp at hRec
        · rw [if_neg hlk] at hRec ⊢
          simp only [eq_self_iff_true, if_true] at hRec ⊢
          rw [pushHistory_top _ s hTop hCap]
          dsimp only
          obtain ⟨h1, h2⟩ := activeTarget_spec s li layer ci cf hat
          have hread : readGridTarget (GridTarget.layerCf li ci) s.doc = cf.data := by
            simp only [readGridTarget, h1, h2]
          refine ⟨_, rfl, rfl, rfl, ?_, rfl, ?_, rfl⟩
          · simp only [HEntry.undoAct]
            rw [applyGridTarget_comp]
            apply applyGridTarget_eq_self
            rw [hread]
            exact grid_write_restore cf.data (x, y) cell
          · exact applyGridTarget_docWF _ _ _ hWF
    · rw [if_neg hm] at hRec ⊢
      simp only [eq_self_iff_true, if_true] at hRec ⊢
      rw [pushHistory_top _ s hTop hCap]
      dsimp only
      have hread := readGridTarget_current s hWF
      refine ⟨_, rfl, rfl, rfl, ?_, rfl, ?_, rfl⟩
      · simp only [HEntry.undoAct]
        rw [applyGridTarget_comp]
        apply applyGridTarget_eq_self
        rw [hread]
        exact grid_write_restore (ProjectState.getCurrentFrame s).data (x, y) cell
      · exact applyGridTarget_docWF _ _ _ hWF

theorem reclamp_frames (d : Doc) : (reclampCurrentFrame d).frames = d.frames := by
  unfold reclampCurrentFrame
  split <;> rfl

theorem updAt_duration_restore (l : List Frame) (i : Nat) (q : ℚ)
    (h : l.get? i = some (l.getD i ProjectState.junkFrame)) :
    updAt i (fun fr => { fr with duration := (l.getD i ProjectState.junkFrame).duration })
      (updAt i (fun fr => { fr with duration := q }) l) = l := by
  rw [updAt_comp]
  apply updAt_eq_self
  intro a ha
  have h3 : a = l.getD i ProjectState.junkFrame :=
    Option.some.inj (ha.symm.trans h)
  rw [h3]

theorem updAt_name_restore (l : List Frame) (i : Nat) (nm : String)
    (h : l.get? i = some (l.getD i ProjectState.junkFrame)) :
    updAt i (fun fr => { fr with name := (l.getD i ProjectState.junkFrame).name })
      (updAt i (fun fr => { fr with name := nm }) l) = l := by
  rw [updAt_comp]
  apply updAt_eq_self
  intro a ha
  have h3 : a = l.getD i ProjectState.junkFrame :=
    Option.some.inj (ha.symm.trans h)
  rw [h3]

theorem setCells_push_spec (cells : List ProjectState.CellWrite) (s : ProjectState)
    (hTop : cursorTop s) (hWF : docWF s)
    (hCap : s.historyStack.length < s.maxHistorySize)
    (hRec : ((ProjectState.setCells cells true s).2).historyStack.length =
      s.historyStack.length + 1) :
    ∃ e : HEntry, pushedOne e s (ProjectState.setCells cells true s).2 := by
  unfold ProjectState.setCells at hRec ⊢
  dsimp only at hRec ⊢
  by_cases hm : s.isLayerMode = true
  · rw [if_pos hm] at hRec ⊢
    rcases hat : s.activeTarget with _ | ⟨li, layer, ci, cf⟩
    · simp only [hat] at hRec
      simp at hRec
    · simp only [hat] at hRec ⊢
      by_cases hlk : layer.locked = true
      · rw [if_pos hlk] at hRec
        simp at hRec
      · rw [if_neg hlk] at hRec ⊢
        simp only [Bool.true_and, decide_eq_true_eq] at hRec ⊢
        by_cases hn :
            (ProjectState.writeCells s.doc.width s.doc.height cells cf.data).2 > 0
        · simp only [hn, if_true] at hRec ⊢
          rw [pushHistory_top _ s hTop hCap]
          dsimp only
          obtain ⟨h1, h2⟩ := activeTarget_spec s li layer ci cf hat
          have hread : readGridTarget (GridTarget.layerCf li ci) s.doc = cf.data := by
            simp only [readGridTarget, h1, h2]
          refine ⟨_, rfl, rfl, rfl, ?_, rfl, ?_, rfl⟩
          · simp only [HEntry.undoAct]
            rw [applyGridTarget_comp]
            apply applyGridTarget_eq_self
            rw [hread]
          · exact applyGridTarget_docWF _ _ _ hWF
        · simp only [hn, if_false] at hRec
          simp at hRec
  · rw [if_neg hm] at hRec ⊢
    simp only [Bool.true_and, decide_eq_true_eq] at hRec ⊢
    by_cases hn :
        (ProjectState.writeCells s.doc.width s.doc.height cells
          (ProjectState.getCurrentFrame s).data).2 > 0
    · simp only [hn, if_true] at hRec ⊢
      rw [pushHistory_top _ s hTop hCap]
      dsimp only
      have hread := readGridTarget_current s hWF
      refine ⟨_, rfl, rfl, rfl, ?_, rfl, ?_, rfl⟩
      · simp only [HEntry.undoAct]
        rw [applyGridTarget_comp]
        apply applyGridTarget_eq_self
        rw [hread]
      · exact applyGridTarget_docWF _ _ _ hWF
    · simp only [hn, if_false] at hRec
      simp at hRec

theorem clearCanvas_push_spec (s : ProjectState)
    (hTop : cursorTop s) (hWF : docWF s)
    (hCap : s.historyStack.length < s.maxHistorySize)
    (hRec : (ProjectState.clearCanvas true s).historyStack.length =
      s.historyStack.length + 1) :
    ∃ e : HEntry, pushedOne e s (ProjectState.clearCanvas true s) := by
  unfold ProjectState.clearCanvas at hRec ⊢
  dsimp only at hRec ⊢
  by_cases hm : s.isLayerMode = true
  · rw [if_pos hm] at hRec ⊢
    rcases hat : s.activeTarget with _ | ⟨li, layer, ci, cf⟩
    · simp only [hat] at hRec
      simp at hRec
    · simp only [hat] at hRec ⊢
      by_cases hlk : layer.locked = true
      · rw [if_pos hlk] at hRec
        simp at hRec
      · rw [if_neg hlk] at hRec ⊢
        simp only [eq_self_iff_true, if_true] at hRec ⊢
        rw [pushHistory_top _ s hTop hCap]
        dsimp only
        obtain ⟨h1, h2⟩ := activeTarget_spec s li layer ci cf hat
        have hread : readGridTarget (GridTarget.layerCf li ci) s.doc = cf.data := by
          simp only [readGridTarget, h1, h2]
        refine ⟨_, rfl, rfl, rfl, ?_, rfl, ?_, rfl⟩
        · simp only [HEntry.undoAct]
          rw [applyGridTarget_comp]
          apply applyGridTarget_eq_self
          rw [hread]
        · exact applyGridTarget_docWF _ _ _ hWF
  · rw [if_neg hm] at hRec ⊢
    simp only [eq_self_iff_true, if_true] at hRec ⊢
    rw [pushHistory_top _ s hTop hCap]
    dsimp only
    have hread := readGridTarget_current s hWF
    refine ⟨_, rfl, rfl, rfl, ?_, rfl, ?_, rfl⟩
    · simp only [HEntry.undoAct]
      rw [applyGridTarget_comp]
      apply applyGridTarget_eq_self
      rw [hread]
    · exact applyGridTarget_docWF _ _ _ hWF

theorem resizeCanvas_push_spec (w0 h0 : Int) (s : ProjectState)
    (hTop : cursorTop s) (hWF : docWF s)
    (hCap : s.historyStack.length < s.maxHistorySize) :
    ∃ e : HEntry, pushedOne e s (ProjectState.resizeCanvas w0 h0 true s) := by
  have hWF2 : s.doc.currentFrameIndex < s.doc.frames.length := hWF
  unfold ProjectState.resizeCanvas
  dsimp only
  simp only [eq_self_iff_true, if_true]
  rw [pushHistory_top _ s hTop hCap]
  dsimp only
  refine ⟨_, rfl, rfl, rfl, ?_, rfl, ?_, rfl⟩
  · simp only [HEntry.undoAct]
    rw [restoreFrameData_map]
  · show s.doc.currentFrameIndex < (s.doc.frames.map _).length
    simpa using hWF2

theorem fillRegion_push_spec (x y : Int) (c : Cell)
    (o : ProjectState.FillOptions) (s : ProjectState)
    (hTop : cursorTop s) (hWF : docWF s)
    (hCap : s.historyStack.length < s.maxHistorySize)
    (hRec : ((ProjectState.fillRegion x y c o true s).2).historyStack.length =
      s.historyStack.length + 1) :
    ∃ e : HEntry, pushedOne e s (ProjectState.fillRegion x y c o true s).2 := by
  unfold ProjectState.fillRegion at hRec ⊢
  dsimp only at hRec ⊢
  by_cases hm : s.isLayerMode = true
  · rw [if_pos hm] at hRec ⊢
    rcases hat : s.activeTarget with _ | ⟨li, layer, ci, cf⟩
    · simp only [hat] at hRec
      simp at hRec
    · simp only [hat] at hRec ⊢
      simp only [Bool.true_and, decide_eq_true_eq] at hRec ⊢
      by_cases hn :
          (ProjectState.cellsToFill s x y o (s.getCell x y)).length > 0
      · simp only [hn, if_true] at hRec ⊢
        rw [pushHistory_top _ s hTop hCap]
        dsimp only
        refine ⟨_, rfl, rfl, rfl, ?_, rfl, ?_, rfl⟩
        · simp only [HEntry.undoAct]
          rw [applyGridTarget_comp]
          exact applyGridTarget_eq_self _ _ _ rfl
        · exact applyGridTarget_docWF _ _ _ hWF
      · simp only [hn, if_false] at hRec
        simp at hRec
  · rw [if_neg hm] at hRec ⊢
    simp only [Bool.true_and, decide_eq_true_eq] at hRec ⊢
    by_cases hn :
        (ProjectState.cellsToFill s x y o (s.getCell x y)).length > 0
    · simp only [hn, if_true] at hRec ⊢
      rw [pushHistory_top _ s hTop hCap]
      dsimp only
      refine ⟨_, rfl, rfl, rfl, ?_, rfl, ?_, rfl⟩
      · simp only [HEntry.undoAct]
        rw [applyGridTarget_comp]
        exact applyGridTarget_eq_self _ _ _ rfl
      · exact applyGridTarget_docWF _ _ _ hWF
    · simp only [hn, if_false] at hRec
      simp at hRec

theorem addFrame_push_spec (ai : Option Nat) (cd : Option Grid) (dur : Option ℚ)
    (s : ProjectState) (hTop : cursorTop s) (hWF : docWF s)
    (hCap : s.historyStack.length < s.maxHistorySize)
    (hIdx : ai.getD s.doc.frames.length ≤ s.doc.frames.length) :
    ∃ e : HEntry, pushedOne e s (ProjectState.addFrame ai cd dur true s).2 := by
  have hWF2 : s.doc.currentFrameIndex < s.doc.frames.length := hWF
  unfold ProjectState.addFrame
  simp only [freshId]
  simp only [eq_self_iff_true, if_true]
  have hTopB : cursorTop { s with nextId := s.nextId + 1 } := hTop
  have hCapB : ({ s with nextId := s.nextId + 1 } : ProjectState).historyStack.length
      < ({ s with nextId := s.nextId + 1 } : ProjectState).maxHistorySize := hCap
  rw [pushHistory_top _ _ hTopB hCapB]
  dsimp only
  refine ⟨_, rfl, rfl, rfl, ?_, rfl, ?_, rfl⟩
  · simp only [HEntry.undoAct]
    rw [removeAt_insertAt _ _ _ hIdx]
    exact reclamp_id s.doc hWF2
  · show s.doc.currentFrameIndex < (insertAt _ _ s.doc.frames).length
    rw [insertAt_length]
    omega

theorem deleteFrame_push_spec (idx : Int) (s : ProjectState)
    (hTop : cursorTop s) (hWF : docWF s)
    (hCap : s.historyStack.length < s.maxHistorySize)
    (hRec : ((ProjectState.deleteFrame idx true s).2).historyStack.length =
      s.historyStack.length + 1) :
    ∃ e : HEntry, pushedOne e s (ProjectState.deleteFrame idx true s).2 := by
  have hWF2 : s.doc.currentFrameIndex < s.doc.frames.length := hWF
  unfold ProjectState.deleteFrame at hRec ⊢
  dsimp only at hRec ⊢
  by_cases hg : (idx < 0 || idx ≥ (s.doc.frames.length : Int)) = true
  · rw [if_pos hg] at hRec
    simp at hRec
  · rw [if_neg hg] at hRec ⊢
    simp only [Bool.or_eq_true, decide_eq_true_eq, not_or] at hg
    by_cases hone : s.doc.frames.length = 1
    · rw [if_pos hone] at hRec
      simp at hRec
    · rw [if_neg hone] at hRec ⊢
      have hi : idx.toNat < s.doc.frames.length := by omega
      have hget : s.doc.frames.get? idx.toNat
          = some (s.doc.frames.getD idx.toNat ProjectState.junkFrame) := by
        rcases hg2 : s.doc.frames.get? idx.toNat with _ | fr
        · exact absurd (List.get?_eq_none.mp hg2) (by omega)
        · rw [List.getD_eq_getD_get?, hg2]
          rfl
      simp only [eq_self_iff_true, if_true] at hRec ⊢
      rw [pushHistory_top _ s hTop hCap]
      dsimp only
      refine ⟨_, rfl, rfl, rfl, ?_, rfl, ?_, rfl⟩
      · simp only [HEntry.undoAct]
        rw [reclamp_frames, insertAt_removeAt _ _ _ hget, reclamp_override]
      · apply reclamp_wf
        show 0 < (removeAt idx.toNat s.doc.frames).length
        rw [removeAt_length _ _ hi]
        omega

theorem duplicateFrame_push_spec (idx : Int) (s : ProjectState)
    (hTop : cursorTop s) (hWF : docWF s)
    (hCap : s.historyStack.length < s.maxHistorySize)
    (hRec : ((ProjectState.duplicateFrame idx true s).2).historyStack.length =
      s.historyStack.length + 1) :
    ∃ e : HEntry, pushedOne e s (ProjectState.duplicateFrame idx true s).2 := by
  have hWF2 : s.doc.currentFrameIndex < s.doc.frames.length := hWF
  unfold ProjectState.duplicateFrame at hRec ⊢
  dsimp only [freshId] at hRec ⊢
  by_cases hg : (idx < 0 || idx ≥ (s.doc.frames.length : Int)) = true
  · rw [if_pos hg] at hRec
    simp at hRec
  · rw [if_neg hg] at hRec ⊢
    simp only [Bool.or_eq_true, decide_eq_true_eq, not_or] at hg
    have hle : idx.toNat + 1 ≤ s.doc.frames.length := by omega
    simp only [eq_self_iff_true, if_true] at hRec ⊢
    have hTopB : cursorTop { s with nextId := s.nextId + 1 } := hTop
    have hCapB : ({ s with nextId := s.nextId + 1 } : ProjectState).historyStack.length
        < ({ s with nextId := s.nextId + 1 } : ProjectState).maxHistorySize := hCap
    rw [pushHistory_top _ _ hTopB hCapB]
    dsimp only
    refine ⟨_, rfl, rfl, rfl, ?_, rfl, ?_, rfl⟩
    · simp only [HEntry.undoAct]
      rw [removeAt_insertAt _ _ _ hle]
    · show s.doc.currentFrameIndex < (insertAt _ _ s.doc.frames).length
      rw [insertAt_length]
      omega

theorem setFrameDuration_push_spec (idx : Int) (q : ℚ) (s : ProjectState)
    (hTop : cursorTop s) (hWF : docWF s)
    (hCap : s.historyStack.length < s.maxHistorySize)
    (hRec : ((ProjectState.setFrameDuration idx q true s).2).historyStack.length =
      s.historyStack.length + 1) :
    ∃ e : HEntry, pushedOne e s (ProjectState.setFrameDuration idx q true s).2 := by
  have hWF2 : s.doc.currentFrameIndex < s.doc.frames.length := hWF
  unfold ProjectState.setFrameDuration at hRec ⊢
  dsimp only at hRec ⊢
  by_cases hg : (idx < 0 || idx ≥ (s.doc.frames.length : Int)) = true
  · rw [if_pos hg] at hRec
    simp at hRec
  · rw [if_neg hg] at hRec ⊢
    simp only [Bool.or_eq_true, decide_eq_true_eq, not_or] at hg
    have hget : s.doc.frames.get? idx.toNat
        = some (s.doc.frames.getD idx.toNat ProjectState.junkFrame) := by
      rcases hg2 : s.doc.frames.get? idx.toNat with _ | fr
      · exact absurd (List.get?_eq_none.mp hg2) (by omega)
      · rw [List.getD_eq_getD_get?, hg2]
        rfl
    simp only [eq_self_iff_true, if_true] at hRec ⊢
    rw [pushHistory_top _ s hTop hCap]
    dsimp only
    refine ⟨_, rfl, rfl, rfl, ?_, rfl, ?_, rfl⟩
    · simp only [HEntry.undoAct]
      rw [updAt_duration_restore _ _ _ hget]
    · show s.doc.currentFrameIndex < (updAt _ _ s.doc.frames).length
      rw [updAt_length]
      omega

theorem setFrameName_push_spec (idx : Int) (nm : String) (s : ProjectState)
    (hTop : cursorTop s) (hWF : docWF s)
    (hCap : s.historyStack.length < s.maxHistorySize)
    (hRec : ((ProjectState.setFrameName idx nm true s).2).historyStack.length =
      s.historyStack.length + 1) :
    ∃ e : HEntry, pushedOne e s (ProjectState.setFrameName idx nm true s).2 := by
  have hWF2 : s.doc.currentFrameIndex < s.doc.frames.length := hWF
  unfold ProjectState.setFrameName at hRec ⊢
  dsimp only at hRec ⊢
  by_cases hg : (idx < 0 || idx ≥ (s.doc.frames.length : Int)) = true
  · rw [if_pos hg] at hRec
    simp at hRec
  · rw [if_neg hg] at hRec ⊢
    simp only [Bool.or_eq_true, decide_eq_true_eq, not_or] at hg
    have hget : s.doc.frames.get? idx.toNat
        = some (s.doc.frames.getD idx.toNat ProjectState.junkFrame) := by
      rcases hg2 : s.doc.frames.get? idx.toNat with _ | fr
      · exact absurd (List.get?_eq_none.mp hg2) (by omega)
      · rw [List.getD_eq_getD_get?, hg2]
        rfl
    simp only [eq_self_iff_true, if_true] at hRec ⊢
    rw [pushHistory_top _ s hTop hCap]
    dsimp only
    refine ⟨_, rfl, rfl, rfl, ?_, rfl, ?_, rfl⟩
    · simp only [HEntry.undoAct]
      rw [updAt_name_restore _ _ _ hget]
    · show s.doc.currentFrameIndex < (updAt _ _ s.doc.frames).length
      rw [updAt_length]
      omega

theorem applyOp_push_spec (o : Op) (s : ProjectState)
    (hTop : cursorTop s) (hWF : docWF s)
    (hCap : s.historyStack.length < s.maxHistorySize)
    (hRec : recordsOne o s = true) (hIdx : addFrameIdxOK o s = true) :
    ∃ e : HEntry, pushedOne e s (applyOp o s) := by
  cases o with
  | setCell x y cell =>
    exact setCell_push_spec x y cell s hTop hWF hCap
      (by simpa [recordsOne, applyOp] using hRec)
  | setCells cells =>
    exact setCells_push_spec cells s hTop hWF hCap
      (by simpa [recordsOne, applyOp] using hRec)
  | clearCell x y =>
    exact setCell_push_spec x y EMPTY_CELL s hTop hWF hCap
      (by simpa [recordsOne, applyOp, ProjectState.clearCell] using hRec)
  | clearCanvas =>
    exact clearCanvas_push_spec s hTop hWF hCap
      (by simpa [recordsOne, applyOp] using hRec)
  | resizeCanvas w h =>
    exact resizeCanvas_push_spec w h s hTop hWF hCap
  | fillRegion x y c o =>
    exact fillRegion_push_spec x y c o s hTop hWF hCap
      (by simpa [recordsOne, applyOp] using hRec)
  | addFrame ai cd dur =>
    exact addFrame_push_spec ai cd dur s hTop hWF hCap
      (by simpa [addFrameIdxOK] using hIdx)
  | deleteFrame i =>
    exact deleteFrame_push_spec i s hTop hWF hCap
      (by simpa [recordsOne, applyOp] using hRec)
  | duplicateFrame i =>
    exact duplicateFrame_push_spec i s hTop hWF hCap
      (by simpa [recordsOne, applyOp] using hRec)
  | goToFrame i =>
    exfalso
    simp only [recordsOne, applyOp, goToFrame_stack, beq_iff_eq] at hRec
    omega
  | setFrameDuration i d =>
    exact setFrameDuration_push_spec i d s hTop hWF hCap
      (by simpa [recordsOne, applyOp] using hRec)
  | setFrameName i n =>
    exact setFrameName_push_spec i n s hTop hWF hCap
      (by simpa [recordsOne, applyOp] using hRec)
  | addLayer n =>
    exfalso
    simp only [recordsOne, applyOp, addLayer_stack, beq_iff_eq] at hRec
    omega
  | setActiveLayer lid =>
    exfalso
    simp only [recordsOne, applyOp, setActiveLayer_stack, beq_iff_eq] at hRec
    omega
  | setLayerLocked lid b =>
    exfalso
    simp only [recordsOne, applyOp, setLayerLocked_stack, beq_iff_eq] at hRec
    omega
  | addContentFrame lid sf df d =>
    exfalso
    simp only [recordsOne, applyOp, addContentFrame_stack, beq_iff_eq] at hRec
    omega
  | removeContentFrame lid cid =>
    exfalso
    simp only [recordsOne, applyOp, removeContentFrame_stack, beq_iff_eq] at hRec
    omega
  | updateContentFrameData lid cid d =>
    exfalso
    simp only [recordsOne, applyOp, updateContentFrameData_stack, beq_iff_eq] at hRec
    omega
  | updateContentFrameTiming lid cid sf df =>
    exfalso
    simp only [recordsOne, applyOp, updateContentFrameTiming_stack, beq_iff_eq] at hRec
    omega
  | addKeyframe lid p f v e =>
    exfalso
    simp only [recordsOne, applyOp, addKeyframe_stack, beq_iff_eq] at hRec
    omega
  | newProject opts =>
    exfalso
    simp only [recordsOne, applyOp, newProject_stack, beq_iff_eq,
      List.length_nil] at hRec
    omega
  | loadFromSessionData d =>
    exfalso
    simp only [recordsOne, applyOp, loadFromSessionData_stack, beq_iff_eq,
      List.length_nil] at hRec
    omega
  | undo =>
    exfalso
    simp only [recordsOne, applyOp, undo_stack, beq_iff_eq] at hRec
    omega
  | redo =>
    exfalso
    simp only [recordsOne, applyOp, redo_stack, beq_iff_eq] at hRec
    omega

theorem runOps_inverse (ops : List Op) :
    ∀ s : ProjectState, cursorTop s → docWF s →
      s.historyStack.length + ops.length ≤ s.maxHistorySize →
      okRun ops s = true →
      (runOps ops s).maxHistorySize = s.maxHistorySize ∧
      (∃ es : List HEntry, (runOps ops s).historyStack = s.historyStack ++ es ∧
        es.length = ops.length) ∧
      cursorTop (runOps ops s) ∧ docWF (runOps ops s) ∧
      (ops ≠ [] →
        undoN ops.length (runOps ops s) =
          { runOps ops s with
              doc := s.doc
              historyIndex := s.historyIndex
              isDirty := true } ∧
        redoN ops.length (undoN ops.length (runOps ops s)) =
          { runOps ops s with isDirty := true }) := by
  induction ops with
  | nil =>
    intro s hTop hWF _ _
    exact ⟨rfl, ⟨[], by simp [runOps], rfl⟩, hTop, hWF, fun h => absurd rfl h⟩
  | cons o rest ih =>
    intro s hTop hWF hCap hOk
    have hTop2 : s.historyIndex = (s.historyStack.length : Int) - 1 := hTop
    simp only [okRun, Bool.and_eq_true] at hOk
    obtain ⟨⟨hRec, hIdxOk⟩, hOkRest⟩ := hOk
    have hCap1 : s.historyStack.length < s.maxHistorySize := by
      simp only [List.length_cons] at hCap
      omega
    obtain ⟨e1, hStk1, hIdx1, hMax1, hUndo1, hRedo1, hWF1, hDirty1⟩ :=
      applyOp_push_spec o s hTop hWF hCap1 hRec hIdxOk
    have hTop1 : cursorTop (applyOp o s) := by
      show (applyOp o s).historyIndex = ((applyOp o s).historyStack.length : Int) - 1
      rw [hIdx1, hStk1]
      simp
    have hWF1' : docWF (applyOp o s) := hWF1
    have hCapRest : (applyOp o s).historyStack.length + rest.length
        ≤ (applyOp o s).maxHistorySize := by
      rw [hStk1, hMax1]
      simp only [List.length_append, List.length_singleton, List.length_cons,
        List.length_nil] at hCap ⊢
      omega
    obtain ⟨ihMax, ⟨es, ihStk, ihLen⟩, ihTop, ihWF, ihUR⟩ :=
      ih (applyOp o s) hTop1 hWF1' hCapRest hOkRest
    simp only [runOps, List.length_cons]
    have hget1 : (runOps rest (applyOp o s)).historyStack.get?
        s.historyStack.length = some e1 := by
      rw [ihStk, hStk1, List.append_assoc,
        List.get?_append_right (Nat.le_refl _)]
      simp
    have hUrest : undoN rest.length (runOps rest (applyOp o s))
        = { runOps rest (applyOp o s) with
            doc := (applyOp o s).doc
            historyIndex := (applyOp o s).historyIndex
            isDirty := true } := by
      by_cases hrest : rest = []
      · subst hrest
        show applyOp o s = _
        rw [← hDirty1]
        rfl
      · exact (ihUR hrest).1
    have hRrest : redoN rest.length (undoN rest.length (runOps rest (applyOp o s)))
        = { runOps rest (applyOp o s) with isDirty := true } := by
      by_cases hrest : rest = []
      · subst hrest
        show applyOp o s = _
        rw [← hDirty1]
        rfl
      · exact (ihUR hrest).2
    have hU : undoN (rest.length + 1) (runOps rest (applyOp o s))
        = { runOps rest (applyOp o s) with
            doc := s.doc
            historyIndex := s.historyIndex
            isDirty := true } := by
      show ((undoN rest.length (runOps rest (applyOp o s))).undo).2 = _
      rw [hUrest]
      have hIdxU : ({ runOps rest (applyOp o s) with
          doc := (applyOp o s).doc
          historyIndex := (applyOp o s).historyIndex
          isDirty := true } : ProjectState).historyIndex
          = (s.historyStack.length : Int) := hIdx1
      have hgetU : ({ runOps rest (applyOp o s) with
          doc := (applyOp o s).doc
          historyIndex := (applyOp o s).historyIndex
          isDirty := true } : ProjectState).historyStack.get?
            s.historyStack.length = some e1 := hget1
      rw [undo_step _ s.historyStack.length e1 hIdxU hgetU]
      dsimp only
      rw [hUndo1, hTop2]
    have hklen : s.historyStack.length
        < (runOps rest (applyOp o s)).historyStack.length := by
      rw [ihStk, hStk1]
      simp only [List.length_append, List.length_singleton, List.length_nil]
      omega
    have hR : redoN (rest.length + 1)
          (undoN (rest.length + 1) (runOps rest (applyOp o s)))
        = { runOps rest (applyOp o s) with isDirty := true } := by
      rw [hU]
      simp only [redoN]
      have hIdxR : ({ runOps rest (applyOp o s) with
          doc := s.doc
          historyIndex := s.historyIndex
          isDirty := true } : ProjectState).historyIndex
          = (s.historyStack.length : Int) - 1 := hTop2
      have hkR : s.historyStack.length < ({ runOps rest (applyOp o s) with
          doc := s.doc
          historyIndex := s.historyIndex
          isDirty := true } : ProjectState).historyStack.length := hklen
      have hgetR : ({ runOps rest (applyOp o s) with
          doc := s.doc
          historyIndex := s.historyIndex
          isDirty := true } : ProjectState).historyStack.get?
            s.historyStack.length = some e1 := hget1
      rw [redo_step _ s.historyStack.length e1 hIdxR hkR hgetR]
      dsimp only
      rw [hRedo1, ← hIdx1, ← hUrest]
      exact hRrest
    refine ⟨ihMax.trans hMax1, ⟨e1 :: es, ?_, ?_⟩, ihTop, ihWF, fun _ => ⟨hU, hR⟩⟩
    · rw [ihStk, hStk1, List.append_assoc]
      rfl
    · simp [ihLen]

/-- C2 (amended): starting from a state whose history cursor sits on top
of the stack, whose current frame index is in range, and whose history
capacity accommodates the run (`|stack| + N ≤ maxHistorySize`), applying
any sequence of `N` operations each of which records exactly one history
entry — with `addFrame` insertion indices within the current frame count
— and then calling `undo()` `N` times restores the entire document
(canvas dimensions, every frame's cell grid, frame metadata, current
frame index and layers) to the initial document; calling `redo()` `N`
times afterwards restores the post-run document exactly.  Without the
insertion-index restriction a recorded `addFrame` is not undone exactly,
as the counterexample shows. -/
theorem c2_undo_redo_inverse (ops : List Op) (s : ProjectState)
    (hTop : cursorTop s) (hWF : docWF s)
    (hCap : s.historyStack.length + ops.length ≤ s.maxHistorySize)
    (hOk : okRun ops s = true) :
    (undoN ops.length (runOps ops s)).doc = s.doc ∧
    (redoN ops.length (undoN ops.length (runOps ops s))).doc =
      (runOps ops s).doc := by
  obtain ⟨-, -, -, -, hUR⟩ := runOps_inverse ops s hTop hWF hCap hOk
  by_cases h : ops = []
  · subst h
    exact ⟨rfl, rfl⟩
  · obtain ⟨hU, hR⟩ := hUR h
    constructor
    · rw [hU]
    · rw [hR]

set_option maxRecDepth 10000 in
/-- C2 fails as stated: `addFrame` with insertion index 5 on the default
one-frame document is a history-recorded operation (it pushes exactly one
entry), yet one `undo()` does not restore the document — the captured
undo closure splices at index 5, which removes nothing, so both frames
survive. -/
theorem c2_counterexample :
    recordsOne (Op.addFrame (some 5) none none) baseState = true ∧
    (undoN 1 (runOps [Op.addFrame (some 5) none none] baseState)).doc ≠
      baseState.doc :=
  ⟨by decide, by decide⟩

set_option maxRecDepth 10000 in
/-- C2 witness: a two-operation run — a cell write then a canvas resize —
undone twice restores the default document, and redone twice restores the
post-run document. -/
theorem c2_undo_redo_inverse_witness :
    (undoN 2 (runOps [Op.setCell 1 1 wallCell, Op.resizeCanvas 10 10]
        baseState)).doc = baseState.doc ∧
    (redoN 2 (undoN 2 (runOps [Op.setCell 1 1 wallCell, Op.resizeCanvas 10 10]
        baseState))).doc =
      (runOps [Op.setCell 1 1 wallCell, Op.resizeCanvas 10 10] baseState).doc :=
  c2_undo_redo_inverse [Op.setCell 1 1 wallCell, Op.resizeCanvas 10 10] baseState
    (by show baseState.historyIndex = (baseState.historyStack.length : Int) - 1
        decide)
    (by show baseState.doc.currentFrameIndex < baseState.doc.frames.length
        decide)
    (by decide) (by decide)

/-! ### C3: the sparsity invariant -/

theorem sparseGrid_empty : sparseGrid (∅ : Grid) = true := by
  rw [sparseGrid, gridAll_iff]
  intro k c h
  simp [gridGet] at h

theorem sparseGrid_gridSet (g : Grid) (k : CellKey) (c : Cell)
    (hg : sparseGrid g = true) (hc : c ≠ EMPTY_CELL) :
    sparseGrid (gridSet g k c) = true := by
  rw [sparseGrid, gridAll_iff] at hg ⊢
  intro k2 c2 h
  rw [gridGet_gridSet] at h
  by_cases hk : k2 = k
  · rw [if_pos hk] at h
    cases h
    simpa using hc
  · rw [if_neg hk] at h
    exact hg k2 c2 h

theorem sparseGrid_gridDel (g : Grid) (k : CellKey)
    (hg : sparseGrid g = true) : sparseGrid (gridDel g k) = true := by
  rw [sparseGrid, gridAll_iff] at hg ⊢
  intro k2 c2 h
  rw [gridGet_gridDel] at h
  by_cases hk : k2 = k
  · rw [if_pos hk] at h
    cases h
  · rw [if_neg hk] at h
    exact hg k2 c2 h

theorem sparseGrid_write (g : Grid) (k : CellKey) (c : Cell)
    (hg : sparseGrid g = true) :
    sparseGrid (if c = EMPTY_CELL then gridDel g k else gridSet g k c) = true := by
  by_cases hc : c = EMPTY_CELL
  · rw [if_pos hc]
    exact sparseGrid_gridDel g k hg
  · rw [if_neg hc]
    exact sparseGrid_gridSet g k c hg hc

theorem sparseOptCell_gridGet (g : Grid) (k : CellKey)
    (hg : sparseGrid g = true) : sparseOptCell (gridGet g k) = true := by
  rcases h : gridGet g k with _ | c
  · rfl
  · rw [sparseGrid, gridAll_iff] at hg
    simpa [sparseOptCell] using hg k c h

theorem sparseGrid_writeCells (w h : Int) (cells : List ProjectState.CellWrite) :
    ∀ g : Grid, sparseGrid g = true →
      sparseGrid (ProjectState.writeCells w h cells g).1 = true := by
  have main : ∀ (cells : List ProjectState.CellWrite) (acc : Grid × Nat),
      sparseGrid acc.1 = true →
      sparseGrid (cells.foldl
        (fun (acc : Grid × Nat) cw =>
          if !isInBounds cw.x cw.y w h then acc
          else
            if cw.cell = EMPTY_CELL then (gridDel acc.1 (cw.x, cw.y), acc.2 + 1)
            else (gridSet acc.1 (cw.x, cw.y) cw.cell, acc.2 + 1)) acc).1 = true := by
    intro cells
    induction cells with
    | nil => intro acc hacc; exact hacc
    | cons cw rest ih =>
      intro acc hacc
      simp only [List.foldl_cons]
      apply ih
      by_cases hb : (!isInBounds cw.x cw.y w h) = true
      · rw [if_pos hb]
        exact hacc
      · rw [if_neg hb]
        by_cases hc : cw.cell = EMPTY_CELL
        · rw [if_pos hc]
          exact sparseGrid_gridDel _ _ hacc
        · rw [if_neg hc]
          exact sparseGrid_gridSet _ _ _ hacc hc
  intro g hg
  exact main cells (g, 0) hg

theorem sparseGrid_foldWrite (c : Cell) (keys : List CellKey) :
    ∀ g : Grid, sparseGrid g = true →
      sparseGrid (keys.foldl
        (fun g2 k => if c = EMPTY_CELL then gridDel g2 k else gridSet g2 k c) g)
        = true := by
  induction keys with
  | nil => intro g hg; exact hg
  | cons k rest ih =>
    intro g hg
    simp only [List.foldl_cons]
    apply ih
    exact sparseGrid_write g k c hg

theorem sparseGrid_clipGrid (w h : Int) (g : Grid)
    (hg : sparseGrid g = true) : sparseGrid (clipGrid w h g) = true := by
  rw [sparseGrid, gridAll_iff] at hg ⊢
  intro k c hk
  rw [clipGrid, gridGet_gridFilter] at hk
  split at hk
  · exact hg k c hk
  · cases hk

theorem all_take (p : α → Bool) (l : List α) (n : Nat)
    (h : l.all p = true) : (l.take n).all p = true := by
  rw [List.all_eq_true] at h ⊢
  exact fun x hx => h x (List.mem_of_mem_take hx)

theorem all_drop (p : α → Bool) (l : List α) (n : Nat)
    (h : l.all p = true) : (l.drop n).all p = true := by
  rw [List.all_eq_true] at h ⊢
  exact fun x hx => h x (List.mem_of_mem_drop hx)

theorem all_insertAt (p : α → Bool) (l : List α) (i : Nat) (a : α)
    (h : l.all p = true) (ha : p a = true) : (insertAt i a l).all p = true := by
  simp only [insertAt, List.all_append, List.all_cons, Bool.and_eq_true]
  exact ⟨all_take p l i h, ha, all_drop p l i h⟩

theorem all_removeAt (p : α → Bool) (l : List α) (i : Nat)
    (h : l.all p = true) : (removeAt i l).all p = true := by
  simp only [removeAt, List.all_append, Bool.and_eq_true]
  exact ⟨all_take p l i h, all_drop p l (i + 1) h⟩

theorem all_updAt (p : α → Bool) (f : α → α) (l : List α) (i : Nat)
    (h : l.all p = true) (hf : ∀ a, a ∈ l → p a = true → p (f a) = true) :
    (updAt i f l).all p = true := by
  rw [List.all_eq_true] at h ⊢
  intro x hx
  rcases updAt_mem f l i x hx with hmem | ⟨a, ha, rfl⟩
  · exact h x hmem
  · exact hf a ha (h a ha)

theorem all_updFirst (p : α → Bool) (q : α → Bool) (f : α → α) (l : List α)
    (h : l.all p = true) (hf : ∀ a, a ∈ l → p a = true → p (f a) = true) :
    (updFirst q f l).all p = true := by
  rw [List.all_eq_true] at h ⊢
  intro x hx
  rcases updFirst_mem q f l x hx with hmem | ⟨a, ha, rfl⟩
  · exact h x hmem
  · have ha2 : a ∈ l := List.mem_of_find?_eq_some ha
    exact hf a ha2 (h a ha2)

theorem all_perm (p : α → Bool) {l l' : List α} (hp : l.Perm l')
    (h : l.all p = true) : l'.all p = true := by
  rw [List.all_eq_true] at h ⊢
  exact fun x hx => h x (hp.symm.subset hx)

theorem pushHistory_all_sparse (e : HEntry) (s : ProjectState)
    (hst : s.historyStack.all sparseEntry = true)
    (he : sparseEntry e = true) :
    (s.pushHistory e).historyStack.all sparseEntry = true := by
  have happ : ∀ l : List HEntry, l.all sparseEntry = true →
      (l ++ [e]).all sparseEntry = true := by
    intro l hl
    rw [List.all_append]
    simp [hl, he]
  unfold ProjectState.pushHistory
  dsimp only
  split <;> split
  · exact all_drop _ _ _ (happ _ (all_take _ _ _ hst))
  · exact happ _ (all_take _ _ _ hst)
  · exact all_drop _ _ _ (happ _ hst)
  · exact happ _ hst

theorem sparseDoc_parts (d : Doc) :
    sparseDoc d = true ↔
      (∀ fr ∈ d.frames, sparseGrid fr.data = true) ∧
      (∀ l ∈ d.layers, ∀ cf ∈ l.contentFrames, sparseGrid cf.data = true) := by
  rw [sparseDoc, Bool.and_eq_true, List.all_eq_true, List.all_eq_true]
  constructor
  · rintro ⟨h1, h2⟩
    refine ⟨h1, fun l hl cf hcf => ?_⟩
    have h3 := h2 l hl
    rw [List.all_eq_true] at h3
    exact h3 cf hcf
  · rintro ⟨h1, h2⟩
    refine ⟨h1, fun l hl => ?_⟩
    rw [List.all_eq_true]
    exact fun cf hcf => h2 l hl cf hcf

theorem mem_removeAt {x : α} (l : List α) (i : Nat)
    (h : x ∈ removeAt i l) : x ∈ l := by
  simp only [removeAt, List.mem_append] at h
  rcases h with h | h
  · exact List.mem_of_mem_take h
  · exact List.mem_of_mem_drop h

theorem mem_insertAt {x a : α} (l : List α) (i : Nat)
    (h : x ∈ insertAt i a l) : x = a ∨ x ∈ l := by
  simp only [insertAt, List.mem_append, List.mem_cons] at h
  rcases h with h | h | h
  · exact Or.inr (List.mem_of_mem_take h)
  · exact Or.inl h
  · exact Or.inr (List.mem_of_mem_drop h)

theorem sparseDoc_reclamp (d : Doc) :
    sparseDoc (reclampCurrentFrame d) = sparseDoc d := by
  unfold reclampCurrentFrame
  split <;> rfl

theorem sparseDoc_applyGridTarget (t : GridTarget) (f : Grid → Grid) (d : Doc)
    (hf : ∀ g, sparseGrid g = true → sparseGrid (f g) = true)
    (hd : sparseDoc d = true) : sparseDoc (applyGridTarget t f d) = true := by
  rw [sparseDoc_parts] at hd
  obtain ⟨hF, hL⟩ := hd
  cases t with
  | legacyFrame i =>
    simp only [applyGridTarget]
    rw [sparseDoc_parts]
    dsimp only
    constructor
    · intro fr hfr
      rcases updAt_mem _ _ _ fr hfr with hmem | ⟨a, ha, rfl⟩
      · exact hF fr hmem
      · exact hf _ (hF a ha)
    · exact hL
  | layerCf li ci =>
    simp only [applyGridTarget, updCfData]
    rw [sparseDoc_parts]
    dsimp only
    constructor
    · exact hF
    · intro l hl cf hcf
      rcases updAt_mem _ _ _ l hl with hmem | ⟨a, ha, rfl⟩
      · exact hL l hmem cf hcf
      · dsimp only at hcf
        rcases updAt_mem _ _ _ cf hcf with hmem2 | ⟨b, hb, rfl⟩
        · exact hL a ha cf hmem2
        · exact hf _ (hL a ha b hb)

theorem restoreFrameData_all_sparse :
    ∀ (gs : List Grid) (frs : List Frame),
      gs.all sparseGrid = true →
      frs.all (fun fr => sparseGrid fr.data) = true →
      (restoreFrameData gs frs).all (fun fr => sparseGrid fr.data) = true
  | _, [], _, _ => by simp [restoreFrameData]
  | [], fr :: frs, hg, hf => by
    simp only [restoreFrameData, List.all_cons, Bool.and_eq_true] at hf ⊢
    exact ⟨hf.1, restoreFrameData_all_sparse [] frs hg hf.2⟩
  | g :: gs, fr :: frs, hg, hf => by
    simp only [restoreFrameData, List.all_cons, Bool.and_eq_true] at hg hf ⊢
    exact ⟨hg.1, restoreFrameData_all_sparse gs frs hg.2 hf.2⟩

theorem sparse_frame_getD (frs : List Frame) (i : Nat)
    (h : frs.all (fun fr => sparseGrid fr.data) = true) :
    sparseGrid (frs.getD i ProjectState.junkFrame).data = true := by
  rcases hg : frs.get? i with _ | fr
  · rw [List.getD_eq_getD_get?, hg]
    exact sparseGrid_empty
  · rw [List.getD_eq_getD_get?, hg]
    rw [List.all_eq_true] at h
    exact h fr (List.get?_mem hg)

theorem sparseDoc_undoAct (e : HEntry) (d : Doc)
    (he : sparseEntry e = true) (hd : sparseDoc d = true) :
    sparseDoc (e.undoAct d) = true := by
  cases e with
  | setCell t key prev cell =>
    simp only [HEntry.undoAct]
    refine sparseDoc_applyGridTarget _ _ _ ?_ hd
    intro g hg
    rcases prev with _ | c
    · exact sparseGrid_gridDel _ _ hg
    · simp only [sparseEntry, sparseOptCell, decide_eq_true_eq] at he
      exact sparseGrid_gridSet _ _ _ hg he
  | replaceData t prev new =>
    simp only [HEntry.undoAct]
    simp only [sparseEntry, Bool.and_eq_true] at he
    exact sparseDoc_applyGridTarget _ _ _ (fun g _ => he.1) hd
  | resizeCanvas pw ph w h prevData =>
    simp only [HEntry.undoAct]
    rw [sparseDoc_parts] at hd
    obtain ⟨hF, hL⟩ := hd
    rw [sparseDoc_parts]
    dsimp only
    refine ⟨?_, hL⟩
    intro fr hfr
    have hall : (restoreFrameData prevData d.frames).all
        (fun fr => sparseGrid fr.data) = true := by
      apply restoreFrameData_all_sparse
      · simpa [sparseEntry] using he
      · rw [List.all_eq_true]
        exact hF
    rw [List.all_eq_true] at hall
    exact hall fr hfr
  | addFrame i fr =>
    simp only [HEntry.undoAct]
    rw [sparseDoc_reclamp]
    rw [sparseDoc_parts] at hd
    obtain ⟨hF, hL⟩ := hd
    rw [sparseDoc_parts]
    dsimp only
    exact ⟨fun fr2 hfr2 => hF fr2 (mem_removeAt _ _ hfr2), hL⟩
  | deleteFrame i fr prevIdx =>
    simp only [HEntry.undoAct]
    rw [sparseDoc_parts] at hd
    obtain ⟨hF, hL⟩ := hd
    rw [sparseDoc_parts]
    dsimp only
    refine ⟨?_, hL⟩
    intro fr2 hfr2
    rcases mem_insertAt _ _ hfr2 with rfl | hmem
    · simpa [sparseEntry] using he
    · exact hF fr2 hmem
  | duplicateFrame i fr =>
    simp only [HEntry.undoAct]
    rw [sparseDoc_parts] at hd
    obtain ⟨hF, hL⟩ := hd
    rw [sparseDoc_parts]
    dsimp only
    exact ⟨fun fr2 hfr2 => hF fr2 (mem_removeAt _ _ hfr2), hL⟩
  | setFrameDuration i prev dur =>
    simp only [HEntry.undoAct]
    rw [sparseDoc_parts] at hd
    obtain ⟨hF, hL⟩ := hd
    rw [sparseDoc_parts]
    dsimp only
    refine ⟨?_, hL⟩
    intro fr hfr
    rcases updAt_mem _ _ _ fr hfr with hmem | ⟨a, ha, rfl⟩
    · exact hF fr hmem
    · exact hF a ha
  | setFrameName i prev nm =>
    simp only [HEntry.undoAct]
    rw [sparseDoc_parts] at hd
    obtain ⟨hF, hL⟩ := hd
    rw [sparseDoc_parts]
    dsimp only
    refine ⟨?_, hL⟩
    intro fr hfr
    rcases updAt_mem _ _ _ fr hfr with hmem | ⟨a, ha, rfl⟩
    · exact hF fr hmem
    · exact hF a ha

theorem sparseDoc_redoAct (e : HEntry) (d : Doc)
    (he : sparseEntry e = true) (hd : sparseDoc d = true) :
    sparseDoc (e.redoAct d) = true := by
  cases e with
  | setCell t key prev cell =>
    simp only [HEntry.redoAct]
    refine sparseDoc_applyGridTarget _ _ _ ?_ hd
    intro g hg
    exact sparseGrid_write g key cell hg
  | replaceData t prev new =>
    simp only [HEntry.redoAct]
    simp only [sparseEntry, Bool.and_eq_true] at he
    exact sparseDoc_applyGridTarget _ _ _ (fun g _ => he.2) hd
  | resizeCanvas pw ph w h prevData =>
    simp only [HEntry.redoAct]
    rw [sparseDoc_parts] at hd
    obtain ⟨hF, hL⟩ := hd
    rw [sparseDoc_parts]
    dsimp only
    refine ⟨?_, hL⟩
    intro fr hfr
    rcases List.mem_map.mp hfr with ⟨a, ha, rfl⟩
    exact sparseGrid_clipGrid _ _ _ (hF a ha)
  | addFrame i fr =>
    simp only [HEntry.redoAct]
    rw [sparseDoc_parts] at hd
    obtain ⟨hF, hL⟩ := hd
    rw [sparseDoc_parts]
    dsimp only
    refine ⟨?_, hL⟩
    intro fr2 hfr2
    rcases mem_insertAt _ _ hfr2 with rfl | hmem
    · simpa [sparseEntry] using he
    · exact hF fr2 hmem
  | deleteFrame i fr prevIdx =>
    simp only [HEntry.redoAct]
    rw [sparseDoc_reclamp]
    rw [sparseDoc_parts] at hd
    obtain ⟨hF, hL⟩ := hd
    rw [sparseDoc_parts]
    dsimp only
    exact ⟨fun fr2 hfr2 => hF fr2 (mem_removeAt _ _ hfr2), hL⟩
  | duplicateFrame i fr =>
    simp only [HEntry.redoAct]
    rw [sparseDoc_parts] at hd
    obtain ⟨hF, hL⟩ := hd
    rw [sparseDoc_parts]
    dsimp only
    refine ⟨?_, hL⟩
    intro fr2 hfr2
    rcases mem_insertAt _ _ hfr2 with rfl | hmem
    · simpa [sparseEntry] using he
    · exact hF fr2 hmem
  | setFrameDuration i prev dur =>
    simp only [HEntry.redoAct]
    rw [sparseDoc_parts] at hd
    obtain ⟨hF, hL⟩ := hd
    rw [sparseDoc_parts]
    dsimp only
    refine ⟨?_, hL⟩
    intro fr hfr
    rcases updAt_mem _ _ _ fr hfr with hmem | ⟨a, ha, rfl⟩
    · exact hF fr hmem
    · exact hF a ha
  | setFrameName i prev nm =>
    simp only [HEntry.redoAct]
    rw [sparseDoc_parts] at hd
    obtain ⟨hF, hL⟩ := hd
    rw [sparseDoc_parts]
    dsimp only
    refine ⟨?_, hL⟩
    intro fr hfr
    rcases updAt_mem _ _ _ fr hfr with hmem | ⟨a, ha, rfl⟩
    · exact hF fr hmem
    · exact hF a ha

theorem undo_sparse (s : ProjectState) (hS : sparseState s = true) :
    sparseState (ProjectState.undo s).2 = true := by
  unfold ProjectState.undo
  split
  · exact hS
  · split
    next heq => exact hS
    next e heq =>
      rw [sparseState, Bool.and_eq_true] at hS
      obtain ⟨hd, hst⟩ := hS
      have he : sparseEntry e = true := by
        rw [List.all_eq_true] at hst
        exact hst e (List.get?_mem heq)
      rw [sparseState, Bool.and_eq_true]
      exact ⟨sparseDoc_undoAct e s.doc he hd, hst⟩

theorem redo_sparse (s : ProjectState) (hS : sparseState s = true) :
    sparseState (ProjectState.redo s).2 = true := by
  unfold ProjectState.redo
  split
  · exact hS
  · dsimp only
    split
    next heq => exact hS
    next e heq =>
      rw [sparseState, Bool.and_eq_true] at hS
      obtain ⟨hd, hst⟩ := hS
      have he : sparseEntry e = true := by
        rw [List.all_eq_true] at hst
        exact hst e (List.get?_mem heq)
      rw [sparseState, Bool.and_eq_true]
      exact ⟨sparseDoc_redoAct e s.doc he hd, hst⟩

theorem pushHistory_doc (e : HEntry) (s : ProjectState) :
    (s.pushHistory e).doc = s.doc := by
  unfold ProjectState.pushHistory
  dsimp only
  split <;> split <;> rfl

theorem sparseState_build (s1 : ProjectState) (d : Doc) (dirt : Bool)
    (hd : sparseDoc d = true)
    (hstk : s1.historyStack.all sparseEntry = true) :
    sparseState { s1 with doc := d, isDirty := dirt } = true := by
  rw [sparseState, Bool.and_eq_true]
  exact ⟨hd, hstk⟩

theorem sparse_activeTarget_cf (s : ProjectState) (li : Nat) (layer : MCPLayer)
    (ci : Nat) (cf : MCPContentFrame)
    (hat : s.activeTarget = some (li, layer, ci, cf))
    (hd : sparseDoc s.doc = true) : sparseGrid cf.data = true := by
  obtain ⟨h1, h2⟩ := activeTarget_spec s li layer ci cf hat
  rw [sparseDoc_parts] at hd
  exact hd.2 layer (List.get?_mem h1) cf (List.get?_mem h2)

theorem sparse_getCurrentFrame (s : ProjectState)
    (hd : sparseDoc s.doc = true) :
    sparseGrid (ProjectState.getCurrentFrame s).data = true := by
  rw [sparseDoc_parts] at hd
  have hall : s.doc.frames.all (fun fr => sparseGrid fr.data) = true := by
    rw [List.all_eq_true]
    exact hd.1
  exact sparse_frame_getD _ _ hall

theorem sparse_readGridTarget (t : GridTarget) (d : Doc)
    (hd : sparseDoc d = true) : sparseGrid (readGridTarget t d) = true := by
  rw [sparseDoc_parts] at hd
  cases t with
  | layerCf li ci =>
    simp only [readGridTarget]
    rcases h1 : d.layers.get? li with _ | l
    · exact sparseGrid_empty
    · simp only [h1]
      rcases h2 : l.contentFrames.get? ci with _ | cf
      · exact sparseGrid_empty
      · simp only [h2]
        exact hd.2 l (List.get?_mem h1) cf (List.get?_mem h2)
  | legacyFrame i =>
    simp only [readGridTarget]
    rcases h1 : d.frames.get? i with _ | fr
    · exact sparseGrid_empty
    · simp only [h1]
      exact hd.1 fr (List.get?_mem h1)

theorem setCell_sparse (x y : Int) (cell : Cell) (b : Bool) (s : ProjectState)
    (hS : sparseState s = true) :
    sparseState (ProjectState.setCell x y cell b s).2 = true := by
  have hS0 := hS
  rw [sparseState, Bool.and_eq_true] at hS0
  obtain ⟨hd, hst⟩ := hS0
  unfold ProjectState.setCell
  dsimp only
  by_cases hb : (!isInBounds x y s.doc.width s.doc.height) = true
  · rw [if_pos hb]
    exact hS
  · rw [if_neg hb]
    by_cases hm : s.isLayerMode = true
    · rw [if_pos hm]
      rcases hat : s.activeTarget with _ | ⟨li, layer, ci, cf⟩
      · simp only [hat]
        exact hS
      · simp only [hat]
        by_cases hlk : layer.locked = true
        · rw [if_pos hlk]
          exact hS
        · rw [if_neg hlk]
          apply sparseState_build
          · refine sparseDoc_applyGridTarget _ _ _
              (fun g hg => sparseGrid_write g _ cell hg) ?_
            split
            · rw [pushHistory_doc]
              exact hd
            · exact hd
          · split
            · apply pushHistory_all_sparse _ _ hst
              simp only [sparseEntry]
              exact sparseOptCell_gridGet _ _
                (sparse_activeTarget_cf s li layer ci cf hat hd)
            · exact hst
    · rw [if_neg hm]
      apply sparseState_build
      · refine sparseDoc_applyGridTarget _ _ _
          (fun g hg => sparseGrid_write g _ cell hg) ?_
        split
        · rw [pushHistory_doc]
          exact hd
        · exact hd
      · split
        · apply pushHistory_all_sparse _ _ hst
          simp only [sparseEntry]
          exact sparseOptCell_gridGet _ _ (sparse_getCurrentFrame s hd)
        · exact hst

theorem setCells_sparse (cells : List ProjectState.CellWrite) (b : Bool)
    (s : ProjectState) (hS : sparseState s = true) :
    sparseState (ProjectState.setCells cells b s).2 = true := by
  have hS0 := hS
  rw [sparseState, Bool.and_eq_true] at hS0
  obtain ⟨hd, hst⟩ := hS0
  unfold ProjectState.setCells
  dsimp only
  by_cases hm : s.isLayerMode = true
  · rw [if_pos hm]
    rcases hat : s.activeTarget with _ | ⟨li, layer, ci, cf⟩
    · simp only [hat]
      exact hS
    · simp only [hat]
      by_cases hlk : layer.locked = true
      · rw [if_pos hlk]
        exact hS
      · rw [if_neg hlk]
        have hcf : sparseGrid cf.data = true :=
          sparse_activeTarget_cf s li layer ci cf hat hd
        have hnew : sparseGrid
            (ProjectState.writeCells s.doc.width s.doc.height cells cf.data).1
              = true :=
          sparseGrid_writeCells _ _ _ _ hcf
        split
        all_goals
          apply sparseState_build
        · refine sparseDoc_applyGridTarget _ _ _ (fun g _ => hnew) ?_
          split
          · rw [pushHistory_doc]
            exact hd
          · exact hd
        · split
          · apply pushHistory_all_sparse _ _ hst
            simp only [sparseEntry, Bool.and_eq_true]
            exact ⟨hcf, hnew⟩
          · exact hst
        · refine sparseDoc_applyGridTarget _ _ _ (fun g _ => hnew) ?_
          split
          · rw [pushHistory_doc]
            exact hd
          · exact hd
        · split
          · apply pushHistory_all_sparse _ _ hst
            simp only [sparseEntry, Bool.and_eq_true]
            exact ⟨hcf, hnew⟩
          · exact hst
  · rw [if_neg hm]
    have hcur : sparseGrid (ProjectState.getCurrentFrame s).data = true :=
      sparse_getCurrentFrame s hd
    have hnew : sparseGrid
        (ProjectState.writeCells s.doc.width s.doc.height cells
          (ProjectState.getCurrentFrame s).data).1 = true :=
      sparseGrid_writeCells _ _ _ _ hcur
    split
    all_goals
      apply sparseState_build
    · refine sparseDoc_applyGridTarget _ _ _ (fun g _ => hnew) ?_
      split
      · rw [pushHistory_doc]
        exact hd
      · exact hd
    · split
      · apply pushHistory_all_sparse _ _ hst
        simp only [sparseEntry, Bool.and_eq_true]
        exact ⟨hcur, hnew⟩
      · exact hst
    · refine sparseDoc_applyGridTarget _ _ _ (fun g _ => hnew) ?_
      split
      · rw [pushHistory_doc]
        exact hd
      · exact hd
    · split
      · apply pushHistory_all_sparse _ _ hst
        simp only [sparseEntry, Bool.and_eq_true]
        exact ⟨hcur, hnew⟩
      · exact hst

theorem clearCanvas_sparse (b : Bool) (s : ProjectState)
    (hS : sparseState s = true) :
    sparseState (ProjectState.clearCanvas b s) = true := by
  have hS0 := hS
  rw [sparseState, Bool.and_eq_true] at hS0
  obtain ⟨hd, hst⟩ := hS0
  unfold ProjectState.clearCanvas
  dsimp only
  by_cases hm : s.isLayerMode = true
  · rw [if_pos hm]
    rcases hat : s.activeTarget with _ | ⟨li, layer, ci, cf⟩
    · simp only [hat]
      exact hS
    · simp only [hat]
      by_cases hlk : layer.locked = true
      · rw [if_pos hlk]
        exact hS
      · rw [if_neg hlk]
        apply sparseState_build
        · refine sparseDoc_applyGridTarget _ _ _
            (fun g _ => sparseGrid_empty) ?_
          split
          · rw [pushHistory_doc]
            exact hd
          · exact hd
        · split
          · apply pushHistory_all_sparse _ _ hst
            simp only [sparseEntry, Bool.and_eq_true]
            exact ⟨sparse_activeTarget_cf s li layer ci cf hat hd, sparseGrid_empty⟩
          · exact hst
  · rw [if_neg hm]
    apply sparseState_build
    · refine sparseDoc_applyGridTarget _ _ _ (fun g _ => sparseGrid_empty) ?_
      split
      · rw [pushHistory_doc]
        exact hd
      · exact hd
    · split
      · apply pushHistory_all_sparse _ _ hst
        simp only [sparseEntry, Bool.and_eq_true]
        exact ⟨sparse_getCurrentFrame s hd, sparseGrid_empty⟩
      · exact hst

theorem fillRegion_sparse (x y : Int) (c : Cell) (o : ProjectState.FillOptions)
    (s : ProjectState) (hS : sparseState s = true) :
    sparseState (ProjectState.fillRegion x y c o true s).2 = true := by
  have hS0 := hS
  rw [sparseState, Bool.and_eq_true] at hS0
  obtain ⟨hd, hst⟩ := hS0
  unfold ProjectState.fillRegion
  dsimp only
  by_cases hm : s.isLayerMode = true
  · rw [if_pos hm]
    rcases hat : s.activeTarget with _ | ⟨li, layer, ci, cf⟩
    · simp only [hat]
      exact hS
    · simp only [hat]
      have hprev : sparseGrid (readGridTarget (GridTarget.layerCf li ci) s.doc)
          = true := sparse_readGridTarget _ _ hd
      have hnew : sparseGrid
          ((ProjectState.cellsToFill s x y o (s.getCell x y)).foldl
            (fun g k => if c = EMPTY_CELL then gridDel g k else gridSet g k c)
            (readGridTarget (GridTarget.layerCf li ci) s.doc)) = true :=
        sparseGrid_foldWrite c _ _ hprev
      split
      all_goals
        apply sparseState_build
      · refine sparseDoc_applyGridTarget _ _ _ (fun g _ => hnew) ?_
        split
        · rw [pushHistory_doc]
          exact hd
        · exact hd
      · split
        · apply pushHistory_all_sparse _ _ hst
          simp only [sparseEntry, Bool.and_eq_true]
          exact ⟨hprev, hnew⟩
        · exact hst
      · refine sparseDoc_applyGridTarget _ _ _ (fun g _ => hnew) ?_
        split
        · rw [pushHistory_doc]
          exact hd
        · exact hd
      · split
        · apply pushHistory_all_sparse _ _ hst
          simp only [sparseEntry, Bool.and_eq_true]
          exact ⟨hprev, hnew⟩
        · exact hst
  · rw [if_neg hm]
    dsimp only
    have hprev : sparseGrid (readGridTarget
        (GridTarget.legacyFrame s.doc.currentFrameIndex) s.doc) = true :=
      sparse_readGridTarget _ _ hd
    have hnew : sparseGrid
        ((ProjectState.cellsToFill s x y o (s.getCell x y)).foldl
          (fun g k => if c = EMPTY_CELL then gridDel g k else gridSet g k c)
          (readGridTarget (GridTarget.legacyFrame s.doc.currentFrameIndex) s.doc))
          = true :=
      sparseGrid_foldWrite c _ _ hprev
    split
    all_goals
      apply sparseState_build
    · refine sparseDoc_applyGridTarget _ _ _ (fun g _ => hnew) ?_
      split
      · rw [pushHistory_doc]
        exact hd
      · exact hd
    · split
      · apply pushHistory_all_sparse _ _ hst
        simp only [sparseEntry, Bool.and_eq_true]
        exact ⟨hprev, hnew⟩
      · exact hst
    · refine sparseDoc_applyGridTarget _ _ _ (fun g _ => hnew) ?_
      split
      · rw [pushHistory_doc]
        exact hd
      · exact hd
    · split
      · apply pushHistory_all_sparse _ _ hst
        simp only [sparseEntry, Bool.and_eq_true]
        exact ⟨hprev, hnew⟩
      · exact hst

theorem resizeCanvas_sparse (w0 h0 : Int) (s : ProjectState)
    (hS : sparseState s = true) :
    sparseState (ProjectState.resizeCanvas w0 h0 true s) = true := by
  have hS0 := hS
  rw [sparseState, Bool.and_eq_true] at hS0
  obtain ⟨hd, hst⟩ := hS0
  obtain ⟨hdF, hdL⟩ := (sparseDoc_parts s.doc).mp hd
  unfold ProjectState.resizeCanvas
  dsimp only
  simp only [eq_self_iff_true, if_true]
  rw [pushHistory_doc]
  apply sparseState_build
  · rw [sparseDoc_parts]
    dsimp only
    constructor
    · intro fr hfr
      rcases List.mem_map.mp hfr with ⟨a, ha, rfl⟩
      exact sparseGrid_clipGrid _ _ _ (hdF a ha)
    · exact hdL
  · apply pushHistory_all_sparse _ _ hst
    simp only [sparseEntry]
    rw [List.all_eq_true]
    intro g hg
    rcases List.mem_map.mp hg with ⟨fr, hfr, rfl⟩
    exact hdF fr hfr

theorem addFrame_sparse (ai : Option Nat) (cd : Option Grid) (dur : Option ℚ)
    (s : ProjectState) (hS : sparseState s = true)
    (hcd : sparseGrid (cd.getD ∅) = true) :
    sparseState (ProjectState.addFrame ai cd dur true s).2 = true := by
  have hS0 := hS
  rw [sparseState, Bool.and_eq_true] at hS0
  obtain ⟨hd, hst⟩ := hS0
  obtain ⟨hdF, hdL⟩ := (sparseDoc_parts s.doc).mp hd
  unfold ProjectState.addFrame
  simp only [freshId]
  simp only [eq_self_iff_true, if_true]
  apply sparseState_build
  · rw [pushHistory_doc]
    rw [sparseDoc_parts]
    dsimp only
    constructor
    · intro fr hfr
      rcases mem_insertAt _ _ hfr with rfl | hmem
      · exact hcd
      · exact hdF fr hmem
    · exact hdL
  · apply pushHistory_all_sparse
    · exact hst
    · simp only [sparseEntry]
      exact hcd

theorem deleteFrame_sparse (idx : Int) (s : ProjectState)
    (hS : sparseState s = true) :
    sparseState (ProjectState.deleteFrame idx true s).2 = true := by
  have hS0 := hS
  rw [sparseState, Bool.and_eq_true] at hS0
  obtain ⟨hd, hst⟩ := hS0
  obtain ⟨hdF, hdL⟩ := (sparseDoc_parts s.doc).mp hd
  have hallF : s.doc.frames.all (fun fr => sparseGrid fr.data) = true := by
    rw [List.all_eq_true]
    exact hdF
  unfold ProjectState.deleteFrame
  dsimp only
  split
  · exact hS
  · split
    · exact hS
    · simp only [eq_self_iff_true, if_true]
      apply sparseState_build
      · rw [pushHistory_doc, sparseDoc_reclamp, sparseDoc_parts]
        dsimp only
        exact ⟨fun fr hfr => hdF fr (mem_removeAt _ _ hfr), hdL⟩
      · apply pushHistory_all_sparse _ _ hst
        simp only [sparseEntry]
        exact sparse_frame_getD _ _ hallF

theorem duplicateFrame_sparse (idx : Int) (s : ProjectState)
    (hS : sparseState s = true) :
    sparseState (ProjectState.duplicateFrame idx true s).2 = true := by
  have hS0 := hS
  rw [sparseState, Bool.and_eq_true] at hS0
  obtain ⟨hd, hst⟩ := hS0
  obtain ⟨hdF, hdL⟩ := (sparseDoc_parts s.doc).mp hd
  have hallF : s.doc.frames.all (fun fr => sparseGrid fr.data) = true := by
    rw [List.all_eq_true]
    exact hdF
  unfold ProjectState.duplicateFrame
  dsimp only [freshId]
  split
  · exact hS
  · simp only [eq_self_iff_true, if_true]
    apply sparseState_build
    · rw [pushHistory_doc, sparseDoc_parts]
      dsimp only
      constructor
      · intro fr hfr
        rcases mem_insertAt _ _ hfr with rfl | hmem
        · exact sparse_frame_getD _ _ hallF
        · exact hdF fr hmem
      · exact hdL
    · apply pushHistory_all_sparse
      · exact hst
      · simp only [sparseEntry]
        exact sparse_frame_getD _ _ hallF

theorem setFrameDuration_sparse (idx : Int) (q : ℚ) (s : ProjectState)
    (hS : sparseState s = true) :
    sparseState (ProjectState.setFrameDuration idx q true s).2 = true := by
  have hS0 := hS
  rw [sparseState, Bool.and_eq_true] at hS0
  obtain ⟨hd, hst⟩ := hS0
  obtain ⟨hdF, hdL⟩ := (sparseDoc_parts s.doc).mp hd
  unfold ProjectState.setFrameDuration
  dsimp only
  split
  · exact hS
  · simp only [eq_self_iff_true, if_true]
    apply sparseState_build
    · rw [pushHistory_doc, sparseDoc_parts]
      dsimp only
      refine ⟨?_, hdL⟩
      intro fr hfr
      rcases updAt_mem _ _ _ fr hfr with hmem | ⟨a, ha, rfl⟩
      · exact hdF fr hmem
      · exact hdF a ha
    · apply pushHistory_all_sparse _ _ hst
      rfl

theorem setFrameName_sparse (idx : Int) (nm : String) (s : ProjectState)
    (hS : sparseState s = true) :
    sparseState (ProjectState.setFrameName idx nm true s).2 = true := by
  have hS0 := hS
  rw [sparseState, Bool.and_eq_true] at hS0
  obtain ⟨hd, hst⟩ := hS0
  obtain ⟨hdF, hdL⟩ := (sparseDoc_parts s.doc).mp hd
  unfold ProjectState.setFrameName
  dsimp only
  split
  · exact hS
  · simp only [eq_self_iff_true, if_true]
    apply sparseState_build
    · rw [pushHistory_doc, sparseDoc_parts]
      dsimp only
      refine ⟨?_, hdL⟩
      intro fr hfr
      rcases updAt_mem _ _ _ fr hfr with hmem | ⟨a, ha, rfl⟩
      · exact hdF fr hmem
      · exact hdF a ha
    · apply pushHistory_all_sparse _ _ hst
      rfl

theorem goToFrame_sparse (i : Int) (s : ProjectState)
    (hS : sparseState s = true) :
    sparseState (ProjectState.goToFrame i s).2 = true := by
  unfold ProjectState.goToFrame
  repeat' split
  all_goals exact hS

theorem addLayer_sparse (nm : Option String) (s : ProjectState)
    (hS : sparseState s = true) :
    sparseState (ProjectState.addLayer nm s).2 = true := by
  have hS0 := hS
  rw [sparseState, Bool.and_eq_true] at hS0
  obtain ⟨hd, hst⟩ := hS0
  obtain ⟨hdF, hdL⟩ := (sparseDoc_parts s.doc).mp hd
  unfold ProjectState.addLayer
  dsimp only [freshId]
  rw [sparseState, Bool.and_eq_true]
  refine ⟨?_, hst⟩
  rw [sparseDoc_parts]
  dsimp only
  refine ⟨hdF, ?_⟩
  intro l hl
  rcases List.mem_append.mp hl with hmem | hl2
  · exact hdL l hmem
  · rw [List.mem_singleton] at hl2
    subst hl2
    intro cf hcf
    simp only [createDefaultLayer, List.mem_singleton] at hcf
    subst hcf
    exact sparseGrid_empty

theorem setActiveLayer_sparse (lid : String) (s : ProjectState)
    (hS : sparseState s = true) :
    sparseState (ProjectState.setActiveLayer lid s).2 = true := by
  unfold ProjectState.setActiveLayer
  split
  · exact hS
  · exact hS

theorem setLayerLocked_sparse (lid : String) (b : Bool) (s : ProjectState)
    (hS : sparseState s = true) :
    sparseState (ProjectState.setLayerLocked lid b s).2 = true := by
  have hS0 := hS
  rw [sparseState, Bool.and_eq_true] at hS0
  obtain ⟨hd, hst⟩ := hS0
  obtain ⟨hdF, hdL⟩ := (sparseDoc_parts s.doc).mp hd
  unfold ProjectState.setLayerLocked
  split
  · rw [sparseState, Bool.and_eq_true]
    refine ⟨?_, hst⟩
    rw [sparseDoc_parts]
    dsimp only
    refine ⟨hdF, ?_⟩
    intro l hl
    rcases updFirst_mem _ _ _ l hl with hmem | ⟨a, ha, rfl⟩
    · exact hdL l hmem
    · exact hdL a (List.mem_of_find?_eq_some ha)
  · exact hS

theorem addContentFrame_sparse (lid : String) (sf df : Int) (gOpt : Option Grid)
    (s : ProjectState) (hS : sparseState s = true)
    (hg : sparseGrid (gOpt.getD ∅) = true) :
    sparseState (ProjectState.addContentFrame lid sf df gOpt s).2 = true := by
  have hS0 := hS
  rw [sparseState, Bool.and_eq_true] at hS0
  obtain ⟨hd, hst⟩ := hS0
  obtain ⟨hdF, hdL⟩ := (sparseDoc_parts s.doc).mp hd
  unfold ProjectState.addContentFrame
  split
  · exact hS
  · dsimp only [freshId]
    split
    · exact hS
    · rw [sparseState, Bool.and_eq_true]
      refine ⟨?_, hst⟩
      rw [sparseDoc_parts]
      dsimp only
      refine ⟨hdF, ?_⟩
      intro l hl
      rcases updFirst_mem _ _ _ l hl with hmem | ⟨a, ha, rfl⟩
      · exact hdL l hmem
      · intro cf hcf
        dsimp only at hcf
        have hcf2 := (stableSortBy_perm _ _).subset hcf
        rcases List.mem_append.mp hcf2 with hmem2 | hcf3
        · exact hdL a (List.mem_of_find?_eq_some ha) cf hmem2
        · rw [List.mem_singleton] at hcf3
          subst hcf3
          exact hg

theorem removeContentFrame_sparse (lid cid : String) (s : ProjectState)
    (hS : sparseState s = true) :
    sparseState (ProjectState.removeContentFrame lid cid s).2 = true := by
  have hS0 := hS
  rw [sparseState, Bool.and_eq_true] at hS0
  obtain ⟨hd, hst⟩ := hS0
  obtain ⟨hdF, hdL⟩ := (sparseDoc_parts s.doc).mp hd
  unfold ProjectState.removeContentFrame
  split
  · exact hS
  · split
    · exact hS
    · rw [sparseState, Bool.and_eq_true]
      refine ⟨?_, hst⟩
      rw [sparseDoc_parts]
      dsimp only
      refine ⟨hdF, ?_⟩
      intro l hl
      rcases updFirst_mem _ _ _ l hl with hmem | ⟨a, ha, rfl⟩
      · exact hdL l hmem
      · intro cf hcf
        dsimp only at hcf
        exact hdL a (List.mem_of_find?_eq_some ha) cf (mem_removeAt _ _ hcf)

theorem updateContentFrameData_sparse (lid cid : String) (g : Grid)
    (s : ProjectState) (hS : sparseState s = true)
    (hg : sparseGrid g = true) :
    sparseState (ProjectState.updateContentFrameData lid cid g s).2 = true := by
  have hS0 := hS
  rw [sparseState, Bool.and_eq_true] at hS0
  obtain ⟨hd, hst⟩ := hS0
  obtain ⟨hdF, hdL⟩ := (sparseDoc_parts s.doc).mp hd
  unfold ProjectState.updateContentFrameData
  split
  · exact hS
  · split
    · rw [sparseState, Bool.and_eq_true]
      refine ⟨?_, hst⟩
      rw [sparseDoc_parts]
      dsimp only
      refine ⟨hdF, ?_⟩
      intro l hl
      rcases updFirst_mem _ _ _ l hl with hmem | ⟨a, ha, rfl⟩
      · exact hdL l hmem
      · intro cf hcf
        dsimp only at hcf
        rcases updFirst_mem _ _ _ cf hcf with hmem2 | ⟨b, hb, rfl⟩
        · exact hdL a (List.mem_of_find?_eq_some ha) cf hmem2
        · exact hg
    · exact hS

theorem updateContentFrameTiming_sparse (lid cid : String) (sf df : Int)
    (s : ProjectState) (hS : sparseState s = true) :
    sparseState (ProjectState.updateContentFrameTiming lid cid sf df s).2 = true := by
  have hS0 := hS
  rw [sparseState, Bool.and_eq_true] at hS0
  obtain ⟨hd, hst⟩ := hS0
  obtain ⟨hdF, hdL⟩ := (sparseDoc_parts s.doc).mp hd
  unfold ProjectState.updateContentFrameTiming
  split
  · exact hS
  · dsimp only
    split
    · exact hS
    · split
      · exact hS
      · rw [sparseState, Bool.and_eq_true]
        refine ⟨?_, hst⟩
        rw [sparseDoc_parts]
        dsimp only
        refine ⟨hdF, ?_⟩
        intro l hl
        rcases updFirst_mem _ _ _ l hl with hmem | ⟨a, ha, rfl⟩
        · exact hdL l hmem
        · intro cf hcf
          dsimp only at hcf
          have hcf2 := (stableSortBy_perm _ _).subset hcf
          rcases updFirst_mem _ _ _ cf hcf2 with hmem2 | ⟨b, hb, rfl⟩
          · exact hdL a (List.mem_of_find?_eq_some ha) cf hmem2
          · exact hdL a (List.mem_of_find?_eq_some ha) b
              (List.mem_of_find?_eq_some hb)

theorem addPropertyTrack_sparse (lid p : String) (s : ProjectState)
    (hS : sparseState s = true) :
    sparseState (ProjectState.addPropertyTrack lid p s).2 = true := by
  have hS0 := hS
  rw [sparseState, Bool.and_eq_true] at hS0
  obtain ⟨hd, hst⟩ := hS0
  obtain ⟨hdF, hdL⟩ := (sparseDoc_parts s.doc).mp hd
  unfold ProjectState.addPropertyTrack
  split
  · exact hS
  · split
    · exact hS
    · dsimp only [freshId]
      rw [sparseState, Bool.and_eq_true]
      refine ⟨?_, hst⟩
      rw [sparseDoc_parts]
      dsimp only
      refine ⟨hdF, ?_⟩
      intro l hl
      rcases updFirst_mem _ _ _ l hl with hmem | ⟨a, ha, rfl⟩
      · exact hdL l hmem
      · exact hdL a (List.mem_of_find?_eq_some ha)

theorem addKeyframe_sparse (lid p : String) (f : Int) (v : ℚ)
    (e : Option EasingCurve) (s : ProjectState)
    (hS : sparseState s = true) :
    sparseState (ProjectState.addKeyframe lid p f v e s).2 = true := by
  unfold ProjectState.addKeyframe
  split
  · exact hS
  · dsimp only [freshId]
    split
    · -- the track already exists: the base state is s
      have hS0 := hS
      rw [sparseState, Bool.and_eq_true] at hS0
      obtain ⟨hd, hst⟩ := hS0
      obtain ⟨hdF, hdL⟩ := (sparseDoc_parts s.doc).mp hd
      rw [sparseState, Bool.and_eq_true]
      refine ⟨?_, hst⟩
      rw [sparseDoc_parts]
      dsimp only
      refine ⟨hdF, ?_⟩
      intro l hl
      rcases updFirst_mem _ _ _ l hl with hmem | ⟨a, ha, rfl⟩
      · exact hdL l hmem
      · exact hdL a (List.mem_of_find?_eq_some ha)
    · -- the track is created first
      have hS2 := addPropertyTrack_sparse lid p s hS
      have hS0 := hS2
      rw [sparseState, Bool.and_eq_true] at hS0
      obtain ⟨hd, hst⟩ := hS0
      obtain ⟨hdF, hdL⟩ :=
        (sparseDoc_parts (ProjectState.addPropertyTrack lid p s).2.doc).mp hd
      rw [sparseState, Bool.and_eq_true]
      refine ⟨?_, hst⟩
      rw [sparseDoc_parts]
      dsimp only
      refine ⟨hdF, ?_⟩
      intro l hl
      rcases updFirst_mem _ _ _ l hl with hmem | ⟨a, ha, rfl⟩
      · exact hdL l hmem
      · exact hdL a (List.mem_of_find?_eq_some ha)

theorem sparseState_default (n : Nat) :
    sparseState (createDefaultState n) = true := by
  rw [sparseState, Bool.and_eq_true]
  constructor
  · rw [sparseDoc_parts]
    constructor
    · intro fr hfr
      simp only [createDefaultState] at hfr
      rw [List.mem_singleton] at hfr
      subst hfr
      exact sparseGrid_empty
    · intro l hl
      exact absurd hl (List.not_mem_nil l)
  · rfl

theorem newProject_sparse (opts : ProjectState.NewProjectOptions)
    (s : ProjectState) :
    sparseState (ProjectState.newProject opts s) = true := by
  unfold ProjectState.newProject
  dsimp only
  repeat' split
  all_goals exact sparseState_default s.nextId

theorem loadWireFrames_sparse :
    ∀ (k : Nat) (wfs : List WireFrame),
      wfs.all (fun f =>
        match f.data with
        | some g => sparseGrid g
        | none => true) = true →
      (loadWireFrames k wfs).all (fun fr => sparseGrid fr.data) = true
  | _, [], _ => rfl
  | k, f :: fs, h => by
    simp only [List.all_cons, Bool.and_eq_true] at h
    simp only [loadWireFrames, List.all_cons, Bool.and_eq_true]
    constructor
    · show sparseGrid (f.data.getD ∅) = true
      rcases hdd : f.data with _ | g
      · exact sparseGrid_empty
      · have h1 := h.1
        simp only [hdd] at h1
        exact h1
    · exact loadWireFrames_sparse (k + 1) fs h.2

theorem loadFromSessionData_sparse (d : SessionData) (fp : Option String)
    (s : ProjectState)
    (hIn : d.animation.frames.all (fun f =>
      match f.data with
      | some g => sparseGrid g
      | none => true) = true) :
    sparseState (ProjectState.loadFromSessionData d fp s) = true := by
  unfold ProjectState.loadFromSessionData
  dsimp only
  rw [sparseState, Bool.and_eq_true]
  constructor
  · rw [sparseDoc_parts]
    dsimp only
    constructor
    · intro fr hfr
      split at hfr
      · rw [List.mem_singleton] at hfr
        subst hfr
        exact sparseGrid_empty
      · have hall := loadWireFrames_sparse 0 d.animation.frames hIn
        rw [List.all_eq_true] at hall
        exact hall fr hfr
    · intro l hl
      exact absurd hl (List.not_mem_nil l)
  · rfl

theorem applyOp_sparse (o : Op) (s : ProjectState)
    (hS : sparseState s = true) (hIn : opInputsSparse o = true) :
    sparseState (applyOp o s) = true := by
  cases o with
  | setCell x y cell => exact setCell_sparse x y cell true s hS
  | setCells cells => exact setCells_sparse cells true s hS
  | clearCell x y => exact setCell_sparse x y EMPTY_CELL true s hS
  | clearCanvas => exact clearCanvas_sparse true s hS
  | resizeCanvas w h => exact resizeCanvas_sparse w h s hS
  | fillRegion x y c o2 => exact fillRegion_sparse x y c o2 s hS
  | addFrame ai cd dur =>
    refine addFrame_sparse ai cd dur s hS ?_
    rcases cd with _ | g
    · exact sparseGrid_empty
    · simpa [opInputsSparse] using hIn
  | deleteFrame i => exact deleteFrame_sparse i s hS
  | duplicateFrame i => exact duplicateFrame_sparse i s hS
  | goToFrame i => exact goToFrame_sparse i s hS
  | setFrameDuration i q => exact setFrameDuration_sparse i q s hS
  | setFrameName i nm => exact setFrameName_sparse i nm s hS
  | addLayer nm => exact addLayer_sparse nm s hS
  | setActiveLayer lid => exact setActiveLayer_sparse lid s hS
  | setLayerLocked lid b => exact setLayerLocked_sparse lid b s hS
  | addContentFrame lid sf df gOpt =>
    refine addContentFrame_sparse lid sf df gOpt s hS ?_
    rcases gOpt with _ | g
    · exact sparseGrid_empty
    · simpa [opInputsSparse] using hIn
  | removeContentFrame lid cid => exact removeContentFrame_sparse lid cid s hS
  | updateContentFrameData lid cid g =>
    exact updateContentFrameData_sparse lid cid g s hS
      (by simpa [opInputsSparse] using hIn)
  | updateContentFrameTiming lid cid sf df =>
    exact updateContentFrameTiming_sparse lid cid sf df s hS
  | addKeyframe lid p fr v e => exact addKeyframe_sparse lid p fr v e s hS
  | newProject opts => exact newProject_sparse opts s
  | loadFromSessionData d =>
    exact loadFromSessionData_sparse d none s
      (by simpa [opInputsSparse] using hIn)
  | undo => exact undo_sparse s hS
  | redo => exact redo_sparse s hS

theorem runOps_sparse (ops : List Op) :
    ∀ s : ProjectState, sparseState s = true →
      ops.all opInputsSparse = true → sparseState (runOps ops s) = true := by
  induction ops with
  | nil => exact fun s hS _ => hS
  | cons o rest ih =>
    intro s hS hIn
    simp only [List.all_cons, Bool.and_eq_true] at hIn
    exact ih (applyOp o s) (applyOp_sparse o s hS hIn.1) hIn.2

theorem gridGet_empty (k : CellKey) : gridGet (∅ : Grid) k = none := by
  simp [gridGet]

theorem isEmpty_updAt (f : α → α) (l : List α) (i : Nat) :
    (updAt i f l).isEmpty = l.isEmpty := by
  cases l <;> cases i <;> rfl

theorem findIdx?_updAt (p : α → Bool) (f : α → α) :
    ∀ (l : List α) (i st : Nat), (∀ a, p (f a) = p a) →
      List.findIdx? p (updAt i f l) st = List.findIdx? p l st
  | [], _, _, _ => by simp [updAt]
  | a :: l, 0, st, hf => by
    simp only [updAt, List.findIdx?_cons, hf]
  | a :: l, i + 1, st, hf => by
    simp only [updAt, List.findIdx?_cons, findIdx?_updAt p f l i (st + 1) hf]

theorem pushHistory_activeLayerId (e : HEntry) (s : ProjectState) :
    (s.pushHistory e).activeLayerId = s.activeLayerId := by
  unfold ProjectState.pushHistory
  dsimp only
  split <;> split <;> rfl

theorem activeTarget_parts (s : ProjectState) (li : Nat) (layer : MCPLayer)
    (ci : Nat) (cf : MCPContentFrame)
    (h : s.activeTarget = some (li, layer, ci, cf)) :
    s.getActiveLayerIdx = some li ∧
    s.doc.layers.get? li = some layer ∧
    ProjectState.cfIdxAtTime layer (s.doc.currentFrameIndex : Int) = some ci ∧
    layer.contentFrames.get? ci = some cf := by
  unfold ProjectState.activeTarget at h
  rcases Option.bind_eq_some.mp h with ⟨li2, hli, h2⟩
  rcases Option.bind_eq_some.mp h2 with ⟨layer2, hlayer, h3⟩
  rcases Option.bind_eq_some.mp h3 with ⟨ci2, hci, h4⟩
  rcases Option.map_eq_some'.mp h4 with ⟨cf2, hcf, heq⟩
  simp only [Prod.mk.injEq] at heq
  obtain ⟨rfl, rfl, rfl, rfl⟩ := heq
  exact ⟨hli, hlayer, hci, hcf⟩

theorem getActiveLayerIdx_congr (t t2 : ProjectState)
    (hali : t2.activeLayerId = t.activeLayerId)
    (hfind : ∀ lid : String,
      List.findIdx? (fun l => l.id == lid) t2.doc.layers 0 =
        List.findIdx? (fun l => l.id == lid) t.doc.layers 0) :
    t2.getActiveLayerIdx = t.getActiveLayerIdx := by
  rw [ProjectState.getActiveLayerIdx, ProjectState.getActiveLayerIdx, hali]
  rcases t.activeLayerId with _ | lid
  · rfl
  · dsimp only
    by_cases hemp : lid = ""
    · rw [if_pos hemp, if_pos hemp]
    · rw [if_neg hemp, if_neg hemp]
      exact hfind lid

theorem storedCell_after_write (x y : Int) (t t2 : ProjectState)
    (li ci : Nat) (layer : MCPLayer) (cf : MCPContentFrame) (f : Grid → Grid)
    (hat : t.activeTarget = some (li, layer, ci, cf))
    (hm : t.isLayerMode = true)
    (hdoc : t2.doc = applyGridTarget (GridTarget.layerCf li ci) f t.doc)
    (hali : t2.activeLayerId = t.activeLayerId)
    (hf : ∀ g, gridGet (f g) (x, y) = none) :
    ProjectState.storedCell t2 x y = none := by
  obtain ⟨hALI, hgetli, hcfidx, hgetci⟩ := activeTarget_parts t li layer ci cf hat
  have hcfi : t2.doc.currentFrameIndex = t.doc.currentFrameIndex := by
    rw [hdoc]
    rfl
  have hlayers : t2.doc.layers = updCfData li ci f t.doc.layers := by
    rw [hdoc]
    rfl
  have hlm2 : t2.isLayerMode = true := by
    rw [ProjectState.isLayerMode, hlayers]
    simp only [updCfData]
    rw [isEmpty_updAt]
    rw [ProjectState.isLayerMode] at hm
    exact hm
  have hALI2 : t2.getActiveLayerIdx = some li := by
    refine (getActiveLayerIdx_congr t t2 hali ?_).trans hALI
    intro lid
    rw [hlayers]
    simp only [updCfData]
    rw [findIdx?_updAt]
    exact fun a => rfl
  have hGAL2 : t2.getActiveLayer = some { layer with contentFrames := updAt ci (fun c2 => { c2 with data := f c2.data }) layer.contentFrames } := by
    rw [ProjectState.getActiveLayer, hALI2, Option.some_bind]
    rw [hlayers]
    simp only [updCfData]
    rw [updAt_get?, if_pos rfl, hgetli]
    rfl
  have hGCF2 : t2.getActiveContentFrame = some { cf with data := f cf.data } := by
    simp only [ProjectState.getActiveContentFrame, hGAL2]
    rw [hcfi]
    rw [ProjectState.getContentFrameAtTime, ProjectState.cfIdxAtTime]
    dsimp only
    rw [findIdx?_updAt]
    · rw [ProjectState.cfIdxAtTime] at hcfidx
      rw [hcfidx, Option.some_bind]
      rw [updAt_get?, if_pos rfl, hgetci]
      rfl
    · exact fun a => rfl
  rw [ProjectState.storedCell, if_pos hlm2]
  simp only [hGCF2]
  exact hf cf.data

theorem storedCell_after_write_legacy (x y : Int) (t t2 : ProjectState)
    (f : Grid → Grid)
    (hm : t.isLayerMode = false)
    (hdoc : t2.doc = applyGridTarget
      (GridTarget.legacyFrame t.doc.currentFrameIndex) f t.doc)
    (hf : ∀ g, gridGet (f g) (x, y) = none) :
    ProjectState.storedCell t2 x y = none := by
  have hlayers : t2.doc.layers = t.doc.layers := by
    rw [hdoc]
    rfl
  have hcfi : t2.doc.currentFrameIndex = t.doc.currentFrameIndex := by
    rw [hdoc]
    rfl
  have hframes : t2.doc.frames = updAt t.doc.currentFrameIndex (fun fr => { fr with data := f fr.data }) t.doc.frames := by
    rw [hdoc]
    rfl
  have hlm2 : t2.isLayerMode = false := by
    rw [ProjectState.isLayerMode, hlayers]
    rw [ProjectState.isLayerMode] at hm
    exact hm
  rw [ProjectState.storedCell, if_neg (by rw [hlm2]; simp)]
  rw [ProjectState.getCurrentFrame, hcfi, hframes]
  rw [List.getD_eq_getD_get?, updAt_get?, if_pos rfl]
  rcases hg : t.doc.frames.get? t.doc.currentFrameIndex with _ | fr
  · exact gridGet_empty (x, y)
  · exact hf fr.data

theorem setCell_empty_removes (x y : Int) (b : Bool) (t : ProjectState)
    (hsucc : (ProjectState.setCell x y EMPTY_CELL b t).1 = true) :
    ProjectState.storedCell (ProjectState.setCell x y EMPTY_CELL b t).2 x y
      = none := by
  have hfdel : ∀ g : Grid,
      gridGet ((fun g2 => if EMPTY_CELL = EMPTY_CELL then gridDel g2 (x, y)
        else gridSet g2 (x, y) EMPTY_CELL) g) (x, y) = none := by
    intro g
    show gridGet (if EMPTY_CELL = EMPTY_CELL then gridDel g (x, y)
      else gridSet g (x, y) EMPTY_CELL) (x, y) = none
    rw [if_pos rfl, gridGet_gridDel, if_pos rfl]
  unfold ProjectState.setCell at hsucc ⊢
  dsimp only at hsucc ⊢
  by_cases hb : (!isInBounds x y t.doc.width t.doc.height) = true
  · rw [if_pos hb] at hsucc
    simp at hsucc
  · rw [if_neg hb] at hsucc ⊢
    by_cases hm : t.isLayerMode = true
    · rw [if_pos hm] at hsucc ⊢
      rcases hat : t.activeTarget with _ | ⟨li, layer, ci, cf⟩
      · simp only [hat] at hsucc
        simp at hsucc
      · simp only [hat] at hsucc ⊢
        by_cases hlk : layer.locked = true
        · rw [if_pos hlk] at hsucc
          simp at hsucc
        · rw [if_neg hlk]
          split
          · refine storedCell_after_write x y t _ li ci layer cf _ hat hm ?_ ?_ hfdel
            · dsimp only
              rw [pushHistory_doc]
              rfl
            · dsimp only
              rw [pushHistory_activeLayerId]
          · refine storedCell_after_write x y t _ li ci layer cf _ hat hm ?_ ?_ hfdel
            · rfl
            · rfl
    · rw [if_neg hm] at hsucc ⊢
      split
      · refine storedCell_after_write_legacy x y t _ _ (by simpa using hm) ?_ hfdel
        dsimp only
        rw [pushHistory_doc]
      · refine storedCell_after_write_legacy x y t _ _ (by simpa using hm) ?_ hfdel
        rfl

/-- C3 (amended): for any sequence of public operations whose
caller-supplied grids are themselves sparse, the sparsity invariant is
preserved from any sparse starting state: no grid of the resulting state
— legacy frame data, layer content-frame data, or any grid captured on
the history stack — stores a cell equal to the empty value; and a
successful write of the empty value to a coordinate always removes that
coordinate's key from the addressed grid.  Without the caller-grid
restriction the invariant fails, as the counterexample shows: `addFrame`,
`addContentFrame`, `updateContentFrameData` and `loadFromSessionData`
store caller grids verbatim. -/
theorem c3_sparsity (ops : List Op) (s : ProjectState)
    (hS : sparseState s = true)
    (hIn : ops.all opInputsSparse = true) :
    sparseState (runOps ops s) = true ∧
    ∀ (x y : Int) (b : Bool) (t : ProjectState),
      (ProjectState.setCell x y EMPTY_CELL b t).1 = true →
      ProjectState.storedCell (ProjectState.setCell x y EMPTY_CELL b t).2 x y
        = none :=
  ⟨runOps_sparse ops s hS hIn,
   fun x y b t hsucc => setCell_empty_removes x y b t hsucc⟩

set_option maxRecDepth 10000 in
/-- C3 fails as stated: one public `addFrame` call whose canvas data
stores the empty value at `"0,0"` produces a document whose second frame
grid stores a cell equal to the empty value — the engine copies caller
grids verbatim, so the unrestricted invariant is false. -/
theorem c3_counterexample :
    sparseState (runOps
      [Op.addFrame none (some (gridSet ∅ (0, 0) EMPTY_CELL)) none]
      baseState) = false ∧
    gridGet ((runOps
        [Op.addFrame none (some (gridSet ∅ (0, 0) EMPTY_CELL)) none]
        baseState).doc.frames.getD 1 ProjectState.junkFrame).data (0, 0)
      = some EMPTY_CELL :=
  ⟨by decide, by decide⟩

set_option maxRecDepth 10000 in
/-- C3 witness: a pencil write keeps the default project sparse, and a
clearing write removes the written key. -/
theorem c3_sparsity_witness :
    sparseState (runOps [Op.setCell 1 1 wallCell] baseState) = true ∧
    ProjectState.storedCell
      (ProjectState.setCell 2 2 EMPTY_CELL true baseState).2 2 2 = none := by
  obtain ⟨h1, h2⟩ :=
    c3_sparsity [Op.setCell 1 1 wallCell] baseState (by decide) (by decide)
  exact ⟨h1, h2 2 2 true baseState (by decide)⟩

end AsciiMotion
